import Mathlib

/-!
# TAK negotiation / deal core: shallow embedding of the server routes

The ledger of `tak-server/src/db.js` (tables `agents`, `requests`, `offers`,
`deals`) is a record of lists, in row order.  Every route handler of
`routes/requests.js`, `routes/offers.js` and `routes/deals.js` is a pure
function from the ledger and the call's inputs to the new ledger and the HTTP
response.

Conventions of the embedding

* `SELECT … WHERE id=?` followed by `.get` is `List.find?` (first row);
  `UPDATE … WHERE …` is a `List.map` over all rows matching the condition;
  `INSERT` appends a row; `DELETE` is a `List.filter`.
* A statement that SQLite refuses (PRIMARY KEY clash, FOREIGN KEY violation
  under `pragma foreign_keys = ON`) throws in the handler; Express turns the
  exception into status 500 and the ledger is unchanged.
* Everything the handlers read from outside the ledger is an explicit input:
  the twelve hexadecimal characters cut from `uuidv4()`, the clock
  `new Date().toISOString()`, and the execution adapter.
* Amounts are the INTEGER columns of the schema and are modelled as `Int`.
  The `created_at` columns and the `name` joined from `agents` are never read
  by the handlers' logic and are left out.  The `agents` table is kept as
  the list of its primary keys.
* Calls are served one after the other.  The idempotency middleware of
  `index.js` is `serve`, a wrapper around any route; the process state is then
  the ledger together with the in-memory `idempotencyStore`.
-/

namespace TAK

/-! ## Data model (db.js) -/

/-- Column `requests.status`, CHECK(status IN ('open','closed','cancelled')). -/
inductive RequestStatus where
  | open_
  | closed
  | cancelled
deriving DecidableEq, Repr

/-- Column `offers.status`, CHECK(status IN ('pending','accepted','rejected')). -/
inductive OfferStatus where
  | pending
  | accepted
  | rejected
deriving DecidableEq, Repr

/-- Column `deals.status`,
CHECK(status IN ('awaiting_approval','approved','executed','failed','cancelled')). -/
inductive DealStatus where
  | awaiting_approval
  | approved
  | executed
  | failed
  | cancelled
deriving DecidableEq, Repr

/-- A row of table `requests`. -/
structure Request where
  id : String
  requester_agent_id : String
  service_query : String
  max_price_nano : Int
  status : RequestStatus
deriving DecidableEq, Repr

/-- A row of table `offers`. -/
structure Offer where
  id : String
  request_id : String
  provider_agent_id : String
  price_nano : Int
  terms : Option String
  status : OfferStatus
deriving DecidableEq, Repr

/-- A row of table `deals`. -/
structure Deal where
  id : String
  request_id : String
  offer_id : String
  payer_agent_id : String
  payee_agent_id : String
  amount_nano : Int
  status : DealStatus
  execution_receipt : Option String
  executed_at : Option String
  approved_at : Option String
deriving DecidableEq, Repr

/-- The ledger: the four tables the negotiation core reads and writes. -/
structure Db where
  agents : List String
  requests : List Request
  offers : List Offer
  deals : List Deal
deriving DecidableEq, Repr

/-- The ledger before any request, offer or deal exists. -/
def emptyLedger (agents : List String) : Db :=
  { agents := agents, requests := [], offers := [], deals := [] }

/-! ## Request bodies and responses -/

/-- A JSON value received where the handler expects an amount: absent,
an integer number, or any other value (`null`, a non-integer number, a string,
a boolean …), for which `Number.isInteger` is false. -/
inductive JsAmount where
  | undefined
  | int (n : Int)
  | nonInteger
deriving DecidableEq, Repr

/-- The `error` text of a failure response, one constructor per message of the
route handlers. -/
inductive ErrorMsg where
  | requestFieldsRequired
  | maxPriceNotPositiveInteger
  | requesterAgentNotFound
  | requestNotFound
  | invalidRequestStatus
  | offerFieldsRequired
  | priceNotPositiveInteger
  | cannotOfferOn (status : RequestStatus)
  | exceedsCeiling (price_nano : Int) (max_price_nano : Int)
  | providerAgentNotFound
  | offerNotFound
  | offerAlready (status : OfferStatus)
  | cannotModifyNonPending
  | dealFieldsRequired
  | onlyAcceptedOffers
  | offerNotOfRequest
  | dealAlreadyExists (deal_id : String)
  | dealNotFound
  | cannotApprove (current_status : DealStatus)
  | cannotExecute (current_status : DealStatus)
  | executionFailed (detail : String)
  | onlyCancelledAllowed
  | cannotCancel (status : DealStatus)
  | internalServerError
deriving DecidableEq, Repr

/-- The JSON document sent back by a handler. -/
inductive Body where
  | error (e : ErrorMsg)
  | request (r : Option Request)
  | offer (o : Option Offer)
  | offerAccepted (o : Option Offer) (other_offers_auto_rejected : Nat)
  | deal (d : Option Deal)
  | deleted (id : String)
deriving DecidableEq, Repr

/-- An HTTP response: status code and JSON body. -/
structure Response where
  status : Nat
  body : Body
deriving DecidableEq, Repr

/-- Body of `POST /api/requests`. -/
structure RequestPostBody where
  requester_agent_id : Option String
  service_query : Option String
  max_price_nano : JsAmount
deriving DecidableEq, Repr

/-- Body of `PUT /api/requests/:id`.  `max_price_nano` is `none` for an
absent or `null` field (both become `null` under `??`) and `some n` for an
integer number. -/
structure RequestPutBody where
  service_query : Option String
  max_price_nano : Option Int
  status : Option String
deriving DecidableEq, Repr

/-- Body of `POST /api/offers`. -/
structure OfferPostBody where
  request_id : Option String
  provider_agent_id : Option String
  price_nano : JsAmount
  terms : Option String
deriving DecidableEq, Repr

/-- Body of `PUT /api/offers/:id`. -/
structure OfferPutBody where
  status : Option String
  terms : Option String
  price_nano : JsAmount
deriving DecidableEq, Repr

/-- Body of `POST /api/deals`. -/
structure DealPostBody where
  request_id : Option String
  offer_id : Option String
deriving DecidableEq, Repr

/-- Body of `PUT /api/deals/:id`. -/
structure DealPutBody where
  status : Option String
deriving DecidableEq, Repr

/-! ## JavaScript and SQL helpers -/

/-- JavaScript truthiness of an optional string field: absent and `""` are falsy. -/
def truthy : Option String → Bool
  | none => false
  | some s => s ≠ ""

/-- The JavaScript expression `x || null` on an optional string field. -/
def orNull (x : Option String) : Option String :=
  if truthy x then x else none

/-- The value bound for a field used as a key in `WHERE id=?`. -/
def keyOf (x : Option String) : String := x.getD ""

/-- `Number.isInteger(v) && v > 0`. -/
def isPositiveInteger : JsAmount → Bool
  | JsAmount.int n => decide (0 < n)
  | _ => false

/-- `SELECT * FROM requests WHERE id=?` with `.get`. -/
def findRequest (db : Db) (id : String) : Option Request :=
  db.requests.find? (fun r => r.id = id)

/-- `SELECT * FROM offers WHERE id=?` with `.get`. -/
def findOffer (db : Db) (id : String) : Option Offer :=
  db.offers.find? (fun o => o.id = id)

/-- `SELECT * FROM deals WHERE id=?` with `.get`. -/
def findDeal (db : Db) (id : String) : Option Deal :=
  db.deals.find? (fun d => d.id = id)

/-- `SELECT id FROM deals WHERE offer_id=?` with `.get`. -/
def findDealByOffer (db : Db) (offer_id : String) : Option Deal :=
  db.deals.find? (fun d => d.offer_id = offer_id)

/-- `SELECT id FROM agents WHERE id=?` finds a row. -/
def agentExists (db : Db) (id : String) : Bool :=
  db.agents.contains id

/-- `SELECT r.* … FROM requests r JOIN agents a ON a.id=r.requester_agent_id
WHERE r.id=?`: the row, when its requester is in `agents`. -/
def requestJoined (db : Db) (id : String) : Option Request :=
  (findRequest db id).filter (fun r => agentExists db r.requester_agent_id)

/-- `SELECT o.* … FROM offers o JOIN agents a ON a.id=o.provider_agent_id
WHERE o.id=?`: the row, when its provider is in `agents`. -/
def offerJoined (db : Db) (id : String) : Option Offer :=
  (findOffer db id).filter (fun o => agentExists db o.provider_agent_id)

/-- The text of a request status, as compared by `validStatuses.includes`. -/
def parseRequestStatus (s : String) : Option RequestStatus :=
  if s = "open" then some RequestStatus.open_
  else if s = "closed" then some RequestStatus.closed
  else if s = "cancelled" then some RequestStatus.cancelled
  else none

/-- A failure response. -/
def fail (status : Nat) (e : ErrorMsg) : Response :=
  { status := status, body := Body.error e }

/-- The reply of Express's error handler to an exception thrown by a route. -/
def internalError : Response := fail 500 ErrorMsg.internalServerError

/-! ## routes/requests.js -/

/-- `router.post("/")` of routes/requests.js.  `uuid` is the fragment of
`uuidv4()` the handler appends to `req_`. -/
def requestsPost (db : Db) (uuid : String) (body : RequestPostBody) : Db × Response :=
  if !truthy body.requester_agent_id || !truthy body.service_query
      || body.max_price_nano = JsAmount.undefined then
    (db, fail 400 ErrorMsg.requestFieldsRequired)
  else if !isPositiveInteger body.max_price_nano then
    (db, fail 400 ErrorMsg.maxPriceNotPositiveInteger)
  else
    match body.max_price_nano with
    | JsAmount.int max_price_nano =>
      if !agentExists db (keyOf body.requester_agent_id) then
        (db, fail 404 ErrorMsg.requesterAgentNotFound)
      -- INSERT INTO requests: refused when the primary key is taken
      else if (findRequest db ("req_" ++ uuid)).isSome then (db, internalError)
      else
        let row : Request :=
          { id := "req_" ++ uuid
            requester_agent_id := keyOf body.requester_agent_id
            service_query := keyOf body.service_query
            max_price_nano := max_price_nano
            status := RequestStatus.open_ }
        let db1 := { db with requests := db.requests ++ [row] }
        (db1, { status := 201, body := Body.request (requestJoined db1 row.id) })
    | _ => (db, fail 400 ErrorMsg.maxPriceNotPositiveInteger)

/-- The statement `UPDATE requests SET service_query = COALESCE(?, service_query),
max_price_nano = COALESCE(?, max_price_nano), status = COALESCE(?, status)
WHERE id = ?` on one row. -/
def updateRequestRow (id : String) (service_query : Option String)
    (max_price_nano : Option Int) (status : Option RequestStatus) (r : Request) : Request :=
  if r.id = id then
    { r with
      service_query := service_query.getD r.service_query
      max_price_nano := max_price_nano.getD r.max_price_nano
      status := status.getD r.status }
  else r

/-- `router.put("/:id")` of routes/requests.js. -/
def requestsPut (db : Db) (id : String) (body : RequestPutBody) : Db × Response :=
  match findRequest db id with
  | none => (db, fail 404 ErrorMsg.requestNotFound)
  | some _ =>
    if truthy body.status && (parseRequestStatus (keyOf body.status)).isNone then
      (db, fail 400 ErrorMsg.invalidRequestStatus)
    else
      let db1 := { db with
        requests := db.requests.map
          (updateRequestRow id (orNull body.service_query) body.max_price_nano
            ((orNull body.status).bind parseRequestStatus)) }
      (db1, { status := 200, body := Body.request (requestJoined db1 id) })

/-- `router.delete("/:id")` of routes/requests.js.  With foreign keys on, the
DELETE throws while an offer or a deal still references the request. -/
def requestsDelete (db : Db) (id : String) : Db × Response :=
  match findRequest db id with
  | none => (db, fail 404 ErrorMsg.requestNotFound)
  | some _ =>
    if db.offers.any (fun o => o.request_id = id) || db.deals.any (fun d => d.request_id = id) then
      (db, internalError)
    else
      ({ db with requests := db.requests.filter (fun r => r.id ≠ id) },
        { status := 200, body := Body.deleted id })

/-! ## routes/offers.js -/

/-- `router.post("/")` of routes/offers.js.  `uuid` is the fragment of
`uuidv4()` the handler appends to `off_`. -/
def offersPost (db : Db) (uuid : String) (body : OfferPostBody) : Db × Response :=
  if !truthy body.request_id || !truthy body.provider_agent_id
      || body.price_nano = JsAmount.undefined then
    (db, fail 400 ErrorMsg.offerFieldsRequired)
  else if !isPositiveInteger body.price_nano then
    (db, fail 400 ErrorMsg.priceNotPositiveInteger)
  else
    match body.price_nano with
    | JsAmount.int price_nano =>
      match findRequest db (keyOf body.request_id) with
      | none => (db, fail 404 ErrorMsg.requestNotFound)
      | some request =>
        if request.status ≠ RequestStatus.open_ then
          (db, fail 409 (ErrorMsg.cannotOfferOn request.status))
        else if price_nano > request.max_price_nano then
          (db, fail 409 (ErrorMsg.exceedsCeiling price_nano request.max_price_nano))
        else if !agentExists db (keyOf body.provider_agent_id) then
          (db, fail 404 ErrorMsg.providerAgentNotFound)
        -- INSERT INTO offers: refused when the primary key is taken
        else if (findOffer db ("off_" ++ uuid)).isSome then (db, internalError)
        else
          let row : Offer :=
            { id := "off_" ++ uuid
              request_id := keyOf body.request_id
              provider_agent_id := keyOf body.provider_agent_id
              price_nano := price_nano
              terms := orNull body.terms
              status := OfferStatus.pending }
          let db1 := { db with offers := db.offers ++ [row] }
          (db1, { status := 201, body := Body.offer (offerJoined db1 row.id) })
    | _ => (db, fail 400 ErrorMsg.priceNotPositiveInteger)

/-- The three statements of `acceptTxn`, in order: accept the target, reject
the other pending offers of the same request, close the request. -/
def acceptTxn (db : Db) (offer : Offer) : Db :=
  let offers1 := db.offers.map
    (fun o => if o.id = offer.id then { o with status := OfferStatus.accepted } else o)
  let offers2 := offers1.map
    (fun o =>
      if o.request_id = offer.request_id ∧ o.id ≠ offer.id ∧ o.status = OfferStatus.pending
      then { o with status := OfferStatus.rejected } else o)
  let requests1 := db.requests.map
    (fun r => if r.id = offer.request_id then { r with status := RequestStatus.closed } else r)
  { db with offers := offers2, requests := requests1 }

/-- `SELECT COUNT(*) AS count FROM offers WHERE request_id=? AND status='rejected'`. -/
def countRejected (db : Db) (request_id : String) : Nat :=
  db.offers.countP (fun o => o.request_id = request_id ∧ o.status = OfferStatus.rejected)

/-- The statement `UPDATE offers SET terms = COALESCE(?, terms),
price_nano = COALESCE(?, price_nano) WHERE id = ?` on one row. -/
def updateOfferRow (id : String) (terms : Option String) (price_nano : Option Int)
    (o : Offer) : Offer :=
  if o.id = id then
    { o with terms := (if terms.isSome then terms else o.terms)
             price_nano := price_nano.getD o.price_nano }
  else o

/-- The JavaScript expression `price_nano ?? null`, as bound to the UPDATE
once the handler has let the value through. -/
def amountOrNull : JsAmount → Option Int
  | JsAmount.int n => some n
  | _ => none

/-- `router.put("/:id")` of routes/offers.js: accept, reject, or update the
terms and price of a pending offer. -/
def offersPut (db : Db) (id : String) (body : OfferPutBody) : Db × Response :=
  match findOffer db id with
  | none => (db, fail 404 ErrorMsg.offerNotFound)
  | some offer =>
    if body.status = some "accepted" then
      if offer.status ≠ OfferStatus.pending then
        (db, fail 409 (ErrorMsg.offerAlready offer.status))
      else
        let db1 := acceptTxn db offer
        (db1, { status := 200
                body := Body.offerAccepted (offerJoined db1 id)
                          (countRejected db1 offer.request_id) })
    else if body.status = some "rejected" then
      let db1 := { db with
        offers := db.offers.map
          (fun o => if o.id = offer.id then { o with status := OfferStatus.rejected } else o) }
      (db1, { status := 200, body := Body.offer (findOffer db1 id) })
    else if offer.status ≠ OfferStatus.pending then
      (db, fail 409 ErrorMsg.cannotModifyNonPending)
    else if body.price_nano ≠ JsAmount.undefined && !isPositiveInteger body.price_nano then
      (db, fail 400 ErrorMsg.priceNotPositiveInteger)
    else
      let db1 := { db with
        offers := db.offers.map
          (updateOfferRow id (orNull body.terms) (amountOrNull body.price_nano)) }
      (db1, { status := 200, body := Body.offer (offerJoined db1 id) })

/-- `router.delete("/:id")` of routes/offers.js.  With foreign keys on, the
DELETE throws while a deal still references the offer. -/
def offersDelete (db : Db) (id : String) : Db × Response :=
  match findOffer db id with
  | none => (db, fail 404 ErrorMsg.offerNotFound)
  | some _ =>
    if db.deals.any (fun d => d.offer_id = id) then (db, internalError)
    else
      ({ db with offers := db.offers.filter (fun o => o.id ≠ id) },
        { status := 200, body := Body.deleted id })

/-! ## routes/deals.js -/

/-- The execution adapter injected as `mcpAdapter`: `execute_payment(deal)`
resolves to a receipt or rejects with an error message. -/
abbrev Adapter := Deal → Except String String

/-- `router.post("/")` of routes/deals.js.  `uuid` is the fragment of
`uuidv4()` the handler appends to `deal_`.  The INSERT is refused (foreign
keys on) when the payer or the payee is not a row of `agents`. -/
def dealsPost (db : Db) (uuid : String) (body : DealPostBody) : Db × Response :=
  if !truthy body.request_id || !truthy body.offer_id then
    (db, fail 400 ErrorMsg.dealFieldsRequired)
  else
    match findOffer db (keyOf body.offer_id) with
    | none => (db, fail 404 ErrorMsg.offerNotFound)
    | some offer =>
      if offer.status ≠ OfferStatus.accepted then
        (db, fail 409 ErrorMsg.onlyAcceptedOffers)
      else if offer.request_id ≠ keyOf body.request_id then
        (db, fail 409 ErrorMsg.offerNotOfRequest)
      else
        match findRequest db (keyOf body.request_id) with
        | none => (db, fail 404 ErrorMsg.requestNotFound)
        | some request =>
          match findDealByOffer db (keyOf body.offer_id) with
          | some existing => (db, fail 409 (ErrorMsg.dealAlreadyExists existing.id))
          | none =>
            -- INSERT INTO deals: primary key, then the two agent references
            if (findDeal db ("deal_" ++ uuid)).isSome
                || !agentExists db request.requester_agent_id
                || !agentExists db offer.provider_agent_id then
              (db, internalError)
            else
              let row : Deal :=
                { id := "deal_" ++ uuid
                  request_id := keyOf body.request_id
                  offer_id := keyOf body.offer_id
                  payer_agent_id := request.requester_agent_id
                  payee_agent_id := offer.provider_agent_id
                  amount_nano := offer.price_nano
                  status := DealStatus.awaiting_approval
                  execution_receipt := none
                  executed_at := none
                  approved_at := none }
              let db1 := { db with deals := db.deals ++ [row] }
              (db1, { status := 201, body := Body.deal (findDeal db1 row.id) })

/-- `router.post("/:id/approve")` of routes/deals.js; `now` is
`new Date().toISOString()`. -/
def dealsApprove (db : Db) (id : String) (now : String) : Db × Response :=
  match findDeal db id with
  | none => (db, fail 404 ErrorMsg.dealNotFound)
  | some deal =>
    if deal.status ≠ DealStatus.awaiting_approval then
      (db, fail 409 (ErrorMsg.cannotApprove deal.status))
    else
      let db1 := { db with
        deals := db.deals.map
          (fun d => if d.id = deal.id
            then { d with status := DealStatus.approved, approved_at := some now } else d) }
      (db1, { status := 200, body := Body.deal (findDeal db1 deal.id) })

/-- `router.post("/:id/execute")` of routes/deals.js, run without
interleaving: the adapter is called on the row read at the start, and its
outcome decides between `executed` (receipt and `executed_at` recorded) and
`failed`. -/
def dealsExecute (db : Db) (id : String) (adapter : Adapter) (now : String) : Db × Response :=
  match findDeal db id with
  | none => (db, fail 404 ErrorMsg.dealNotFound)
  | some deal =>
    if deal.status ≠ DealStatus.approved then
      (db, fail 409 (ErrorMsg.cannotExecute deal.status))
    else
      match adapter deal with
      | Except.ok receipt =>
        let db1 := { db with
          deals := db.deals.map
            (fun d => if d.id = deal.id
              then { d with status := DealStatus.executed
                            execution_receipt := some receipt
                            executed_at := some now }
              else d) }
        (db1, { status := 200, body := Body.deal (findDeal db1 deal.id) })
      | Except.error detail =>
        let db1 := { db with
          deals := db.deals.map
            (fun d => if d.id = deal.id then { d with status := DealStatus.failed } else d) }
        (db1, fail 500 (ErrorMsg.executionFailed detail))

/-- `router.put("/:id")` of routes/deals.js: cancel only. -/
def dealsPut (db : Db) (id : String) (body : DealPutBody) : Db × Response :=
  match findDeal db id with
  | none => (db, fail 404 ErrorMsg.dealNotFound)
  | some deal =>
    if body.status ≠ some "cancelled" then
      (db, fail 400 ErrorMsg.onlyCancelledAllowed)
    else if deal.status ≠ DealStatus.awaiting_approval then
      (db, fail 409 (ErrorMsg.cannotCancel deal.status))
    else
      let db1 := { db with
        deals := db.deals.map
          (fun d => if d.id = deal.id then { d with status := DealStatus.cancelled } else d) }
      (db1, { status := 200, body := Body.deal (findDeal db1 deal.id) })

/-- `router.delete("/:id")` of routes/deals.js. -/
def dealsDelete (db : Db) (id : String) : Db × Response :=
  match findDeal db id with
  | none => (db, fail 404 ErrorMsg.dealNotFound)
  | some _ =>
    ({ db with deals := db.deals.filter (fun d => d.id ≠ id) },
      { status := 200, body := Body.deleted id })

/-! ## The operations of the SDK and sequences of calls -/

/-- `TAK.acceptOffer(offerId)`: `PUT /api/offers/:id` with body
`{ status: "accepted" }`. -/
def acceptOffer (db : Db) (offerId : String) : Db × Response :=
  offersPut db offerId
    { status := some "accepted", terms := none, price_nano := JsAmount.undefined }

/-- `TAK.rejectOffer(offerId)`: `PUT /api/offers/:id` with body
`{ status: "rejected" }`. -/
def rejectOffer (db : Db) (offerId : String) : Db × Response :=
  offersPut db offerId
    { status := some "rejected", terms := none, price_nano := JsAmount.undefined }

/-- `TAK.submitOffer(params)`: `POST /api/offers`. -/
def submitOffer (db : Db) (uuid : String) (request_id provider_agent_id : String)
    (price_nano : JsAmount) (terms : Option String) : Db × Response :=
  offersPost db uuid
    { request_id := some request_id, provider_agent_id := some provider_agent_id
      price_nano := price_nano, terms := terms }

/-- `TAK.createDeal(params)`: `POST /api/deals`. -/
def createDeal (db : Db) (uuid : String) (request_id offer_id : String) : Db × Response :=
  dealsPost db uuid { request_id := some request_id, offer_id := some offer_id }

/-- `TAK.cancelDeal(dealId)`: `PUT /api/deals/:id` with body
`{ status: "cancelled" }`. -/
def cancelDeal (db : Db) (dealId : String) : Db × Response :=
  dealsPut db dealId { status := some "cancelled" }

/-- One call to the server.  `setAgents` stands for the routes of
routes/agents.js, which write the `agents` table only; it lets that table
change in any way. -/
inductive Call where
  | requestsPost (uuid : String) (body : RequestPostBody)
  | requestsPut (id : String) (body : RequestPutBody)
  | requestsDelete (id : String)
  | offersPost (uuid : String) (body : OfferPostBody)
  | offersPut (id : String) (body : OfferPutBody)
  | offersDelete (id : String)
  | dealsPost (uuid : String) (body : DealPostBody)
  | dealsApprove (id : String) (now : String)
  | dealsExecute (id : String) (adapter : Adapter) (now : String)
  | dealsPut (id : String) (body : DealPutBody)
  | dealsDelete (id : String)
  | setAgents (agents : List String)

/-- The ledger after one call that is served to its end before the next call
arrives.  All handlers but Execute are synchronous; Execute is taken here
without another call served during its `await` (see `executeBegin` and
`executeFinish` for the two halves of an Execute that is overtaken). -/
def step (db : Db) : Call → Db
  | Call.requestsPost uuid body => (requestsPost db uuid body).1
  | Call.requestsPut id body => (requestsPut db id body).1
  | Call.requestsDelete id => (requestsDelete db id).1
  | Call.offersPost uuid body => (offersPost db uuid body).1
  | Call.offersPut id body => (offersPut db id body).1
  | Call.offersDelete id => (offersDelete db id).1
  | Call.dealsPost uuid body => (dealsPost db uuid body).1
  | Call.dealsApprove id now => (dealsApprove db id now).1
  | Call.dealsExecute id adapter now => (dealsExecute db id adapter now).1
  | Call.dealsPut id body => (dealsPut db id body).1
  | Call.dealsDelete id => (dealsDelete db id).1
  | Call.setAgents agents => { db with agents := agents }

/-- The ledger after a sequence of calls, served one after the other. -/
def run (db : Db) : List Call → Db
  | [] => db
  | c :: cs => run (step db c) cs

/-! ## Properties of ledgers and of sequences of calls -/

/-- The offers of request `request_id` whose status is `accepted`. -/
def acceptedOffers (db : Db) (request_id : String) : List Offer :=
  db.offers.filter (fun o => o.request_id = request_id ∧ o.status = OfferStatus.accepted)

/-- The deals recorded for offer `offer_id`. -/
def dealsOfOffer (db : Db) (offer_id : String) : List Deal :=
  db.deals.filter (fun d => d.offer_id = offer_id)

/-- The call is a `PUT /api/requests/:id` whose body sets `status` to `open`
while the stored request is `closed` or `cancelled`. -/
def reopens (db : Db) : Call → Bool
  | Call.requestsPut id body =>
    (orNull body.status).bind parseRequestStatus = some RequestStatus.open_
      && db.requests.any (fun r => r.id = id && r.status ≠ RequestStatus.open_)
  | _ => false

/-- No call of the sequence, served from `db` on, re-opens a request. -/
def neverReopens (db : Db) : List Call → Bool
  | [] => true
  | c :: cs => !reopens db c && neverReopens (step db c) cs

/-- The two offer UPDATEs of `acceptTxn`, as they act on one row. -/
def acceptRow (offer : Offer) (o : Offer) : Offer :=
  let o1 := if o.id = offer.id then { o with status := OfferStatus.accepted } else o
  if o1.request_id = offer.request_id ∧ o1.id ≠ offer.id ∧ o1.status = OfferStatus.pending
  then { o1 with status := OfferStatus.rejected } else o1

/-- What the negotiation routes keep true of the `offers` and `requests`
tables as long as no request is re-opened: offer ids are unique, every offer
has its request, a request with an accepted offer is not `open`, it has no
pending offer, and it has no second accepted offer. -/
structure NegotiationInv (db : Db) : Prop where
  ids_nodup : (db.offers.map (fun o => o.id)).Nodup
  parent : ∀ o ∈ db.offers, ∃ q ∈ db.requests, q.id = o.request_id
  closed : ∀ o ∈ db.offers, o.status = OfferStatus.accepted →
    ∀ q ∈ db.requests, q.id = o.request_id → q.status ≠ RequestStatus.open_
  no_pending : ∀ o1 ∈ db.offers, ∀ o2 ∈ db.offers, o1.status = OfferStatus.accepted →
    o2.request_id = o1.request_id → o2.status ≠ OfferStatus.pending
  unique : ∀ o1 ∈ db.offers, ∀ o2 ∈ db.offers, o1.status = OfferStatus.accepted →
    o2.status = OfferStatus.accepted → o2.request_id = o1.request_id → o2.id = o1.id

/-! ## Sample ledgers and call sequences -/

/-- The two agents created by seed.js. -/
def sampleAgents : List String := ["ag_buyer_seed_001", "ag_data_seed_001"]

/-- An open request of the buyer with a ceiling of 2 TON. -/
def sampleRequest : Request :=
  { id := "req_1", requester_agent_id := "ag_buyer_seed_001", service_query := "market_data"
    max_price_nano := 2000000000, status := RequestStatus.open_ }

/-- A pending offer of 1.5 TON on `sampleRequest`. -/
def offerA : Offer :=
  { id := "off_a", request_id := "req_1", provider_agent_id := "ag_data_seed_001"
    price_nano := 1500000000, terms := none, status := OfferStatus.pending }

/-- A competing pending offer of 1.8 TON on `sampleRequest`. -/
def offerB : Offer :=
  { id := "off_b", request_id := "req_1", provider_agent_id := "ag_data_seed_001"
    price_nano := 1800000000, terms := none, status := OfferStatus.pending }

/-- One open request with two pending offers. -/
def ledgerTwoOffers : Db :=
  { agents := sampleAgents, requests := [sampleRequest], offers := [offerA, offerB], deals := [] }

/-- The ledger `ledgerTwoOffers` after offer `off_a` has been accepted. -/
def ledgerAccepted : Db := (acceptOffer ledgerTwoOffers "off_a").1

/-- An accepted offer whose `request_id` names no stored request, in a ledger
without referential integrity. -/
def ledgerDangling : Db :=
  { agents := sampleAgents, requests := []
    offers := [{ offerA with status := OfferStatus.accepted }], deals := [] }

/-- Create a request (ceiling 2 TON), submit two offers, accept the first. -/
def negotiationCalls : List Call :=
  [ Call.requestsPost "r1"
      { requester_agent_id := some "ag_buyer_seed_001", service_query := some "market_data"
        max_price_nano := JsAmount.int 2000000000 },
    Call.offersPost "o1"
      { request_id := some "req_r1", provider_agent_id := some "ag_data_seed_001"
        price_nano := JsAmount.int 1500000000, terms := none },
    Call.offersPost "o2"
      { request_id := some "req_r1", provider_agent_id := some "ag_data_seed_001"
        price_nano := JsAmount.int 1800000000, terms := none },
    Call.offersPut "off_o1"
      { status := some "accepted", terms := none, price_nano := JsAmount.undefined } ]

/-- After `negotiationCalls`: re-open the closed request with
`PUT /api/requests/req_r1 { status: "open" }`, submit a third offer and accept it. -/
def reopenCalls : List Call :=
  negotiationCalls ++
  [ Call.requestsPut "req_r1" { service_query := none, max_price_nano := none, status := some "open" },
    Call.offersPost "o3"
      { request_id := some "req_r1", provider_agent_id := some "ag_data_seed_001"
        price_nano := JsAmount.int 1200000000, terms := none },
    Call.offersPut "off_o3"
      { status := some "accepted", terms := none, price_nano := JsAmount.undefined } ]

/-- Create a request (ceiling 2 TON), submit an offer of 1.5 TON, then raise
the pending offer to 2.5 TON with `PUT /api/offers/off_o1 { price_nano: 2500000000 }`. -/
def raisedPriceCalls : List Call :=
  [ Call.requestsPost "r1"
      { requester_agent_id := some "ag_buyer_seed_001", service_query := some "market_data"
        max_price_nano := JsAmount.int 2000000000 },
    Call.offersPost "o1"
      { request_id := some "req_r1", provider_agent_id := some "ag_data_seed_001"
        price_nano := JsAmount.int 1500000000, terms := none },
    Call.offersPut "off_o1"
      { status := none, terms := none, price_nano := JsAmount.int 2500000000 } ]

/-! ## The deal state machine and the adapter calls -/

/-- `router.post("/:id/execute")` of routes/deals.js together with the log of
the arguments handed to `adapter.execute_payment`: the one call site comes
after the 404 and 409 guards and receives the row read at the start. -/
def dealsExecuteLogged (db : Db) (id : String) (adapter : Adapter) (now : String) :
    (Db × Response) × List Deal :=
  match findDeal db id with
  | none => ((db, fail 404 ErrorMsg.dealNotFound), [])
  | some deal =>
    if deal.status ≠ DealStatus.approved then
      ((db, fail 409 (ErrorMsg.cannotExecute deal.status)), [])
    else
      match adapter deal with
      | Except.ok receipt =>
        let db1 := { db with
          deals := db.deals.map
            (fun d => if d.id = deal.id
              then { d with status := DealStatus.executed
                            execution_receipt := some receipt
                            executed_at := some now }
              else d) }
        ((db1, { status := 200, body := Body.deal (findDeal db1 deal.id) }), [deal])
      | Except.error detail =>
        let db1 := { db with
          deals := db.deals.map
            (fun d => if d.id = deal.id then { d with status := DealStatus.failed } else d) }
        ((db1, fail 500 (ErrorMsg.executionFailed detail)), [deal])

/-- The edges of the state machine in the header comment of routes/deals.js:
awaiting_approval → approved → executed, approved → failed,
awaiting_approval → cancelled. -/
def legalEdge : DealStatus → DealStatus → Bool
  | DealStatus.awaiting_approval, DealStatus.approved => true
  | DealStatus.awaiting_approval, DealStatus.cancelled => true
  | DealStatus.approved, DealStatus.executed => true
  | DealStatus.approved, DealStatus.failed => true
  | _, _ => false

/-- The states without outgoing edge: executed, failed, cancelled. -/
def isTerminal : DealStatus → Bool
  | DealStatus.executed => true
  | DealStatus.failed => true
  | DealStatus.cancelled => true
  | _ => false

/-- The sequence `cs`, served from `db0` on, contains a call
`POST /api/deals/:id/approve` on `id` at time `now` that was answered 200. -/
def approvedIn (db0 : Db) (cs : List Call) (id now : String) : Prop :=
  ∃ pre post, cs = pre ++ Call.dealsApprove id now :: post
    ∧ (dealsApprove (run db0 pre) id now).2.status = 200

/-- What the deal routes keep true along a sequence `cs` served from `db0`:
deal ids are unique, and a deal that is approved, executed or failed carries
the `approved_at` written by an Approve call of the sequence. -/
structure ApprovalInv (db0 : Db) (cs : List Call) (db : Db) : Prop where
  reached : db = run db0 cs
  ids_nodup : (db.deals.map (fun d => d.id)).Nodup
  approved : ∀ d ∈ db.deals,
    d.status = DealStatus.approved ∨ d.status = DealStatus.executed
      ∨ d.status = DealStatus.failed →
    ∃ now, d.approved_at = some now ∧ approvedIn db0 cs d.id now

/-! ## The idempotency middleware (index.js) -/

/-- A value of `idempotencyStore`: `{ status: res.statusCode, data }`. -/
structure Cached where
  status : Nat
  data : Body
deriving DecidableEq, Repr

/-- `idempotencyStore.get(key)` on the `Map`, kept as an association list. -/
def cacheGet (store : List (String × Cached)) (key : String) : Option Cached :=
  (store.find? (fun e => e.1 = key)).map (fun e => e.2)

/-- `idempotencyStore.delete(key)`. -/
def cacheDelete (store : List (String × Cached)) (key : String) : List (String × Cached) :=
  store.filter (fun e => e.1 ≠ key)

/-- `idempotencyStore.set(key, value)`. -/
def cacheSet (store : List (String × Cached)) (key : String) (value : Cached) :
    List (String × Cached) :=
  (key, value) :: cacheDelete store key

/-- The process: the ledger and the module-level `idempotencyStore`. -/
structure Server where
  db : Db
  idempotencyStore : List (String × Cached)
deriving DecidableEq, Repr

/-- `req.headers["idempotency-key"] || req.body?.idempotency_key`. -/
def idempotencyKey (header bodyField : Option String) : Option String :=
  if truthy header then header else bodyField

/-- `["POST", "PUT", "DELETE"].includes(req.method)`. -/
def isMutating (method : String) : Bool :=
  ["POST", "PUT", "DELETE"].contains method

/-- The wrapped `res.json`: a response with `200 <= statusCode < 300` is
stored under the key, any other response is not. -/
def record (store : List (String × Cached)) (key : String) (res : Response) :
    List (String × Cached) :=
  if 200 ≤ res.status ∧ res.status < 300 then
    cacheSet store key { status := res.status, data := res.body }
  else store

/-- `next()` without the middleware taking part: the route runs on the ledger. -/
def passThrough (s : Server) (next : Db → Db × Response) : Server × Response :=
  ({ s with db := (next s.db).1 }, (next s.db).2)

/-- The idempotency middleware of index.js in front of a route.  `next` is
the route the request reaches (with its inputs); `header` and `bodyField` are
the two places a client key can come from.  On a hit the cached status and
data are sent and `next` is not called. -/
def serve (s : Server) (method : String) (header bodyField : Option String)
    (next : Db → Db × Response) : Server × Response :=
  if isMutating method then
    if truthy (idempotencyKey header bodyField) then
      match cacheGet s.idempotencyStore (keyOf (idempotencyKey header bodyField)) with
      | some cached => (s, { status := cached.status, body := cached.data })
      | none =>
        ({ db := (next s.db).1
           idempotencyStore :=
             record s.idempotencyStore (keyOf (idempotencyKey header bodyField)) (next s.db).2 },
          (next s.db).2)
    else passThrough s next
  else passThrough s next

/-- The callback of `setTimeout(() => idempotencyStore.delete(idempotencyKey), 86400000)`:
the end of the retention window of `key`. -/
def expire (s : Server) (key : String) : Server :=
  { s with idempotencyStore := cacheDelete s.idempotencyStore key }

/-! ## Sample deals and servers -/

/-- The deal created from the accepted `off_a`, as `POST /api/deals` stores it. -/
def sampleDeal : Deal :=
  { id := "deal_d1", request_id := "req_1", offer_id := "off_a"
    payer_agent_id := "ag_buyer_seed_001", payee_agent_id := "ag_data_seed_001"
    amount_nano := 1500000000, status := DealStatus.awaiting_approval
    execution_receipt := none, executed_at := none, approved_at := none }

/-- The ledger `ledgerAccepted` with the deal for `off_a` created. -/
def ledgerDeal : Db := (createDeal ledgerAccepted "d1" "req_1" "off_a").1

/-- The ledger `ledgerDeal` after the deal has been approved. -/
def ledgerApproved : Db := (dealsApprove ledgerDeal "deal_d1" "2026-01-01T00:00:00.000Z").1

/-- An adapter that settles every deal with the same receipt. -/
def okAdapter : Adapter := fun _ => Except.ok "mcp_receipt_0123456789abcdef"

/-- An adapter whose `execute_payment` always throws. -/
def failingAdapter : Adapter := fun _ => Except.error "settlement backend unavailable"

/-- From the empty ledger to an executed deal: request, offer, accept, deal,
approve, execute. -/
def fullFlowCalls : List Call :=
  [ Call.requestsPost "r1"
      { requester_agent_id := some "ag_buyer_seed_001", service_query := some "market_data"
        max_price_nano := JsAmount.int 2000000000 },
    Call.offersPost "o1"
      { request_id := some "req_r1", provider_agent_id := some "ag_data_seed_001"
        price_nano := JsAmount.int 1500000000, terms := none },
    Call.offersPut "off_o1"
      { status := some "accepted", terms := none, price_nano := JsAmount.undefined },
    Call.dealsPost "d1" { request_id := some "req_r1", offer_id := some "off_o1" },
    Call.dealsApprove "deal_d1" "2026-01-01T00:00:00.000Z",
    Call.dealsExecute "deal_d1" okAdapter "2026-01-01T00:00:01.000Z" ]

/-- A freshly started server: seeded agents, empty ledger, empty idempotency store. -/
def freshServer : Server :=
  { db := emptyLedger sampleAgents, idempotencyStore := [] }

/-- The body of the create-request call of examples/quickstart.js. -/
def sampleRequestBody : RequestPostBody :=
  { requester_agent_id := some "ag_buyer_seed_001", service_query := some "market_data"
    max_price_nano := JsAmount.int 2000000000 }

/-- An offer on request `req_r1`. -/
def sampleOfferBody : OfferPostBody :=
  { request_id := some "req_r1", provider_agent_id := some "ag_data_seed_001"
    price_nano := JsAmount.int 1500000000, terms := none }

/-- A first `POST /api/offers` with key `key-1`, sent before the request exists. -/
def firstAttempt : Server × Response :=
  serve freshServer "POST" (some "key-1") none (fun db => offersPost db "o1" sampleOfferBody)

/-- The server after `firstAttempt` and a `POST /api/requests` that creates `req_r1`. -/
def afterRequestCreated : Server :=
  (serve firstAttempt.1 "POST" none none (fun db => requestsPost db "r1" sampleRequestBody)).1

/-- The same `POST /api/offers` with key `key-1`, sent again. -/
def secondAttempt : Server × Response :=
  serve afterRequestCreated "POST" (some "key-1") none
    (fun db => offersPost db "o1" sampleOfferBody)

/-- A create-request call with key `key-1` on the fresh server. -/
def keyedCreate : Server × Response :=
  serve freshServer "POST" none (some "key-1") (fun db => requestsPost db "r1" sampleRequestBody)

/-- The server of `keyedCreate` after the request has been deleted again. -/
def afterDelete : Server :=
  (serve keyedCreate.1 "DELETE" none none (fun db => requestsDelete db "req_r1")).1

/-- The deal of `fullFlowCalls` once executed. -/
def executedDeal : Deal :=
  { id := "deal_d1", request_id := "req_r1", offer_id := "off_o1"
    payer_agent_id := "ag_buyer_seed_001", payee_agent_id := "ag_data_seed_001"
    amount_nano := 1500000000, status := DealStatus.executed
    execution_receipt := some "mcp_receipt_0123456789abcdef"
    executed_at := some "2026-01-01T00:00:01.000Z"
    approved_at := some "2026-01-01T00:00:00.000Z" }

/-- A `PUT /api/requests/req_1` that rewrites the query, lowers the ceiling to
1 and cancels the request. -/
def rewriteRequest : Call :=
  Call.requestsPut "req_1"
    { service_query := some "other_data", max_price_nano := some 1, status := some "cancelled" }

/-! ## Further operations: create request, the two halves of Execute, the full flow -/

/-- `TAK.createRequest(params)`: `POST /api/requests`. -/
def createRequest (db : Db) (uuid : String) (requester_agent_id service_query : String)
    (max_price_nano : JsAmount) : Db × Response :=
  requestsPost db uuid
    { requester_agent_id := some requester_agent_id, service_query := some service_query
      max_price_nano := max_price_nano }

/-- The number of offers on `offer`'s request, other than `offer`, whose status
is `pending`: the competitors an acceptance of `offer` auto-rejects. -/
def pendingCompetitors (db : Db) (offer : Offer) : Nat :=
  db.offers.countP (fun o => o.request_id = offer.request_id ∧ o.id ≠ offer.id
    ∧ o.status = OfferStatus.pending)

/-- The execute handler of routes/deals.js up to its `await`: the lookup and
the 404 and 409 guards.  `Except.ok deal` means that `adapter.execute_payment(deal)`
has been started and the handler is suspended on it; the ledger is not written. -/
def executeBegin (db : Db) (id : String) : Except Response Deal :=
  match findDeal db id with
  | none => Except.error (fail 404 ErrorMsg.dealNotFound)
  | some deal =>
    if deal.status ≠ DealStatus.approved then
      Except.error (fail 409 (ErrorMsg.cannotExecute deal.status))
    else Except.ok deal

/-- The execute handler of routes/deals.js after its `await`, run on the
ledger as it is when the adapter settles: `outcome` is the receipt the promise
resolved to or the message of the error it rejected with; `deal` is the row
read before the `await`. -/
def executeFinish (db : Db) (deal : Deal) (outcome : Except String String) (now : String) :
    Db × Response :=
  match outcome with
  | Except.ok receipt =>
    let db1 := { db with
      deals := db.deals.map
        (fun d => if d.id = deal.id
          then { d with status := DealStatus.executed
                        execution_receipt := some receipt
                        executed_at := some now }
          else d) }
    (db1, { status := 200, body := Body.deal (findDeal db1 deal.id) })
  | Except.error detail =>
    let db1 := { db with
      deals := db.deals.map
        (fun d => if d.id = deal.id then { d with status := DealStatus.failed } else d) }
    (db1, fail 500 (ErrorMsg.executionFailed detail))

/-- The inputs of the flow of examples/demo_flow_runner.js: the two agents, the
query, the ceiling `M`, the price `p`, the three generated ids, the two
timestamps and the adapter. -/
structure FlowInput where
  requester : String
  provider : String
  query : String
  M : Int
  p : Int
  requestUuid : String
  offerUuid : String
  dealUuid : String
  approvedAt : String
  executedAt : String
  adapter : Adapter

/-- Stage 1 of the flow: create the request with ceiling `M`. -/
def flowRequest (db : Db) (x : FlowInput) : Db × Response :=
  createRequest db x.requestUuid x.requester x.query (JsAmount.int x.M)

/-- Stage 2: the provider offers `p` on the new request. -/
def flowOffer (db : Db) (x : FlowInput) : Db × Response :=
  submitOffer (flowRequest db x).1 x.offerUuid ("req_" ++ x.requestUuid) x.provider
    (JsAmount.int x.p) none

/-- Stage 3: the offer is accepted. -/
def flowAccept (db : Db) (x : FlowInput) : Db × Response :=
  acceptOffer (flowOffer db x).1 ("off_" ++ x.offerUuid)

/-- Stage 4: the deal is created from the accepted offer. -/
def flowDeal (db : Db) (x : FlowInput) : Db × Response :=
  createDeal (flowAccept db x).1 x.dealUuid ("req_" ++ x.requestUuid) ("off_" ++ x.offerUuid)

/-- Stage 5: the deal is approved. -/
def flowApprove (db : Db) (x : FlowInput) : Db × Response :=
  dealsApprove (flowDeal db x).1 ("deal_" ++ x.dealUuid) x.approvedAt

/-- Stage 6: the deal is executed through the adapter. -/
def flowExecute (db : Db) (x : FlowInput) : Db × Response :=
  dealsExecute (flowApprove db x).1 ("deal_" ++ x.dealUuid) x.adapter x.executedAt

/-- The deal row the flow creates. -/
def flowDealRow (x : FlowInput) : Deal :=
  { id := "deal_" ++ x.dealUuid
    request_id := "req_" ++ x.requestUuid
    offer_id := "off_" ++ x.offerUuid
    payer_agent_id := x.requester
    payee_agent_id := x.provider
    amount_nano := x.p
    status := DealStatus.awaiting_approval
    execution_receipt := none, executed_at := none, approved_at := none }

/-- The request row the flow creates. -/
def flowRequestRow (x : FlowInput) : Request :=
  { id := "req_" ++ x.requestUuid, requester_agent_id := x.requester
    service_query := x.query, max_price_nano := x.M, status := RequestStatus.open_ }

/-- The offer row the flow creates. -/
def flowOfferRow (x : FlowInput) : Offer :=
  { id := "off_" ++ x.offerUuid, request_id := "req_" ++ x.requestUuid
    provider_agent_id := x.provider, price_nano := x.p, terms := none
    status := OfferStatus.pending }

/-- The row `POST /api/deals` inserts for offer `o` of request `R`. -/
def dealRowFor (uuid : String) (R : Request) (o : Offer) : Deal :=
  { id := "deal_" ++ uuid, request_id := o.request_id, offer_id := o.id
    payer_agent_id := R.requester_agent_id, payee_agent_id := o.provider_agent_id
    amount_nano := o.price_nano, status := DealStatus.awaiting_approval
    execution_receipt := none, executed_at := none, approved_at := none }

/-- Every stored offer price and every stored deal amount is positive. -/
def AmountsPositive (db : Db) : Prop :=
  (∀ o ∈ db.offers, 0 < o.price_nano) ∧ (∀ d ∈ db.deals, 0 < d.amount_nano)

/-! ## Further sample ledgers and call sequences -/

/-- The ledger after `negotiationCalls`: `off_o1` accepted, `off_o2` rejected,
`req_r1` closed. -/
def ledgerNegotiated : Db := run (emptyLedger sampleAgents) negotiationCalls

/-- Create a request, submit two offers, reject the second by hand with
`PUT /api/offers/off_o2 { status: "rejected" }`. -/
def manualRejectCalls : List Call :=
  [ Call.requestsPost "r1"
      { requester_agent_id := some "ag_buyer_seed_001", service_query := some "market_data"
        max_price_nano := JsAmount.int 2000000000 },
    Call.offersPost "o1"
      { request_id := some "req_r1", provider_agent_id := some "ag_data_seed_001"
        price_nano := JsAmount.int 1500000000, terms := none },
    Call.offersPost "o2"
      { request_id := some "req_r1", provider_agent_id := some "ag_data_seed_001"
        price_nano := JsAmount.int 1800000000, terms := none },
    Call.offersPut "off_o2"
      { status := some "rejected", terms := none, price_nano := JsAmount.undefined } ]

/-- The pending offer `off_o1` of the ledger after `manualRejectCalls`. -/
def pendingOffer : Offer :=
  { id := "off_o1", request_id := "req_r1", provider_agent_id := "ag_data_seed_001"
    price_nano := 1500000000, terms := none, status := OfferStatus.pending }

/-- Create a request with ceiling 2 TON, then send
`PUT /api/requests/req_r1 { max_price_nano: -5 }`. -/
def negativeCeilingCalls : List Call :=
  [ Call.requestsPost "r1"
      { requester_agent_id := some "ag_buyer_seed_001", service_query := some "market_data"
        max_price_nano := JsAmount.int 2000000000 },
    Call.requestsPut "req_r1" { service_query := none, max_price_nano := some (-5), status := none } ]

/-- Create a request, submit an offer, then cancel the request with
`PUT /api/requests/req_r1 { status: "cancelled" }`. -/
def cancelledRequestCalls : List Call :=
  [ Call.requestsPost "r1"
      { requester_agent_id := some "ag_buyer_seed_001", service_query := some "market_data"
        max_price_nano := JsAmount.int 2000000000 },
    Call.offersPost "o1"
      { request_id := some "req_r1", provider_agent_id := some "ag_data_seed_001"
        price_nano := JsAmount.int 1500000000, terms := none },
    Call.requestsPut "req_r1"
      { service_query := none, max_price_nano := none, status := some "cancelled" } ]

/-- The approved deal of `ledgerApproved`. -/
def approvedDeal : Deal :=
  { sampleDeal with status := DealStatus.approved
                    approved_at := some "2026-01-01T00:00:00.000Z" }

/-- The ledger `ledgerApproved` once the adapter call of a first Execute on
`deal_d1` has resolved with `receipt_1` and the handler has written the row. -/
def ledgerFirstSettled : Db :=
  (executeFinish ledgerApproved approvedDeal (Except.ok "receipt_1")
    "2026-01-01T00:00:01.000Z").1

/-- The ledger after `fullFlowCalls`: the deal `deal_d1` is executed. -/
def ledgerExecuted : Db := run (emptyLedger sampleAgents) fullFlowCalls

/-- The inputs of the run of examples/demo_flow_runner.js: ceiling
2,000,000,000, price 1,500,000,000. -/
def demoFlow : FlowInput :=
  { requester := "ag_buyer_seed_001", provider := "ag_data_seed_001", query := "market_data"
    M := 2000000000, p := 1500000000
    requestUuid := "r1", offerUuid := "o1", dealUuid := "d1"
    approvedAt := "2026-01-01T00:00:00.000Z", executedAt := "2026-01-01T00:00:01.000Z"
    adapter := okAdapter }

/-- The request `req_r1` as stored after `negotiationCalls`: closed. -/
def closedRequest : Request :=
  { id := "req_r1", requester_agent_id := "ag_buyer_seed_001", service_query := "market_data"
    max_price_nano := 2000000000, status := RequestStatus.closed }

/-- The ledger after `cancelledRequestCalls`: `req_r1` cancelled, `off_o1` still pending. -/
def ledgerCancelled : Db := run (emptyLedger sampleAgents) cancelledRequestCalls

/-- A `PUT /api/requests/req_r1 { status: "open" }`. -/
def reopenRequest : Call :=
  Call.requestsPut "req_r1" { service_query := none, max_price_nano := none, status := some "open" }

/-! ## Lemmas on lists and lookups -/

theorem find?_map_key {α : Type} (l : List α) (f : α → α) (p : α → Bool)
    (h : ∀ a, p (f a) = p a) : (l.map f).find? p = (l.find? p).map f := by
  induction l with
  | nil => rfl
  | cons a l ih =>
    simp only [List.map_cons, List.find?_cons, h]
    cases p a <;> simp [ih]


theorem requestsPost_deals (db : Db) (uuid : String) (body : RequestPostBody) :
    (requestsPost db uuid body).1.deals = db.deals := by
  unfold requestsPost
  repeat' split
  all_goals rfl

theorem requestsPut_deals (db : Db) (id : String) (body : RequestPutBody) :
    (requestsPut db id body).1.deals = db.deals := by
  unfold requestsPut
  repeat' split
  all_goals rfl

theorem requestsDelete_deals (db : Db) (id : String) :
    (requestsDelete db id).1.deals = db.deals := by
  unfold requestsDelete
  repeat' split
  all_goals rfl

theorem offersPost_deals (db : Db) (uuid : String) (body : OfferPostBody) :
    (offersPost db uuid body).1.deals = db.deals := by
  unfold offersPost
  repeat' split
  all_goals rfl

theorem offersPut_deals (db : Db) (id : String) (body : OfferPutBody) :
    (offersPut db id body).1.deals = db.deals := by
  unfold offersPut
  repeat' split
  all_goals rfl

theorem offersDelete_deals (db : Db) (id : String) :
    (offersDelete db id).1.deals = db.deals := by
  unfold offersDelete
  repeat' split
  all_goals rfl

/-- A row-wise UPDATE that leaves a column alone leaves the list of that
column's values alone. -/
theorem map_map_key {α β : Type} (key : α → β) (f : α → α) (l : List α)
    (h : ∀ a, key (f a) = key a) : (l.map f).map key = l.map key := by
  induction l with
  | nil => rfl
  | cons a l ih => simp [h, ih]

theorem nodup_key_filter {α β : Type} (key : α → β) (p : α → Bool) (l : List α)
    (h : (l.map key).Nodup) : ((l.filter p).map key).Nodup :=
  h.sublist ((List.filter_sublist l).map key)

theorem length_filter_key_le_one {α β : Type} [DecidableEq β] (key : α → β) (k : β)
    (l : List α) (h : (l.map key).Nodup) :
    (l.filter (fun a => decide (key a = k))).length ≤ 1 := by
  induction l with
  | nil => simp
  | cons a l ih =>
    rw [List.map_cons, List.nodup_cons] at h
    by_cases hk : key a = k
    · have hnone : l.filter (fun a => decide (key a = k)) = [] := by
        rw [List.filter_eq_nil_iff]
        intro b hb
        simp only [decide_eq_true_eq]
        intro hbk
        exact h.1 (List.mem_map.mpr ⟨b, hb, by rw [hbk, hk]⟩)
      simp [List.filter_cons, hk, hnone]
    · simp only [List.filter_cons, hk, decide_False]
      exact ih h.2

theorem dealsPost_offer_ids (db : Db) (uuid : String) (body : DealPostBody)
    (h : (db.deals.map (fun d => d.offer_id)).Nodup) :
    ((dealsPost db uuid body).1.deals.map (fun d => d.offer_id)).Nodup := by
  unfold dealsPost
  repeat' split
  all_goals try exact h
  rename_i hnone _
  simp only [List.map_append, List.map_cons, List.map_nil]
  rw [List.nodup_append]
  refine ⟨h, List.nodup_singleton _, ?_⟩
  rw [List.disjoint_singleton]  
  intro hmem
  obtain ⟨d, hd, hdk⟩ := List.mem_map.mp hmem
  have := List.find?_eq_none.mp hnone d hd
  simp [hdk] at this

theorem dealsApprove_offer_ids (db : Db) (id now : String)
    (h : (db.deals.map (fun d => d.offer_id)).Nodup) :
    ((dealsApprove db id now).1.deals.map (fun d => d.offer_id)).Nodup := by
  unfold dealsApprove
  repeat' split
  all_goals try exact h
  simp only
  rw [map_map_key _ _ _ (by intro a; split <;> rfl)]
  exact h

theorem dealsExecute_offer_ids (db : Db) (id : String) (adapter : Adapter) (now : String)
    (h : (db.deals.map (fun d => d.offer_id)).Nodup) :
    ((dealsExecute db id adapter now).1.deals.map (fun d => d.offer_id)).Nodup := by
  unfold dealsExecute
  repeat' split
  all_goals try exact h
  all_goals
    simp only
    rw [map_map_key _ _ _ (by intro a; split <;> rfl)]
    exact h

theorem dealsPut_offer_ids (db : Db) (id : String) (body : DealPutBody)
    (h : (db.deals.map (fun d => d.offer_id)).Nodup) :
    ((dealsPut db id body).1.deals.map (fun d => d.offer_id)).Nodup := by
  unfold dealsPut
  repeat' split
  all_goals try exact h
  simp only
  rw [map_map_key _ _ _ (by intro a; split <;> rfl)]
  exact h

theorem dealsDelete_offer_ids (db : Db) (id : String)
    (h : (db.deals.map (fun d => d.offer_id)).Nodup) :
    ((dealsDelete db id).1.deals.map (fun d => d.offer_id)).Nodup := by
  unfold dealsDelete
  repeat' split
  all_goals try exact h
  exact nodup_key_filter _ _ _ h

theorem step_offer_ids (db : Db) (c : Call)
    (h : (db.deals.map (fun d => d.offer_id)).Nodup) :
    ((step db c).deals.map (fun d => d.offer_id)).Nodup := by
  cases c with
  | requestsPost uuid body => simp only [step, requestsPost_deals]; exact h
  | requestsPut id body => simp only [step, requestsPut_deals]; exact h
  | requestsDelete id => simp only [step, requestsDelete_deals]; exact h
  | offersPost uuid body => simp only [step, offersPost_deals]; exact h
  | offersPut id body => simp only [step, offersPut_deals]; exact h
  | offersDelete id => simp only [step, offersDelete_deals]; exact h
  | dealsPost uuid body => exact dealsPost_offer_ids db uuid body h
  | dealsApprove id now => exact dealsApprove_offer_ids db id now h
  | dealsExecute id adapter now => exact dealsExecute_offer_ids db id adapter now h
  | dealsPut id body => exact dealsPut_offer_ids db id body h
  | dealsDelete id => exact dealsDelete_offer_ids db id h
  | setAgents agents => exact h

theorem run_offer_ids (cs : List Call) (db : Db)
    (h : (db.deals.map (fun d => d.offer_id)).Nodup) :
    ((run db cs).deals.map (fun d => d.offer_id)).Nodup := by
  induction cs generalizing db with
  | nil => exact h
  | cons c cs ih => exact ih (step db c) (step_offer_ids db c h)


theorem eq_of_id_eq {db : Db} (h : (db.offers.map (fun o => o.id)).Nodup)
    {a b : Offer} (ha : a ∈ db.offers) (hb : b ∈ db.offers) (hab : a.id = b.id) : a = b :=
  List.inj_on_of_nodup_map h ha hb hab

theorem inv_of_same_tables {db db1 : Db} (ho : db1.offers = db.offers)
    (hr : db1.requests = db.requests) (h : NegotiationInv db) : NegotiationInv db1 := by
  obtain ⟨h1, h2, h3, h4, h5⟩ := h
  constructor
  · rw [ho]; exact h1
  · rw [ho, hr]; exact h2
  · rw [ho, hr]; exact h3
  · rw [ho]; exact h4
  · rw [ho]; exact h5

/-- An UPDATE of offers that keeps `id` and `request_id` and never turns a row
into `accepted` or `pending` keeps the invariant. -/
theorem inv_map_offers (db : Db) (f : Offer → Offer)
    (hid : ∀ o, (f o).id = o.id) (hreq : ∀ o, (f o).request_id = o.request_id)
    (hacc : ∀ o, (f o).status = OfferStatus.accepted → o.status = OfferStatus.accepted)
    (hpend : ∀ o, (f o).status = OfferStatus.pending → o.status = OfferStatus.pending)
    (h : NegotiationInv db) :
    NegotiationInv { db with offers := db.offers.map f } := by
  constructor
  · show ((db.offers.map f).map (fun o => o.id)).Nodup
    rw [map_map_key _ _ _ hid]
    exact h.ids_nodup
  · intro o' ho'
    obtain ⟨o, ho, rfl⟩ := List.mem_map.mp ho'
    rw [hreq]
    exact h.parent o ho
  · intro o' ho' hacc' q hq hqid
    obtain ⟨o, ho, rfl⟩ := List.mem_map.mp ho'
    rw [hreq] at hqid
    exact h.closed o ho (hacc o hacc') q hq hqid
  · intro o1' ho1' o2' ho2' hacc' hsame hp
    obtain ⟨o1, ho1, rfl⟩ := List.mem_map.mp ho1'
    obtain ⟨o2, ho2, rfl⟩ := List.mem_map.mp ho2'
    rw [hreq, hreq] at hsame
    exact h.no_pending o1 ho1 o2 ho2 (hacc o1 hacc') hsame (hpend o2 hp)
  · intro o1' ho1' o2' ho2' hacc1 hacc2 hsame
    obtain ⟨o1, ho1, rfl⟩ := List.mem_map.mp ho1'
    obtain ⟨o2, ho2, rfl⟩ := List.mem_map.mp ho2'
    rw [hreq, hreq] at hsame
    rw [hid, hid]
    exact h.unique o1 ho1 o2 ho2 (hacc o1 hacc1) (hacc o2 hacc2) hsame


theorem acceptTxn_offers (db : Db) (offer : Offer) :
    (acceptTxn db offer).offers = db.offers.map (acceptRow offer) := by
  simp only [acceptTxn, List.map_map]
  rfl

theorem acceptRow_id (offer o : Offer) : (acceptRow offer o).id = o.id := by
  unfold acceptRow
  by_cases h : o.id = offer.id
  · simp [h]
  · simp only [h, if_false]
    split <;> rfl

theorem acceptRow_request_id (offer o : Offer) :
    (acceptRow offer o).request_id = o.request_id := by
  unfold acceptRow
  by_cases h : o.id = offer.id
  · simp [h]
  · simp only [h, if_false]
    split <;> rfl

theorem acceptRow_accepted (offer o : Offer)
    (h : (acceptRow offer o).status = OfferStatus.accepted) :
    o.status = OfferStatus.accepted ∨ o.id = offer.id := by
  unfold acceptRow at h
  by_cases hid : o.id = offer.id
  · exact Or.inr hid
  · left
    simp only [hid, if_false, ne_eq, not_false_eq_true, true_and] at h
    split at h
    · simp at h
    · exact h

theorem acceptRow_pending (offer o : Offer)
    (h : (acceptRow offer o).status = OfferStatus.pending) :
    o.status = OfferStatus.pending ∧ o.id ≠ offer.id ∧ o.request_id ≠ offer.request_id := by
  unfold acceptRow at h
  by_cases hid : o.id = offer.id
  · simp [hid] at h
  · simp only [hid, if_false, ne_eq, not_false_eq_true, true_and] at h
    split at h
    · simp at h
    · rename_i hn
      refine ⟨h, hid, ?_⟩
      intro hr
      exact hn ⟨hr, h⟩

theorem inv_acceptTxn (db : Db) (offer : Offer) (hmem : offer ∈ db.offers)
    (hpend : offer.status = OfferStatus.pending) (h : NegotiationInv db) :
    NegotiationInv (acceptTxn db offer) := by
  have hreqs : (acceptTxn db offer).requests = db.requests.map
      (fun r => if r.id = offer.request_id
        then { r with status := RequestStatus.closed } else r) := rfl
  constructor
  · rw [acceptTxn_offers, map_map_key _ _ _ (acceptRow_id offer)]
    exact h.ids_nodup
  · intro o' ho'
    rw [acceptTxn_offers] at ho'
    obtain ⟨o, ho, rfl⟩ := List.mem_map.mp ho'
    rw [acceptRow_request_id]
    obtain ⟨q, hq, hqid⟩ := h.parent o ho
    refine ⟨_, List.mem_map.mpr ⟨q, hq, rfl⟩, ?_⟩
    split <;> exact hqid
  · intro o' ho' hacc' q' hq' hqid
    rw [acceptTxn_offers] at ho'
    obtain ⟨o, ho, rfl⟩ := List.mem_map.mp ho'
    rw [hreqs] at hq'
    obtain ⟨q, hq, rfl⟩ := List.mem_map.mp hq'
    rw [acceptRow_request_id] at hqid
    by_cases hq2 : q.id = offer.request_id
    · simp [hq2]
    · simp only [hq2, if_false] at hqid ⊢
      rcases acceptRow_accepted offer o hacc' with hold | hnew
      · exact h.closed o ho hold q hq hqid
      · have : o = offer := eq_of_id_eq h.ids_nodup ho hmem hnew
        rw [this] at hqid
        exact absurd hqid hq2
  · intro o1' ho1' o2' ho2' hacc' hsame hp
    rw [acceptTxn_offers] at ho1' ho2'
    obtain ⟨o1, ho1, rfl⟩ := List.mem_map.mp ho1'
    obtain ⟨o2, ho2, rfl⟩ := List.mem_map.mp ho2'
    rw [acceptRow_request_id, acceptRow_request_id] at hsame
    obtain ⟨hp2, _, hr2⟩ := acceptRow_pending offer o2 hp
    rcases acceptRow_accepted offer o1 hacc' with hold | hnew
    · exact h.no_pending o1 ho1 o2 ho2 hold hsame hp2
    · have : o1 = offer := eq_of_id_eq h.ids_nodup ho1 hmem hnew
      rw [this] at hsame
      exact hr2 hsame
  · intro o1' ho1' o2' ho2' hacc1 hacc2 hsame
    rw [acceptTxn_offers] at ho1' ho2'
    obtain ⟨o1, ho1, rfl⟩ := List.mem_map.mp ho1'
    obtain ⟨o2, ho2, rfl⟩ := List.mem_map.mp ho2'
    rw [acceptRow_request_id, acceptRow_request_id] at hsame
    rw [acceptRow_id, acceptRow_id]
    rcases acceptRow_accepted offer o1 hacc1 with hold1 | hnew1
    · rcases acceptRow_accepted offer o2 hacc2 with hold2 | hnew2
      · exact h.unique o1 ho1 o2 ho2 hold1 hold2 hsame
      · have : o2 = offer := eq_of_id_eq h.ids_nodup ho2 hmem hnew2
        rw [this] at hsame
        exact absurd hpend (h.no_pending o1 ho1 offer hmem hold1 hsame)
    · rcases acceptRow_accepted offer o2 hacc2 with hold2 | hnew2
      · have : o1 = offer := eq_of_id_eq h.ids_nodup ho1 hmem hnew1
        rw [this] at hsame
        exact absurd hpend (h.no_pending o2 ho2 offer hmem hold2 hsame.symm)
      · rw [hnew1, hnew2]

theorem mem_of_findRequest {db : Db} {id : String} {q : Request}
    (h : findRequest db id = some q) : q ∈ db.requests ∧ q.id = id :=
  ⟨List.mem_of_find?_eq_some h, by simpa using List.find?_some h⟩

theorem mem_of_findOffer {db : Db} {id : String} {o : Offer}
    (h : findOffer db id = some o) : o ∈ db.offers ∧ o.id = id :=
  ⟨List.mem_of_find?_eq_some h, by simpa using List.find?_some h⟩

theorem inv_requestsPost (db : Db) (uuid : String) (body : RequestPostBody)
    (h : NegotiationInv db) : NegotiationInv (requestsPost db uuid body).1 := by
  unfold requestsPost
  repeat' split
  all_goals try exact h
  rename_i hfresh
  constructor
  · exact h.ids_nodup
  · intro o ho
    obtain ⟨q, hq, hqid⟩ := h.parent o ho
    exact ⟨q, List.mem_append_left _ hq, hqid⟩
  · intro o ho hacc q hq hqid
    rcases List.mem_append.mp hq with hq | hq
    · exact h.closed o ho hacc q hq hqid
    · exfalso
      rw [List.mem_singleton] at hq
      obtain ⟨q0, hq0, hq0id⟩ := h.parent o ho
      have hnone : findRequest db ("req_" ++ uuid) = none := by
        cases hf : findRequest db ("req_" ++ uuid) with
        | none => rfl
        | some x => simp [hf] at hfresh
      have := List.find?_eq_none.mp hnone q0 hq0
      rw [hq] at hqid
      simp only [decide_eq_true_eq] at this
      exact this (hq0id.trans hqid.symm)
  · exact h.no_pending
  · exact h.unique

theorem inv_requestsPut (db : Db) (id : String) (body : RequestPutBody)
    (hre : reopens db (Call.requestsPut id body) = false)
    (h : NegotiationInv db) : NegotiationInv (requestsPut db id body).1 := by
  unfold requestsPut
  repeat' split
  all_goals try exact h
  have hidp : ∀ (a : Option String) (b : Option Int) (c : Option RequestStatus) (r : Request),
      (updateRequestRow id a b c r).id = r.id := by
    intro a b c r
    unfold updateRequestRow
    split <;> rfl
  constructor
  · exact h.ids_nodup
  · intro o ho
    obtain ⟨q, hq, hqid⟩ := h.parent o ho
    exact ⟨_, List.mem_map.mpr ⟨q, hq, rfl⟩, by rw [hidp]; exact hqid⟩
  · intro o ho hacc q' hq' hqid
    obtain ⟨q, hq, rfl⟩ := List.mem_map.mp hq'
    rw [hidp] at hqid
    have hq_closed := h.closed o ho hacc q hq hqid
    unfold updateRequestRow
    split
    · rename_i hqi
      simp only [reopens, Bool.and_eq_false_imp, decide_eq_true_eq] at hre
      cases hst : (orNull body.status).bind parseRequestStatus with
      | none => simpa using hq_closed
      | some st =>
        simp only [Option.getD_some]
        intro hopen
        rw [hopen] at hst
        have := hre hst
        rw [List.any_eq_false] at this
        have := this q hq
        simp [hqi, hq_closed] at this
    · exact hq_closed
  · exact h.no_pending
  · exact h.unique

theorem inv_requestsDelete (db : Db) (id : String)
    (h : NegotiationInv db) : NegotiationInv (requestsDelete db id).1 := by
  unfold requestsDelete
  repeat' split
  all_goals try exact h
  rename_i hrefs
  simp only [Bool.or_eq_true, not_or, Bool.not_eq_true] at hrefs
  constructor
  · exact h.ids_nodup
  · intro o ho
    obtain ⟨q, hq, hqid⟩ := h.parent o ho
    refine ⟨q, List.mem_filter.mpr ⟨hq, ?_⟩, hqid⟩
    have := List.any_eq_false.mp hrefs.1 o ho
    simp only [decide_eq_true_eq] at this
    simp only [ne_eq, decide_not, Bool.not_eq_true', decide_eq_false_iff_not]
    rw [hqid]
    exact this
  · intro o ho hacc q hq hqid
    exact h.closed o ho hacc q (List.mem_filter.mp hq).1 hqid
  · exact h.no_pending
  · exact h.unique

theorem inv_offersPost (db : Db) (uuid : String) (body : OfferPostBody)
    (h : NegotiationInv db) : NegotiationInv (offersPost db uuid body).1 := by
  unfold offersPost
  repeat' split
  all_goals try exact h
  rename_i request hfind hopen _ _ hfresh
  obtain ⟨hreq_mem, hreq_id⟩ := mem_of_findRequest hfind
  have hopen : request.status = RequestStatus.open_ := by simpa using hopen
  have hnone : findOffer db ("off_" ++ uuid) = none := by
    cases hf : findOffer db ("off_" ++ uuid) with
    | none => rfl
    | some x => simp [hf] at hfresh
  constructor
  · simp only [List.map_append, List.map_cons, List.map_nil]
    rw [List.nodup_append]
    refine ⟨h.ids_nodup, List.nodup_singleton _, ?_⟩
    rw [List.disjoint_singleton]
    intro hmem
    obtain ⟨o, ho, hoid⟩ := List.mem_map.mp hmem
    have := List.find?_eq_none.mp hnone o ho
    simp [hoid] at this
  · intro o ho
    rcases List.mem_append.mp ho with ho | ho
    · exact h.parent o ho
    · rw [List.mem_singleton] at ho
      exact ⟨request, hreq_mem, by rw [ho]; exact hreq_id⟩
  · intro o ho hacc q hq hqid
    rcases List.mem_append.mp ho with ho | ho
    · exact h.closed o ho hacc q hq hqid
    · rw [List.mem_singleton] at ho
      rw [ho] at hacc
      simp at hacc
  · intro o1 ho1 o2 ho2 hacc hsame
    rcases List.mem_append.mp ho1 with ho1 | ho1
    · rcases List.mem_append.mp ho2 with ho2 | ho2
      · exact h.no_pending o1 ho1 o2 ho2 hacc hsame
      · exfalso
        rw [List.mem_singleton] at ho2
        rw [ho2] at hsame
        exact h.closed o1 ho1 hacc request hreq_mem (hreq_id.trans hsame) hopen
    · rw [List.mem_singleton] at ho1
      rw [ho1] at hacc
      simp at hacc
  · intro o1 ho1 o2 ho2 hacc1 hacc2 hsame
    rcases List.mem_append.mp ho1 with ho1 | ho1
    · rcases List.mem_append.mp ho2 with ho2 | ho2
      · exact h.unique o1 ho1 o2 ho2 hacc1 hacc2 hsame
      · rw [List.mem_singleton] at ho2
        rw [ho2] at hacc2
        simp at hacc2
    · rw [List.mem_singleton] at ho1
      rw [ho1] at hacc1
      simp at hacc1

theorem inv_offersPut (db : Db) (id : String) (body : OfferPutBody)
    (h : NegotiationInv db) : NegotiationInv (offersPut db id body).1 := by
  unfold offersPut
  repeat' split
  all_goals try exact h
  · rename_i offer hfind _ hpend
    exact inv_acceptTxn db offer (mem_of_findOffer hfind).1 (by simpa using hpend) h
  · rename_i offer hfind _ _
    apply inv_map_offers db _ _ _ _ _ h
    · intro o; split <;> rfl
    · intro o; split <;> rfl
    · intro o; split
      · intro hc; simp at hc
      · exact fun hs => hs
    · intro o; split
      · intro hc; simp at hc
      · exact fun hs => hs
  · apply inv_map_offers db _ _ _ _ _ h
    all_goals
      intro o
      unfold updateOfferRow
      split
    all_goals first | rfl | exact fun hs => hs

theorem inv_offersDelete (db : Db) (id : String)
    (h : NegotiationInv db) : NegotiationInv (offersDelete db id).1 := by
  unfold offersDelete
  repeat' split
  all_goals try exact h
  constructor
  · exact nodup_key_filter _ _ _ h.ids_nodup
  · intro o ho
    exact h.parent o (List.mem_filter.mp ho).1
  · intro o ho hacc q hq hqid
    exact h.closed o (List.mem_filter.mp ho).1 hacc q hq hqid
  · intro o1 ho1 o2 ho2
    exact h.no_pending o1 (List.mem_filter.mp ho1).1 o2 (List.mem_filter.mp ho2).1
  · intro o1 ho1 o2 ho2
    exact h.unique o1 (List.mem_filter.mp ho1).1 o2 (List.mem_filter.mp ho2).1

theorem dealsPost_tables (db : Db) (uuid : String) (body : DealPostBody) :
    (dealsPost db uuid body).1.offers = db.offers
      ∧ (dealsPost db uuid body).1.requests = db.requests := by
  unfold dealsPost
  repeat' split
  all_goals exact ⟨rfl, rfl⟩

theorem dealsApprove_tables (db : Db) (id now : String) :
    (dealsApprove db id now).1.offers = db.offers
      ∧ (dealsApprove db id now).1.requests = db.requests := by
  unfold dealsApprove
  repeat' split
  all_goals exact ⟨rfl, rfl⟩

theorem dealsExecute_tables (db : Db) (id : String) (adapter : Adapter) (now : String) :
    (dealsExecute db id adapter now).1.offers = db.offers
      ∧ (dealsExecute db id adapter now).1.requests = db.requests := by
  unfold dealsExecute
  repeat' split
  all_goals exact ⟨rfl, rfl⟩

theorem dealsPut_tables (db : Db) (id : String) (body : DealPutBody) :
    (dealsPut db id body).1.offers = db.offers
      ∧ (dealsPut db id body).1.requests = db.requests := by
  unfold dealsPut
  repeat' split
  all_goals exact ⟨rfl, rfl⟩

theorem dealsDelete_tables (db : Db) (id : String) :
    (dealsDelete db id).1.offers = db.offers
      ∧ (dealsDelete db id).1.requests = db.requests := by
  unfold dealsDelete
  repeat' split
  all_goals exact ⟨rfl, rfl⟩

theorem inv_step (db : Db) (c : Call) (hre : reopens db c = false)
    (h : NegotiationInv db) : NegotiationInv (step db c) := by
  cases c with
  | requestsPost uuid body => exact inv_requestsPost db uuid body h
  | requestsPut id body => exact inv_requestsPut db id body hre h
  | requestsDelete id => exact inv_requestsDelete db id h
  | offersPost uuid body => exact inv_offersPost db uuid body h
  | offersPut id body => exact inv_offersPut db id body h
  | offersDelete id => exact inv_offersDelete db id h
  | dealsPost uuid body =>
    exact inv_of_same_tables (dealsPost_tables db uuid body).1 (dealsPost_tables db uuid body).2 h
  | dealsApprove id now =>
    exact inv_of_same_tables (dealsApprove_tables db id now).1 (dealsApprove_tables db id now).2 h
  | dealsExecute id adapter now =>
    exact inv_of_same_tables (dealsExecute_tables db id adapter now).1
      (dealsExecute_tables db id adapter now).2 h
  | dealsPut id body =>
    exact inv_of_same_tables (dealsPut_tables db id body).1 (dealsPut_tables db id body).2 h
  | dealsDelete id =>
    exact inv_of_same_tables (dealsDelete_tables db id).1 (dealsDelete_tables db id).2 h
  | setAgents agents => exact @inv_of_same_tables db (step db (Call.setAgents agents)) rfl rfl h

theorem inv_run (cs : List Call) (db : Db) (hre : neverReopens db cs = true)
    (h : NegotiationInv db) : NegotiationInv (run db cs) := by
  induction cs generalizing db with
  | nil => exact h
  | cons c cs ih =>
    simp only [neverReopens, Bool.and_eq_true, Bool.not_eq_true'] at hre
    exact ih (step db c) hre.2 (inv_step db c hre.1 h)

theorem inv_emptyLedger (agents : List String) : NegotiationInv (emptyLedger agents) := by
  constructor <;> simp [emptyLedger]

theorem length_le_one_of_same_key {α β : Type} (key : α → β) (l : List α)
    (hn : (l.map key).Nodup) (hk : ∀ a ∈ l, ∀ b ∈ l, key b = key a) : l.length ≤ 1 := by
  match l, hn, hk with
  | [], _, _ => simp
  | [_], _, _ => simp
  | a :: b :: t, hn, hk =>
    exfalso
    have := hk a (by simp) b (by simp)
    simp only [List.map_cons, List.nodup_cons, List.mem_cons, not_or] at hn
    exact hn.1.1 this.symm

theorem acceptedOffers_length_le_one (db : Db) (h : NegotiationInv db) (request_id : String) :
    (acceptedOffers db request_id).length ≤ 1 := by
  apply length_le_one_of_same_key (fun o : Offer => o.id)
  · exact nodup_key_filter _ _ _ h.ids_nodup
  · intro a ha b hb
    simp only [acceptedOffers, List.mem_filter, decide_eq_true_eq] at ha hb
    exact h.unique a ha.1 b hb.1 ha.2.2 hb.2.2 (hb.2.1.trans ha.2.1.symm)


/-! ## Accepting an offer -/

/-- C1: accepting a pending offer succeeds (status 200); afterwards the offer
is `accepted`, every other offer of the same request that was `pending` is
`rejected`, and the parent request is `closed`. -/
theorem acceptOffer_pending (db : Db) (id : String) (o : Offer)
    (hfind : findOffer db id = some o) (hpending : o.status = OfferStatus.pending) :
    (acceptOffer db id).2.status = 200 ∧
    findOffer (acceptOffer db id).1 id = some { o with status := OfferStatus.accepted } ∧
    (∀ pid p, findOffer db pid = some p → pid ≠ id → p.request_id = o.request_id →
      p.status = OfferStatus.pending →
      findOffer (acceptOffer db id).1 pid = some { p with status := OfferStatus.rejected }) ∧
    (∀ q, findRequest db o.request_id = some q →
      findRequest (acceptOffer db id).1 o.request_id
        = some { q with status := RequestStatus.closed }) := by
  have hid : o.id = id := (mem_of_findOffer hfind).2
  have hdb : acceptOffer db id
      = (acceptTxn db o, { status := 200
                           body := Body.offerAccepted (offerJoined (acceptTxn db o) id)
                             (countRejected (acceptTxn db o) o.request_id) }) := by
    simp [acceptOffer, offersPut, hfind, hpending]
  rw [hdb]
  refine ⟨rfl, ?_, ?_, ?_⟩
  · simp only [findOffer, acceptTxn]
    rw [find?_map_key _ _ _ (by intro a; split <;> rfl),
      find?_map_key _ _ _ (by intro a; split <;> rfl)]
    have : db.offers.find? (fun o => decide (o.id = id)) = some o := hfind
    simp [this, hid]
  · intro pid p hp hne hreq hpend
    have hpid : p.id = pid := (mem_of_findOffer hp).2
    simp only [findOffer, acceptTxn]
    rw [find?_map_key _ _ _ (by intro a; split <;> rfl),
      find?_map_key _ _ _ (by intro a; split <;> rfl)]
    have : db.offers.find? (fun o => decide (o.id = pid)) = some p := hp
    have hne2 : p.id ≠ o.id := by rw [hpid, hid]; exact hne
    simp [this, hne2, hreq, hpend]
  · intro q hq
    have hqid : q.id = o.request_id := (mem_of_findRequest hq).2
    simp only [findRequest, acceptTxn]
    rw [find?_map_key _ _ _ (by intro a; split <;> rfl)]
    have : db.requests.find? (fun r => decide (r.id = o.request_id)) = some q := hq
    simp [this, hqid]

/-- C1, on `ledgerTwoOffers`: accepting `off_a` answers 200, leaves `off_a`
accepted, the competing `off_b` rejected and `req_1` closed. -/
theorem acceptOffer_pending_witness :
    findOffer ledgerTwoOffers "off_a" = some offerA
    ∧ offerA.status = OfferStatus.pending
    ∧ (acceptOffer ledgerTwoOffers "off_a").2.status = 200
    ∧ findOffer (acceptOffer ledgerTwoOffers "off_a").1 "off_a"
        = some { offerA with status := OfferStatus.accepted }
    ∧ findOffer (acceptOffer ledgerTwoOffers "off_a").1 "off_b"
        = some { offerB with status := OfferStatus.rejected }
    ∧ findRequest (acceptOffer ledgerTwoOffers "off_a").1 "req_1"
        = some { sampleRequest with status := RequestStatus.closed } :=
  have h := acceptOffer_pending ledgerTwoOffers "off_a" offerA (by decide) (by decide)
  ⟨by decide, by decide, h.1, h.2.1,
    h.2.2.1 "off_b" offerB (by decide) (by decide) (by decide) (by decide),
    h.2.2.2 sampleRequest (by decide)⟩

/-- C2: accepting an offer that is not `pending` fails with 409 and leaves the
whole ledger (offers, requests, deals) as it was. -/
theorem acceptOffer_not_pending (db : Db) (id : String) (o : Offer)
    (hfind : findOffer db id = some o) (hstatus : o.status ≠ OfferStatus.pending) :
    (acceptOffer db id).2 = fail 409 (ErrorMsg.offerAlready o.status)
    ∧ (acceptOffer db id).2.status = 409
    ∧ (acceptOffer db id).1 = db := by
  simp [acceptOffer, offersPut, hfind, hstatus, fail]

/-- C2, on `ledgerAccepted`: once `off_a` is accepted, accepting the rejected
`off_b` fails with 409 and changes nothing. -/
theorem acceptOffer_not_pending_witness :
    findOffer ledgerAccepted "off_b" = some { offerB with status := OfferStatus.rejected }
    ∧ (acceptOffer ledgerAccepted "off_b").2.status = 409
    ∧ (acceptOffer ledgerAccepted "off_b").1 = ledgerAccepted :=
  have h := acceptOffer_not_pending ledgerAccepted "off_b"
    { offerB with status := OfferStatus.rejected } (by decide) (by decide)
  ⟨by decide, h.2.1, h.2.2⟩

/-- C3, refuted as stated: from the empty ledger, accept an offer, re-open the
closed request with `PUT /api/requests/:id { status: "open" }`, submit and accept
another offer; the request then has two accepted offers. -/
theorem reopened_request_two_accepted :
    ¬ (acceptedOffers (run (emptyLedger sampleAgents) reopenCalls) "req_r1").length ≤ 1 := by
  decide

/-- C3, amended: in every ledger reached from the empty one by a sequence of
calls none of which re-opens a closed or cancelled request, every request has
at most one accepted offer. -/
theorem at_most_one_accepted_without_reopening (agents : List String) (cs : List Call)
    (request_id : String) (hre : neverReopens (emptyLedger agents) cs = true) :
    (acceptedOffers (run (emptyLedger agents) cs) request_id).length ≤ 1 :=
  acceptedOffers_length_le_one _ (inv_run cs _ hre (inv_emptyLedger agents)) request_id

/-- C3 amended, on `negotiationCalls`: the sequence re-opens nothing and
leaves at most one accepted offer on `req_r1`. -/
theorem at_most_one_accepted_without_reopening_witness :
    neverReopens (emptyLedger sampleAgents) negotiationCalls = true
    ∧ (acceptedOffers (run (emptyLedger sampleAgents) negotiationCalls) "req_r1").length ≤ 1 :=
  ⟨by decide,
    at_most_one_accepted_without_reopening sampleAgents negotiationCalls "req_r1" (by decide)⟩

/-- C4, the code at the failing input: after `raisedPriceCalls` the pending
offer `off_o1` carries 2.5 TON against a ceiling of 2 TON, and accepting it
succeeds with status 200. -/
theorem accept_above_ceiling :
    (findRequest (run (emptyLedger sampleAgents) raisedPriceCalls) "req_r1").map
        (fun r => r.max_price_nano) = some 2000000000
    ∧ (acceptOffer (run (emptyLedger sampleAgents) raisedPriceCalls) "off_o1").2.status = 200
    ∧ (findOffer (acceptOffer (run (emptyLedger sampleAgents) raisedPriceCalls) "off_o1").1
        "off_o1").map (fun o => (o.status, o.price_nano))
        = some (OfferStatus.accepted, 2500000000) := by
  decide

/-! ## Submitting an offer -/

/-- C5: against an existing request, a positive integer price above the
ceiling is refused with 400 or 409 and the ledger, hence the offers table, is
unchanged; a price equal to the ceiling is never answered with the
ceiling error. -/
theorem submitOffer_above_ceiling (db : Db) (uuid request_id provider_agent_id : String)
    (terms : Option String) (R : Request) (price : Int)
    (hR : findRequest db request_id = some R) :
    (0 < price → price > R.max_price_nano →
      ((submitOffer db uuid request_id provider_agent_id (JsAmount.int price) terms).2.status = 400
        ∨ (submitOffer db uuid request_id provider_agent_id (JsAmount.int price) terms).2.status
            = 409)
      ∧ (submitOffer db uuid request_id provider_agent_id (JsAmount.int price) terms).1 = db)
    ∧ (price = R.max_price_nano → ∀ a b,
        (submitOffer db uuid request_id provider_agent_id (JsAmount.int price) terms).2.body
          ≠ Body.error (ErrorMsg.exceedsCeiling a b)) := by
  constructor
  · intro hpos hgt
    unfold submitOffer offersPost
    simp only [keyOf, Option.getD_some, hR, isPositiveInteger, hpos, decide_True, hgt, if_true]
    repeat' split
    all_goals simp_all [fail]
  · intro heq a b
    unfold submitOffer offersPost
    simp only [keyOf, Option.getD_some, hR, heq, gt_iff_lt, lt_self_iff_false, if_false]
    repeat' split
    all_goals simp_all [fail, internalError]

/-- C5, on `ledgerTwoOffers` (ceiling 2,000,000,000): an offer of
2,500,000,000 is refused and nothing is stored; an offer of exactly
2,000,000,000 is not answered with the ceiling error. -/
theorem submitOffer_above_ceiling_witness :
    findRequest ledgerTwoOffers "req_1" = some sampleRequest
    ∧ ((submitOffer ledgerTwoOffers "c" "req_1" "ag_data_seed_001"
          (JsAmount.int 2500000000) none).2.status = 400
        ∨ (submitOffer ledgerTwoOffers "c" "req_1" "ag_data_seed_001"
          (JsAmount.int 2500000000) none).2.status = 409)
    ∧ (submitOffer ledgerTwoOffers "c" "req_1" "ag_data_seed_001"
          (JsAmount.int 2500000000) none).1 = ledgerTwoOffers
    ∧ (submitOffer ledgerTwoOffers "c" "req_1" "ag_data_seed_001"
          (JsAmount.int 2000000000) none).2.body
        ≠ Body.error (ErrorMsg.exceedsCeiling 2000000000 2000000000) :=
  have h := (submitOffer_above_ceiling ledgerTwoOffers "c" "req_1" "ag_data_seed_001" none
    sampleRequest 2500000000 (by decide)).1 (by decide) (by decide)
  ⟨by decide, h.1, h.2,
    (submitOffer_above_ceiling ledgerTwoOffers "c" "req_1" "ag_data_seed_001" none
      sampleRequest 2000000000 (by decide)).2 (by decide) 2000000000 2000000000⟩

/-- C6: in a ledger whose request and agent ids are non-empty, and with a
generated id not yet taken, submitting an offer answers 201 exactly when the
price is a positive integer, the request exists and is `open`, the price is at
most the ceiling and the provider is a registered agent; then the offers table
gains exactly one `pending` row with the given request, provider and price and
nothing else changes; otherwise the ledger is unchanged, and the answer is 409
when the request exists but is not `open`. -/
theorem submitOffer_iff (db : Db) (uuid request_id provider_agent_id : String)
    (price_nano : JsAmount) (terms : Option String)
    (hreq_ids : ∀ q ∈ db.requests, q.id ≠ "") (hagent_ids : "" ∉ db.agents)
    (hfresh : findOffer db ("off_" ++ uuid) = none) :
    ((submitOffer db uuid request_id provider_agent_id price_nano terms).2.status = 201
      ↔ ∃ p R, price_nano = JsAmount.int p ∧ 0 < p ∧ findRequest db request_id = some R
          ∧ R.status = RequestStatus.open_ ∧ p ≤ R.max_price_nano
          ∧ provider_agent_id ∈ db.agents)
    ∧ ((submitOffer db uuid request_id provider_agent_id price_nano terms).2.status = 201 →
        ∃ p, price_nano = JsAmount.int p
          ∧ (submitOffer db uuid request_id provider_agent_id price_nano terms).1
            = { db with offers := db.offers ++
                  [{ id := "off_" ++ uuid, request_id := request_id
                     provider_agent_id := provider_agent_id, price_nano := p
                     terms := orNull terms, status := OfferStatus.pending }] })
    ∧ ((submitOffer db uuid request_id provider_agent_id price_nano terms).2.status ≠ 201 →
        (submitOffer db uuid request_id provider_agent_id price_nano terms).1 = db)
    ∧ (∀ p R, price_nano = JsAmount.int p → 0 < p → provider_agent_id ≠ "" →
        findRequest db request_id = some R → R.status ≠ RequestStatus.open_ →
        (submitOffer db uuid request_id provider_agent_id price_nano terms).2.status = 409) := by
  have hrid : ∀ R, findRequest db request_id = some R → request_id ≠ "" := by
    intro R hR
    obtain ⟨hm, hid⟩ := mem_of_findRequest hR
    rw [← hid]
    exact hreq_ids R hm
  have hprov : provider_agent_id ∈ db.agents → provider_agent_id ≠ "" := by
    intro hm he
    rw [he] at hm
    exact hagent_ids hm
  refine ⟨?_, ?_, ?_, ?_⟩
  · constructor
    · intro h
      unfold submitOffer offersPost at h
      simp only [keyOf, Option.getD_some, hfresh, Option.isSome_none] at h
      repeat' split at h
      all_goals simp [fail, internalError] at h
      rename_i _ n _ hposi _ R hR hopen hle hag _
      exact ⟨n, R, rfl, by simpa [isPositiveInteger] using hposi, hR, by simpa using hopen,
        by simpa using hle, by simpa [agentExists] using hag⟩
    · rintro ⟨p, R, rfl, hpos, hR, hopen, hle, hag⟩
      unfold submitOffer offersPost
      simp [keyOf, hR, isPositiveInteger, hpos, hopen, not_lt.mpr hle, agentExists, hag, hfresh,
        truthy, hrid R hR, hprov hag]
  · intro h
    unfold submitOffer offersPost at h ⊢
    simp only [keyOf, Option.getD_some, hfresh, Option.isSome_none] at h ⊢
    repeat' split at h
    all_goals simp [fail, internalError] at h
    rename_i _ n hreqd hposi _ R hR hopen hle hag _
    refine ⟨n, rfl, ?_⟩
    simp only [Bool.or_eq_true, Bool.not_eq_true', decide_eq_true_eq, not_or, Bool.not_eq_false,
      reduceCtorEq, not_false_eq_true, and_true] at hreqd
    simp [hreqd, hposi, hR, hopen, hle, hag]
  · intro h
    unfold submitOffer offersPost at h ⊢
    simp only [keyOf, Option.getD_some, hfresh, Option.isSome_none] at h ⊢
    repeat' split
    all_goals first | rfl | simp_all
  · intro p R hp hpos hprovne hR hnopen
    subst hp
    unfold submitOffer offersPost
    simp [keyOf, hR, isPositiveInteger, hpos, hnopen, truthy, hrid R hR, hprovne, fail]

/-- C6, on `ledgerTwoOffers`: a third offer of 1.9 TON on the open request
`req_1` is stored (201); the same offer on the closed request of
`ledgerAccepted` is refused with 409. -/
theorem submitOffer_iff_witness :
    (∀ q ∈ ledgerTwoOffers.requests, q.id ≠ "") ∧ "" ∉ ledgerTwoOffers.agents
    ∧ findOffer ledgerTwoOffers ("off_" ++ "c") = none
    ∧ (submitOffer ledgerTwoOffers "c" "req_1" "ag_data_seed_001"
        (JsAmount.int 1900000000) none).2.status = 201
    ∧ (submitOffer ledgerAccepted "c" "req_1" "ag_data_seed_001"
        (JsAmount.int 1900000000) none).2.status = 409 :=
  ⟨by decide, by decide, by decide,
    (submitOffer_iff ledgerTwoOffers "c" "req_1" "ag_data_seed_001" (JsAmount.int 1900000000) none
      (by decide) (by decide) (by decide)).1.mpr
      ⟨1900000000, sampleRequest, rfl, by decide, by decide, by decide, by decide, by decide⟩,
    (submitOffer_iff ledgerAccepted "c" "req_1" "ag_data_seed_001" (JsAmount.int 1900000000) none
      (by decide) (by decide) (by decide)).2.2.2 1900000000
      { sampleRequest with status := RequestStatus.closed } rfl (by decide) (by decide)
      (by decide) (by decide)⟩

/-! ## Creating a deal -/

/-- C7: for an accepted offer `o` of request `R` without a deal, in a ledger
where payer and payee are registered agents and the generated id is not taken,
creating the deal answers 201 and appends exactly one row: payer the
request's requester, payee the offer's provider, amount the offer's price,
status `awaiting_approval`, and `approved_at`, `executed_at`,
`execution_receipt` unset. -/
theorem createDeal_from_accepted (db : Db) (uuid request_id offer_id : String) (o : Offer)
    (R : Request)
    (ho : findOffer db offer_id = some o) (hacc : o.status = OfferStatus.accepted)
    (hR : findRequest db request_id = some R) (hbelongs : o.request_id = R.id)
    (hnone : findDealByOffer db offer_id = none)
    (hrid : request_id ≠ "") (hoid : offer_id ≠ "")
    (hfresh : findDeal db ("deal_" ++ uuid) = none)
    (hpayer : R.requester_agent_id ∈ db.agents) (hpayee : o.provider_agent_id ∈ db.agents) :
    (createDeal db uuid request_id offer_id).1
      = { db with deals := db.deals ++
            [{ id := "deal_" ++ uuid, request_id := request_id, offer_id := offer_id
               payer_agent_id := R.requester_agent_id
               payee_agent_id := o.provider_agent_id
               amount_nano := o.price_nano
               status := DealStatus.awaiting_approval
               execution_receipt := none, executed_at := none, approved_at := none }] }
    ∧ (createDeal db uuid request_id offer_id).2.status = 201 := by
  have hRid : R.id = request_id := (mem_of_findRequest hR).2
  unfold createDeal dealsPost
  simp [keyOf, truthy, hrid, hoid, ho, hacc, hbelongs, hRid, hR, hnone, hfresh, agentExists,
    hpayer, hpayee]

/-- C7, on `ledgerAccepted`: a deal for the accepted `off_a` is created with
payer `ag_buyer_seed_001`, payee `ag_data_seed_001`, amount 1,500,000,000 and
status `awaiting_approval`. -/
theorem createDeal_from_accepted_witness :
    findOffer ledgerAccepted "off_a" = some { offerA with status := OfferStatus.accepted }
    ∧ findRequest ledgerAccepted "req_1"
        = some { sampleRequest with status := RequestStatus.closed }
    ∧ (createDeal ledgerAccepted "d1" "req_1" "off_a").1.deals
        = [{ id := "deal_d1", request_id := "req_1", offer_id := "off_a"
             payer_agent_id := "ag_buyer_seed_001", payee_agent_id := "ag_data_seed_001"
             amount_nano := 1500000000, status := DealStatus.awaiting_approval
             execution_receipt := none, executed_at := none, approved_at := none }]
    ∧ (createDeal ledgerAccepted "d1" "req_1" "off_a").2.status = 201 :=
  have h := createDeal_from_accepted ledgerAccepted "d1" "req_1" "off_a"
    { offerA with status := OfferStatus.accepted }
    { sampleRequest with status := RequestStatus.closed }
    (by decide) (by decide) (by decide) (by decide) (by decide) (by decide) (by decide)
    (by decide) (by decide) (by decide)
  ⟨by decide, by decide, by rw [h.1]; decide, h.2⟩

/-- C8: for an existing offer whose parent request is stored, and non-empty
ids, creating a deal fails with 409 and leaves the ledger, hence the deals table,
unchanged whenever the offer is not `accepted`, or belongs to another request,
or already has a deal. -/
theorem createDeal_conflict (db : Db) (uuid request_id offer_id : String) (o : Offer)
    (ho : findOffer db offer_id = some o)
    (hrid : request_id ≠ "") (hoid : offer_id ≠ "")
    (hparent : (findRequest db o.request_id).isSome)
    (h : o.status ≠ OfferStatus.accepted ∨ o.request_id ≠ request_id
          ∨ (findDealByOffer db offer_id).isSome) :
    (createDeal db uuid request_id offer_id).2.status = 409
      ∧ (createDeal db uuid request_id offer_id).1 = db := by
  unfold createDeal dealsPost
  simp only [keyOf, truthy, Option.getD_some, ho]
  by_cases h1 : o.status = OfferStatus.accepted
  · by_cases h2 : o.request_id = request_id
    · have h3 : (findDealByOffer db offer_id).isSome := by
        rcases h with h | h | h
        · exact absurd h1 h
        · exact absurd h2 h
        · exact h
      rw [h2] at hparent
      obtain ⟨R, hR⟩ := Option.isSome_iff_exists.mp hparent
      obtain ⟨d, hd⟩ := Option.isSome_iff_exists.mp h3
      simp [hrid, hoid, h1, h2, hR, hd, fail]
    · simp [hrid, hoid, h1, h2, fail]
  · simp [hrid, hoid, h1, fail]

/-- C8, on `ledgerAccepted` with the deal for `off_a` already created: a
second deal for `off_a` is refused with 409 and the ledger is unchanged. -/
theorem createDeal_conflict_witness :
    (findDealByOffer (createDeal ledgerAccepted "d1" "req_1" "off_a").1 "off_a").isSome
    ∧ (createDeal (createDeal ledgerAccepted "d1" "req_1" "off_a").1 "d2" "req_1"
        "off_a").2.status = 409
    ∧ (createDeal (createDeal ledgerAccepted "d1" "req_1" "off_a").1 "d2" "req_1" "off_a").1
        = (createDeal ledgerAccepted "d1" "req_1" "off_a").1 :=
  have h := createDeal_conflict (createDeal ledgerAccepted "d1" "req_1" "off_a").1 "d2" "req_1"
    "off_a" { offerA with status := OfferStatus.accepted } (by decide) (by decide) (by decide)
    (by decide) (Or.inr (Or.inr (by decide)))
  ⟨by decide, h.1, h.2⟩

/-- C9, refuted as stated: on `ledgerAccepted` the offer `off_a` exists and is
accepted and `req_missing` names no request, yet creating a deal answers 409
(offer does not belong to the given request), not 404. -/
theorem createDeal_absent_request_conflict :
    findOffer ledgerAccepted "off_a" = some { offerA with status := OfferStatus.accepted }
    ∧ findRequest ledgerAccepted "req_missing" = none
    ∧ (createDeal ledgerAccepted "d1" "req_missing" "off_a").2
        = fail 409 ErrorMsg.offerNotOfRequest
    ∧ (createDeal ledgerAccepted "d1" "req_missing" "off_a").2.status ≠ 404 := by
  decide

/-- C9, amended: with both ids given, creating a deal fails with 404 when the
offer is absent, and when the offer is accepted and carries the given
request_id but that request is absent; when the offer is accepted and carries
another request_id than the one given, it fails with 409.  The ledger is
unchanged in each case. -/
theorem createDeal_notFound (db : Db) (uuid request_id offer_id : String)
    (hrid : request_id ≠ "") (hoid : offer_id ≠ "") :
    (findOffer db offer_id = none →
      (createDeal db uuid request_id offer_id).2.status = 404
        ∧ (createDeal db uuid request_id offer_id).1 = db)
    ∧ (∀ o, findOffer db offer_id = some o → o.status = OfferStatus.accepted →
        o.request_id = request_id → findRequest db request_id = none →
        (createDeal db uuid request_id offer_id).2.status = 404
          ∧ (createDeal db uuid request_id offer_id).1 = db)
    ∧ (∀ o, findOffer db offer_id = some o → o.status = OfferStatus.accepted →
        o.request_id ≠ request_id →
        (createDeal db uuid request_id offer_id).2.status = 409
          ∧ (createDeal db uuid request_id offer_id).1 = db) := by
  refine ⟨?_, ?_, ?_⟩
  · intro ho
    unfold createDeal dealsPost
    simp [keyOf, truthy, hrid, hoid, ho, fail]
  · intro o ho hacc hbel hR
    unfold createDeal dealsPost
    simp [keyOf, truthy, hrid, hoid, ho, hacc, hbel, hR, fail]
  · intro o ho hacc hbel
    unfold createDeal dealsPost
    simp [keyOf, truthy, hrid, hoid, ho, hacc, hbel, fail]

/-- C9 amended, on concrete ledgers: an absent offer gives 404; an accepted
offer whose own request is missing (`ledgerDangling`) gives 404; an accepted
offer named together with another, absent request gives 409. -/
theorem createDeal_notFound_witness :
    (createDeal ledgerAccepted "d1" "req_1" "off_missing").2.status = 404
    ∧ (createDeal ledgerDangling "d1" "req_1" "off_a").2.status = 404
    ∧ (createDeal ledgerAccepted "d1" "req_missing" "off_a").2.status = 409 :=
  ⟨((createDeal_notFound ledgerAccepted "d1" "req_1" "off_missing" (by decide) (by decide)).1
      (by decide)).1,
    ((createDeal_notFound ledgerDangling "d1" "req_1" "off_a" (by decide) (by decide)).2.1
      { offerA with status := OfferStatus.accepted } (by decide) (by decide) (by decide)
      (by decide)).1,
    ((createDeal_notFound ledgerAccepted "d1" "req_missing" "off_a" (by decide)
      (by decide)).2.2 { offerA with status := OfferStatus.accepted } (by decide) (by decide)
      (by decide)).1⟩

/-- C10: in every ledger reached from the empty one by any sequence of calls,
deal deletion included, each offer_id has at most one deal. -/
theorem at_most_one_deal_per_offer (agents : List String) (cs : List Call)
    (offer_id : String) :
    (dealsOfOffer (run (emptyLedger agents) cs) offer_id).length ≤ 1 :=
  length_filter_key_le_one (fun d : Deal => d.offer_id) offer_id _
    (run_offer_ids cs (emptyLedger agents) (by simp [emptyLedger]))

/-! ## Lemmas on deals, call histories and the idempotency store -/

theorem mem_of_findDeal {db : Db} {id : String} {d : Deal}
    (h : findDeal db id = some d) : d ∈ db.deals ∧ d.id = id :=
  ⟨List.mem_of_find?_eq_some h, by simpa using List.find?_some h⟩

/-- A row-wise UPDATE of deals that keeps `id`: the row found under `id`
afterwards is the image of the row found before. -/
theorem findDeal_map (db : Db) (f : Deal → Deal) (hf : ∀ d, (f d).id = d.id) (id : String) :
    findDeal { db with deals := db.deals.map f } id = (findDeal db id).map f := by
  simp only [findDeal]
  exact find?_map_key _ _ _ (fun a => by simp [hf])

theorem findDeal_append_of_some (db : Db) (row : Deal) (id : String) (d : Deal)
    (h : findDeal db id = some d) :
    findDeal { db with deals := db.deals ++ [row] } id = some d := by
  simp only [findDeal] at h ⊢
  rw [List.find?_append, h]
  rfl

theorem find?_filter_of_imp {α : Type} (p q : α → Bool) (l : List α)
    (h : ∀ a, p a = true → q a = true) : (l.filter q).find? p = l.find? p := by
  induction l with
  | nil => rfl
  | cons a l ih =>
    by_cases hq : q a = true
    · simp only [List.filter_cons, hq, if_true, List.find?_cons, ih]
    · have hp : p a = false := by
        cases hpa : p a with
        | false => rfl
        | true => exact absurd (h a hpa) hq
      have hq2 : q a = false := by simpa using hq
      simp [List.filter_cons, hq2, List.find?_cons, hp, ih]

theorem findDeal_filter (db : Db) (id0 id : String) (d : Deal)
    (h : findDeal { db with deals := db.deals.filter (fun d => d.id ≠ id0) } id = some d) :
    findDeal db id = some d := by
  simp only [findDeal] at h ⊢
  have hmem := List.mem_of_find?_eq_some h
  have hd := List.find?_some h
  simp only [List.mem_filter, ne_eq, decide_not, Bool.not_eq_true', decide_eq_false_iff_not,
    decide_eq_true_eq] at hmem hd
  rw [← h]
  symm
  apply find?_filter_of_imp
  intro a ha
  simp only [decide_eq_true_eq] at ha
  simp only [ne_eq, decide_not, Bool.not_eq_true', decide_eq_false_iff_not]
  rw [ha, ← hd]
  exact hmem.2

/-- The five ways a call can change the deal found under an id. -/
theorem findDeal_step (db : Db) (c : Call) (id : String) (d d' : Deal)
    (h : findDeal db id = some d) (h' : findDeal (step db c) id = some d') :
    d' = d
    ∨ (d.status = DealStatus.awaiting_approval
        ∧ ∃ now, d' = { d with status := DealStatus.approved, approved_at := some now })
    ∨ (d.status = DealStatus.approved
        ∧ ∃ receipt now, d' = { d with status := DealStatus.executed
                                       execution_receipt := some receipt
                                       executed_at := some now })
    ∨ (d.status = DealStatus.approved ∧ d' = { d with status := DealStatus.failed })
    ∨ (d.status = DealStatus.awaiting_approval
        ∧ d' = { d with status := DealStatus.cancelled }) := by
  have hdid : d.id = id := (mem_of_findDeal h).2
  have same : ∀ db1 : Db, db1.deals = db.deals → findDeal db1 id = some d' → d' = d := by
    intro db1 hd h1
    simp only [findDeal, hd] at h1
    simp only [findDeal] at h
    rw [h] at h1
    exact (Option.some.inj h1).symm
  cases c with
  | requestsPost uuid body => exact Or.inl (same _ (requestsPost_deals db uuid body) h')
  | requestsPut id0 body => exact Or.inl (same _ (requestsPut_deals db id0 body) h')
  | requestsDelete id0 => exact Or.inl (same _ (requestsDelete_deals db id0) h')
  | offersPost uuid body => exact Or.inl (same _ (offersPost_deals db uuid body) h')
  | offersPut id0 body => exact Or.inl (same _ (offersPut_deals db id0 body) h')
  | offersDelete id0 => exact Or.inl (same _ (offersDelete_deals db id0) h')
  | setAgents agents => exact Or.inl (same _ rfl h')
  | dealsPost uuid body =>
    left
    simp only [step] at h'
    unfold dealsPost at h'
    repeat' split at h'
    all_goals try exact same _ rfl h'
    rw [findDeal_append_of_some db _ id d h] at h'
    exact (Option.some.inj h').symm
  | dealsDelete id0 =>
    left
    simp only [step] at h'
    unfold dealsDelete at h'
    repeat' split at h'
    all_goals try exact same _ rfl h'
    have := findDeal_filter db id0 id d' h'
    rw [h] at this
    exact (Option.some.inj this).symm
  | dealsApprove id0 now =>
    simp only [step] at h'
    unfold dealsApprove at h'
    repeat' split at h'
    all_goals try exact Or.inl (same _ rfl h')
    rename_i deal hdeal hst
    rw [findDeal_map db _ (by intro a; split <;> rfl) id, h] at h'
    simp only [Option.map_some', Option.some.injEq] at h'
    by_cases hid : d.id = deal.id
    · right; left
      have : deal = d := by
        have h0 : id0 = id := by rw [← (mem_of_findDeal hdeal).2, ← hid, hdid]
        rw [h0, h] at hdeal
        exact (Option.some.inj hdeal).symm
      rw [this] at hst
      refine ⟨by simpa using hst, now, ?_⟩
      rw [← h']
      simp [hid]
    · left
      rw [← h']
      simp [hid]
  | dealsExecute id0 adapter now =>
    simp only [step] at h'
    unfold dealsExecute at h'
    repeat' split at h'
    all_goals try exact Or.inl (same _ rfl h')
    · rename_i deal hdeal hst _ receipt _
      rw [findDeal_map db _ (by intro a; split <;> rfl) id, h] at h'
      simp only [Option.map_some', Option.some.injEq] at h'
      by_cases hid : d.id = deal.id
      · right; right; left
        have : deal = d := by
          have h0 : id0 = id := by rw [← (mem_of_findDeal hdeal).2, ← hid, hdid]
          rw [h0, h] at hdeal
          exact (Option.some.inj hdeal).symm
        rw [this] at hst
        refine ⟨by simpa using hst, receipt, now, ?_⟩
        rw [← h']
        simp [hid]
      · left
        rw [← h']
        simp [hid]
    · rename_i deal hdeal hst _ detail _
      rw [findDeal_map db _ (by intro a; split <;> rfl) id, h] at h'
      simp only [Option.map_some', Option.some.injEq] at h'
      by_cases hid : d.id = deal.id
      · right; right; right; left
        have : deal = d := by
          have h0 : id0 = id := by rw [← (mem_of_findDeal hdeal).2, ← hid, hdid]
          rw [h0, h] at hdeal
          exact (Option.some.inj hdeal).symm
        rw [this] at hst
        refine ⟨by simpa using hst, ?_⟩
        rw [← h']
        simp [hid]
      · left
        rw [← h']
        simp [hid]
  | dealsPut id0 body =>
    simp only [step] at h'
    unfold dealsPut at h'
    repeat' split at h'
    all_goals try exact Or.inl (same _ rfl h')
    rename_i deal hdeal _ hst
    rw [findDeal_map db _ (by intro a; split <;> rfl) id, h] at h'
    simp only [Option.map_some', Option.some.injEq] at h'
    by_cases hid : d.id = deal.id
    · right; right; right; right
      have : deal = d := by
        have h0 : id0 = id := by rw [← (mem_of_findDeal hdeal).2, ← hid, hdid]
        rw [h0, h] at hdeal
        exact (Option.some.inj hdeal).symm
      rw [this] at hst
      refine ⟨by simpa using hst, ?_⟩
      rw [← h']
      simp [hid]
    · left
      rw [← h']
      simp [hid]


theorem dealsExecuteLogged_fst (db : Db) (id : String) (adapter : Adapter) (now : String) :
    (dealsExecuteLogged db id adapter now).1 = dealsExecute db id adapter now := by
  unfold dealsExecuteLogged dealsExecute
  repeat' split
  all_goals rfl


theorem run_append (db : Db) (a b : List Call) : run db (a ++ b) = run (run db a) b := by
  induction a generalizing db with
  | nil => rfl
  | cons c cs ih => exact ih (step db c)

theorem approvedIn_snoc {db0 : Db} {cs : List Call} {id now : String} (c : Call)
    (h : approvedIn db0 cs id now) : approvedIn db0 (cs ++ [c]) id now := by
  obtain ⟨pre, post, hcs, hok⟩ := h
  exact ⟨pre, post ++ [c], by rw [hcs]; simp, hok⟩

theorem deal_eq_of_id_eq {db : Db} (h : (db.deals.map (fun d => d.id)).Nodup)
    {a b : Deal} (ha : a ∈ db.deals) (hb : b ∈ db.deals) (hab : a.id = b.id) : a = b :=
  List.inj_on_of_nodup_map h ha hb hab

/-- A call that leaves the deals table alone keeps the approval invariant. -/
theorem approvalInv_same_deals {db0 db : Db} {cs : List Call} (c : Call)
    (hd : (step db c).deals = db.deals) (h : ApprovalInv db0 cs db) :
    ApprovalInv db0 (cs ++ [c]) (step db c) := by
  constructor
  · rw [run_append, ← h.reached]; rfl
  · rw [hd]; exact h.ids_nodup
  · intro d hdm hs
    rw [hd] at hdm
    obtain ⟨now, hat, hin⟩ := h.approved d hdm hs
    exact ⟨now, hat, approvedIn_snoc c hin⟩

/-- A row-wise UPDATE of deals that keeps ids, and whose changed rows either
leave the approved states or keep their approval, keeps the approval invariant. -/
theorem approvalInv_map {db0 db : Db} {cs : List Call} (c : Call) (f : Deal → Deal)
    (hd : (step db c).deals = db.deals.map f) (hid : ∀ d, (f d).id = d.id)
    (hf : ∀ d ∈ db.deals,
      (f d).status = DealStatus.approved ∨ (f d).status = DealStatus.executed
        ∨ (f d).status = DealStatus.failed →
      ((d.status = DealStatus.approved ∨ d.status = DealStatus.executed
          ∨ d.status = DealStatus.failed) ∧ (f d).approved_at = d.approved_at)
      ∨ ∃ now, (f d).approved_at = some now ∧ approvedIn db0 (cs ++ [c]) d.id now)
    (h : ApprovalInv db0 cs db) :
    ApprovalInv db0 (cs ++ [c]) (step db c) := by
  constructor
  · rw [run_append, ← h.reached]; rfl
  · rw [hd, map_map_key _ _ _ hid]; exact h.ids_nodup
  · intro d' hdm hs
    rw [hd] at hdm
    obtain ⟨d, hdmem, rfl⟩ := List.mem_map.mp hdm
    rw [hid]
    rcases hf d hdmem hs with ⟨hold, hat⟩ | hnew
    · obtain ⟨now, hat0, hin⟩ := h.approved d hdmem hold
      exact ⟨now, by rw [hat, hat0], approvedIn_snoc c hin⟩
    · exact hnew

theorem dealsPost_deals_cases (db : Db) (uuid : String) (body : DealPostBody) :
    (dealsPost db uuid body).1.deals = db.deals
    ∨ ∃ row, (dealsPost db uuid body).1.deals = db.deals ++ [row]
        ∧ row.status = DealStatus.awaiting_approval ∧ findDeal db row.id = none := by
  unfold dealsPost
  repeat' split
  all_goals try exact Or.inl rfl
  rename_i hfresh
  right
  refine ⟨_, rfl, rfl, ?_⟩
  cases hf : findDeal db ("deal_" ++ uuid) with
  | none => rfl
  | some x => simp [hf] at hfresh

theorem approvalInv_step (db0 db : Db) (cs : List Call) (c : Call)
    (h : ApprovalInv db0 cs db) : ApprovalInv db0 (cs ++ [c]) (step db c) := by
  cases c with
  | requestsPost uuid body => exact approvalInv_same_deals _ (requestsPost_deals db uuid body) h
  | requestsPut id0 body => exact approvalInv_same_deals _ (requestsPut_deals db id0 body) h
  | requestsDelete id0 => exact approvalInv_same_deals _ (requestsDelete_deals db id0) h
  | offersPost uuid body => exact approvalInv_same_deals _ (offersPost_deals db uuid body) h
  | offersPut id0 body => exact approvalInv_same_deals _ (offersPut_deals db id0 body) h
  | offersDelete id0 => exact approvalInv_same_deals _ (offersDelete_deals db id0) h
  | setAgents agents => exact approvalInv_same_deals _ rfl h
  | dealsPost uuid body =>
    rcases dealsPost_deals_cases db uuid body with hsame | ⟨row, hrow, hst, hfresh⟩
    · exact approvalInv_same_deals _ hsame h
    · constructor
      · rw [run_append, ← h.reached]; rfl
      · show ((dealsPost db uuid body).1.deals.map (fun d => d.id)).Nodup
        rw [hrow]
        simp only [List.map_append, List.map_cons, List.map_nil]
        rw [List.nodup_append]
        refine ⟨h.ids_nodup, List.nodup_singleton _, ?_⟩
        rw [List.disjoint_singleton]
        intro hmem
        obtain ⟨x, hx, hxid⟩ := List.mem_map.mp hmem
        have := List.find?_eq_none.mp hfresh x hx
        simp [hxid] at this
      · intro d hdm hs
        have hdm2 : d ∈ db.deals ++ [row] := by rw [← hrow]; exact hdm
        rcases List.mem_append.mp hdm2 with hold | hnew
        · obtain ⟨now, hat, hin⟩ := h.approved d hold hs
          exact ⟨now, hat, approvedIn_snoc _ hin⟩
        · rw [List.mem_singleton] at hnew
          rw [hnew, hst] at hs
          simp at hs
  | dealsDelete id0 =>
    constructor
    · rw [run_append, ← h.reached]; rfl
    · simp only [step]
      unfold dealsDelete
      repeat' split
      all_goals try exact h.ids_nodup
      exact nodup_key_filter _ _ _ h.ids_nodup
    · intro d hdm hs
      have hold : d ∈ db.deals := by
        simp only [step] at hdm
        unfold dealsDelete at hdm
        repeat' split at hdm
        all_goals try exact hdm
        exact (List.mem_filter.mp hdm).1
      obtain ⟨now, hat, hin⟩ := h.approved d hold hs
      exact ⟨now, hat, approvedIn_snoc _ hin⟩
  | dealsApprove id0 now =>
    cases hfind : findDeal db id0 with
    | none =>
      exact approvalInv_same_deals _ (by simp [step, dealsApprove, hfind]) h
    | some deal =>
      by_cases hst : deal.status = DealStatus.awaiting_approval
      · have hok : (dealsApprove (run db0 cs) id0 now).2.status = 200 := by
          rw [← h.reached]
          simp [dealsApprove, hfind, hst]
        apply approvalInv_map _ (fun d => if d.id = deal.id
            then { d with status := DealStatus.approved, approved_at := some now } else d)
          (by simp [step, dealsApprove, hfind, hst]) (by intro a; dsimp only; split <;> rfl) _ h
        intro d _ hs
        by_cases hid : d.id = deal.id
        · right
          refine ⟨now, by simp [hid], cs, [], ?_, ?_⟩
          · rw [hid, (mem_of_findDeal hfind).2]
          · rw [hid, (mem_of_findDeal hfind).2]
            exact hok
        · left
          simp only [hid, if_false] at hs
          exact ⟨hs, by simp [hid]⟩
      · exact approvalInv_same_deals _ (by simp [step, dealsApprove, hfind, hst]) h
  | dealsExecute id0 adapter now =>
    cases hfind : findDeal db id0 with
    | none =>
      exact approvalInv_same_deals _ (by simp [step, dealsExecute, hfind]) h
    | some deal =>
      by_cases hst : deal.status = DealStatus.approved
      · cases hr : adapter deal with
        | ok receipt =>
          apply approvalInv_map _ (fun d => if d.id = deal.id
              then { d with status := DealStatus.executed, execution_receipt := some receipt
                            executed_at := some now } else d)
            (by simp [step, dealsExecute, hfind, hst, hr]) (by intro a; dsimp only; split <;> rfl) _ h
          intro d hd hs
          left
          by_cases hid : d.id = deal.id
          · have : d = deal := deal_eq_of_id_eq h.ids_nodup hd (mem_of_findDeal hfind).1 hid
            rw [this]
            simp [hst]
          · simp only [hid, if_false] at hs
            exact ⟨hs, by simp [hid]⟩
        | error detail =>
          apply approvalInv_map _ (fun d => if d.id = deal.id
              then { d with status := DealStatus.failed } else d)
            (by simp [step, dealsExecute, hfind, hst, hr]) (by intro a; dsimp only; split <;> rfl) _ h
          intro d hd hs
          left
          by_cases hid : d.id = deal.id
          · have : d = deal := deal_eq_of_id_eq h.ids_nodup hd (mem_of_findDeal hfind).1 hid
            rw [this]
            simp [hst]
          · simp only [hid, if_false] at hs
            exact ⟨hs, by simp [hid]⟩
      · exact approvalInv_same_deals _ (by simp [step, dealsExecute, hfind, hst]) h
  | dealsPut id0 body =>
    cases hfind : findDeal db id0 with
    | none =>
      exact approvalInv_same_deals _ (by simp [step, dealsPut, hfind]) h
    | some deal =>
      by_cases hb : body.status = some "cancelled"
      · by_cases hst : deal.status = DealStatus.awaiting_approval
        · apply approvalInv_map _ (fun d => if d.id = deal.id
              then { d with status := DealStatus.cancelled } else d)
            (by simp [step, dealsPut, hfind, hst, hb]) (by intro a; dsimp only; split <;> rfl) _ h
          intro d _ hs
          by_cases hid : d.id = deal.id
          · simp [hid] at hs
          · left
            simp only [hid, if_false] at hs
            exact ⟨hs, by simp [hid]⟩
        · exact approvalInv_same_deals _ (by simp [step, dealsPut, hfind, hst, hb]) h
      · exact approvalInv_same_deals _ (by simp [step, dealsPut, hfind, hb]) h

theorem approvalInv_run (db0 : Db) (cs : List Call)
    (h0 : (db0.deals.map (fun d => d.id)).Nodup)
    (h1 : ∀ d ∈ db0.deals, ¬ (d.status = DealStatus.approved ∨ d.status = DealStatus.executed
      ∨ d.status = DealStatus.failed)) :
    ApprovalInv db0 cs (run db0 cs) := by
  induction cs using List.reverseRecOn with
  | nil => exact ⟨rfl, h0, fun d hd hs => absurd hs (h1 d hd)⟩
  | append_singleton cs c ih =>
    have := approvalInv_step db0 (run db0 cs) cs c ih
    rw [run_append]
    exact this


theorem cacheGet_cacheSet (store : List (String × Cached)) (key : String) (value : Cached) :
    cacheGet (cacheSet store key value) key = some value := by
  simp [cacheGet, cacheSet]


/-! ## The deal snapshot and the deal state machine -/

/-- C11: whatever call is served, a deal found under the same id before and
after it keeps its amount_nano, payer_agent_id, payee_agent_id, request_id and
offer_id; updates of the source request or offer never touch the deals table. -/
theorem deal_snapshot_frozen (db : Db) (c : Call) (id : String) (d d' : Deal)
    (h : findDeal db id = some d) (h' : findDeal (step db c) id = some d') :
    d'.amount_nano = d.amount_nano ∧ d'.payer_agent_id = d.payer_agent_id
      ∧ d'.payee_agent_id = d.payee_agent_id ∧ d'.request_id = d.request_id
      ∧ d'.offer_id = d.offer_id := by
  rcases findDeal_step db c id d d' h h' with
    rfl | ⟨_, _, rfl⟩ | ⟨_, _, _, rfl⟩ | ⟨_, rfl⟩ | ⟨_, rfl⟩ <;> exact ⟨rfl, rfl, rfl, rfl, rfl⟩

/-- C11, on `ledgerDeal`: the deal for `off_a` is found unchanged after its
request has been rewritten, its ceiling lowered to 1 and its status cancelled;
and after the deal itself has been approved its five snapshot fields are those
of the row as created. -/
theorem deal_snapshot_frozen_witness :
    findDeal ledgerDeal "deal_d1" = some sampleDeal
    ∧ (findRequest (step ledgerDeal rewriteRequest) "req_1").map (fun r => r.max_price_nano)
        = some 1
    ∧ findDeal (step ledgerDeal rewriteRequest) "deal_d1" = some sampleDeal
    ∧ findDeal (step ledgerDeal (Call.dealsApprove "deal_d1" "2026-01-01T00:00:00.000Z"))
        "deal_d1"
        = some { sampleDeal with status := DealStatus.approved
                                 approved_at := some "2026-01-01T00:00:00.000Z" }
    ∧ (({ sampleDeal with status := DealStatus.approved
                          approved_at := some "2026-01-01T00:00:00.000Z" } : Deal).amount_nano
          = sampleDeal.amount_nano
        ∧ ({ sampleDeal with status := DealStatus.approved
                             approved_at := some "2026-01-01T00:00:00.000Z" } : Deal).payer_agent_id
          = sampleDeal.payer_agent_id
        ∧ ({ sampleDeal with status := DealStatus.approved
                             approved_at := some "2026-01-01T00:00:00.000Z" } : Deal).payee_agent_id
          = sampleDeal.payee_agent_id
        ∧ ({ sampleDeal with status := DealStatus.approved
                             approved_at := some "2026-01-01T00:00:00.000Z" } : Deal).request_id
          = sampleDeal.request_id
        ∧ ({ sampleDeal with status := DealStatus.approved
                             approved_at := some "2026-01-01T00:00:00.000Z" } : Deal).offer_id
          = sampleDeal.offer_id) :=
  ⟨by decide, by decide, by decide, by decide,
    deal_snapshot_frozen ledgerDeal (Call.dealsApprove "deal_d1" "2026-01-01T00:00:00.000Z")
      "deal_d1" sampleDeal
      { sampleDeal with status := DealStatus.approved
                        approved_at := some "2026-01-01T00:00:00.000Z" }
      (by decide) (by decide)⟩

/-- When every call is served to its end before the next one (`step`), the
status of a deal found under the same id before and after a call is unchanged
or has moved along one of the four edges of the state machine, and a deal in
executed, failed or cancelled keeps its status.  An Execute overtaken during
its `await` is not a `step`. -/
theorem deal_status_legal_sequential (db : Db) (c : Call) (id : String) (d d' : Deal)
    (h : findDeal db id = some d) (h' : findDeal (step db c) id = some d') :
    (d'.status = d.status ∨ legalEdge d.status d'.status = true)
      ∧ (isTerminal d.status = true → d'.status = d.status) := by
  rcases findDeal_step db c id d d' h h' with
    rfl | ⟨hs, _, rfl⟩ | ⟨hs, _, _, rfl⟩ | ⟨hs, rfl⟩ | ⟨hs, rfl⟩
  · exact ⟨Or.inl rfl, fun _ => rfl⟩
  all_goals
    refine ⟨Or.inr (by rw [hs]; rfl), fun ht => ?_⟩
    rw [hs] at ht
    exact absurd ht (by decide)

/-- On `ledgerDeal`, approving the deal moves it along the edge
awaiting_approval → approved. -/
theorem deal_status_legal_sequential_witness :
    findDeal ledgerDeal "deal_d1" = some sampleDeal
    ∧ findDeal (step ledgerDeal (Call.dealsApprove "deal_d1" "2026-01-01T00:00:00.000Z"))
        "deal_d1"
        = some { sampleDeal with status := DealStatus.approved
                                 approved_at := some "2026-01-01T00:00:00.000Z" }
    ∧ (DealStatus.approved = DealStatus.awaiting_approval
        ∨ legalEdge DealStatus.awaiting_approval DealStatus.approved = true) :=
  ⟨by decide, by decide,
    (deal_status_legal_sequential ledgerDeal
      (Call.dealsApprove "deal_d1" "2026-01-01T00:00:00.000Z")
      "deal_d1" sampleDeal
      { sampleDeal with status := DealStatus.approved
                        approved_at := some "2026-01-01T00:00:00.000Z" }
      (by decide) (by decide)).1⟩

/-- C12, the code at the failing input: two Execute calls on the approved
`deal_d1` overlap.  Both pass the status guard, the second while the first is
suspended on the adapter and the row is still approved.  The first adapter
call resolves and the row becomes executed, a terminal status; the second
adapter call then throws and the handler, which does not read the status
again, answers 500 and writes failed over executed, leaving the first receipt
in the row.  The row has gone executed → failed, which is no edge of the state
machine. -/
theorem executed_deal_becomes_failed :
    executeBegin ledgerApproved "deal_d1" = Except.ok approvedDeal
    ∧ findDeal ledgerFirstSettled "deal_d1"
        = some { approvedDeal with status := DealStatus.executed
                                   execution_receipt := some "receipt_1"
                                   executed_at := some "2026-01-01T00:00:01.000Z" }
    ∧ isTerminal DealStatus.executed = true
    ∧ (executeFinish ledgerFirstSettled approvedDeal
        (Except.error "settlement backend unavailable") "2026-01-01T00:00:02.000Z").2.status
        = 500
    ∧ findDeal (executeFinish ledgerFirstSettled approvedDeal
        (Except.error "settlement backend unavailable") "2026-01-01T00:00:02.000Z").1 "deal_d1"
        = some { approvedDeal with status := DealStatus.failed
                                   execution_receipt := some "receipt_1"
                                   executed_at := some "2026-01-01T00:00:01.000Z" }
    ∧ legalEdge DealStatus.executed DealStatus.failed = false :=
  ⟨rfl, by decide, by decide, by decide, by decide, by decide⟩

/-- C13: in every ledger reached from the empty one, a deal that is executed
or failed carries an `approved_at` written by an Approve call of the sequence
that was answered 200; and whenever an Execute call hands a deal to the
adapter, that deal is stored, has status `approved` and carries such an
`approved_at`. -/
theorem executed_only_after_approve (agents : List String) (cs : List Call) :
    (∀ d ∈ (run (emptyLedger agents) cs).deals,
      d.status = DealStatus.executed ∨ d.status = DealStatus.failed →
      ∃ t, d.approved_at = some t ∧ approvedIn (emptyLedger agents) cs d.id t)
    ∧ (∀ (id : String) (adapter : Adapter) (now : String),
        ∀ d ∈ (dealsExecuteLogged (run (emptyLedger agents) cs) id adapter now).2,
          d ∈ (run (emptyLedger agents) cs).deals ∧ d.status = DealStatus.approved
          ∧ ∃ t, d.approved_at = some t ∧ approvedIn (emptyLedger agents) cs d.id t) := by
  have hinv := approvalInv_run (emptyLedger agents) cs (by simp [emptyLedger])
    (by simp [emptyLedger])
  constructor
  · intro d hd hs
    exact hinv.approved d hd (Or.inr hs)
  · intro id adapter now d hd
    cases hfind : findDeal (run (emptyLedger agents) cs) id with
    | none => simp [dealsExecuteLogged, hfind] at hd
    | some deal =>
      by_cases hst : deal.status = DealStatus.approved
      · have hlog : (dealsExecuteLogged (run (emptyLedger agents) cs) id adapter now).2
            = [deal] := by
          unfold dealsExecuteLogged
          simp only [hfind, hst, ne_eq, not_true_eq_false, if_false]
          split <;> rfl
        rw [hlog, List.mem_singleton] at hd
        subst hd
        exact ⟨(mem_of_findDeal hfind).1, hst,
          hinv.approved d (mem_of_findDeal hfind).1 (Or.inl hst)⟩
      · simp [dealsExecuteLogged, hfind, hst] at hd

/-- C13, on `fullFlowCalls`: the executed deal is stored, and its
`approved_at` is the time of an Approve call of the sequence answered 200. -/
theorem executed_only_after_approve_witness :
    executedDeal ∈ (run (emptyLedger sampleAgents) fullFlowCalls).deals
    ∧ ∃ t, executedDeal.approved_at = some t
        ∧ approvedIn (emptyLedger sampleAgents) fullFlowCalls executedDeal.id t :=
  ⟨by decide,
    (executed_only_after_approve sampleAgents fullFlowCalls).1 executedDeal (by decide)
      (Or.inl rfl)⟩

/-! ## Approve, Execute, Cancel -/

/-- C14: for an existing deal, Approve answers 409 with
`current_status = d.status` and leaves the ledger unchanged exactly when the
status is not `awaiting_approval`; otherwise it answers 200 and the deal is the
old row with status `approved` and `approved_at` set to the call's time, every
other field as before. -/
theorem approve_iff_awaiting (db : Db) (id now : String) (d : Deal)
    (h : findDeal db id = some d) :
    (((dealsApprove db id now).2 = fail 409 (ErrorMsg.cannotApprove d.status)
        ∧ (dealsApprove db id now).1 = db)
      ↔ d.status ≠ DealStatus.awaiting_approval)
    ∧ ((dealsApprove db id now).2.status = 409 ↔ d.status ≠ DealStatus.awaiting_approval)
    ∧ (d.status = DealStatus.awaiting_approval →
        (dealsApprove db id now).2.status = 200
        ∧ findDeal (dealsApprove db id now).1 id
            = some { d with status := DealStatus.approved, approved_at := some now }) := by
  have hid : d.id = id := (mem_of_findDeal h).2
  by_cases hs : d.status = DealStatus.awaiting_approval
  · have hres : dealsApprove db id now
        = ({ db with deals := db.deals.map (fun x => if x.id = d.id
              then { x with status := DealStatus.approved, approved_at := some now } else x) },
           { status := 200
             body := Body.deal (findDeal { db with deals := db.deals.map (fun x => if x.id = d.id
              then { x with status := DealStatus.approved, approved_at := some now } else x) }
                d.id) }) := by
      simp [dealsApprove, h, hs]
    rw [hres]
    refine ⟨?_, ?_, ?_⟩
    · simp [hs, fail]
    · simp [hs]
    · intro _
      refine ⟨rfl, ?_⟩
      simp only []
      rw [findDeal_map db _ (by intro a; split <;> rfl) id, h]
      simp
  · have hres : dealsApprove db id now = (db, fail 409 (ErrorMsg.cannotApprove d.status)) := by
      simp [dealsApprove, h, hs]
    rw [hres]
    simp [hs, fail]

/-- C14, on `ledgerDeal` and `ledgerApproved`: the first Approve answers 200
and records `approved_at`; a second Approve answers 409. -/
theorem approve_iff_awaiting_witness :
    findDeal ledgerDeal "deal_d1" = some sampleDeal
    ∧ (dealsApprove ledgerDeal "deal_d1" "2026-01-01T00:00:00.000Z").2.status = 200
    ∧ findDeal (dealsApprove ledgerDeal "deal_d1" "2026-01-01T00:00:00.000Z").1 "deal_d1"
        = some { sampleDeal with status := DealStatus.approved
                                 approved_at := some "2026-01-01T00:00:00.000Z" }
    ∧ (dealsApprove ledgerApproved "deal_d1" "2026-01-02T00:00:00.000Z").2.status = 409 :=
  have h := (approve_iff_awaiting ledgerDeal "deal_d1" "2026-01-01T00:00:00.000Z" sampleDeal
    (by decide)).2.2 (by decide)
  ⟨by decide, h.1, h.2,
    (approve_iff_awaiting ledgerApproved "deal_d1" "2026-01-02T00:00:00.000Z"
      { sampleDeal with status := DealStatus.approved
                        approved_at := some "2026-01-01T00:00:00.000Z" }
      (by decide)).2.1.mpr (by decide)⟩

/-- C15: Execute on an existing deal that is not `approved` answers 409 with
`current_status = d.status`, leaves the ledger unchanged and hands nothing to
the adapter. -/
theorem execute_not_approved (db : Db) (id : String) (adapter : Adapter) (now : String)
    (d : Deal) (h : findDeal db id = some d) (hs : d.status ≠ DealStatus.approved) :
    (dealsExecuteLogged db id adapter now).1.2 = fail 409 (ErrorMsg.cannotExecute d.status)
    ∧ (dealsExecuteLogged db id adapter now).1.2.status = 409
    ∧ (dealsExecuteLogged db id adapter now).1.1 = db
    ∧ (dealsExecuteLogged db id adapter now).2 = [] := by
  simp [dealsExecuteLogged, h, hs, fail]

/-- C15, on `ledgerDeal`: executing the deal before approval answers 409,
changes nothing and never reaches the adapter. -/
theorem execute_not_approved_witness :
    findDeal ledgerDeal "deal_d1" = some sampleDeal
    ∧ (dealsExecuteLogged ledgerDeal "deal_d1" okAdapter "2026-01-01T00:00:01.000Z").1.2
        = fail 409 (ErrorMsg.cannotExecute DealStatus.awaiting_approval)
    ∧ (dealsExecuteLogged ledgerDeal "deal_d1" okAdapter "2026-01-01T00:00:01.000Z").1.1
        = ledgerDeal
    ∧ (dealsExecuteLogged ledgerDeal "deal_d1" okAdapter "2026-01-01T00:00:01.000Z").2 = [] :=
  have h := execute_not_approved ledgerDeal "deal_d1" okAdapter "2026-01-01T00:00:01.000Z"
    sampleDeal (by decide) (by decide)
  ⟨by decide, h.1, h.2.2.1, h.2.2.2⟩

/-- C16: Execute on an approved deal whose adapter call returns a receipt
hands the stored row to the adapter exactly once, answers 200, and the deal
becomes the old row with status `executed`, the receipt and `executed_at`
recorded, `approved_at` and the snapshot fields as before. -/
theorem execute_success (db : Db) (id : String) (adapter : Adapter) (now : String)
    (d : Deal) (receipt : String)
    (h : findDeal db id = some d) (hs : d.status = DealStatus.approved)
    (hr : adapter d = Except.ok receipt) :
    (dealsExecuteLogged db id adapter now).2 = [d]
    ∧ (dealsExecuteLogged db id adapter now).1.2.status = 200
    ∧ findDeal (dealsExecuteLogged db id adapter now).1.1 id
        = some { d with status := DealStatus.executed
                        execution_receipt := some receipt
                        executed_at := some now }
    ∧ (dealsExecuteLogged db id adapter now).1.2.body
        = Body.deal (some { d with status := DealStatus.executed
                                   execution_receipt := some receipt
                                   executed_at := some now }) := by
  have hid : d.id = id := (mem_of_findDeal h).2
  have hfind : findDeal { db with deals := db.deals.map (fun x => if x.id = d.id
      then { x with status := DealStatus.executed, execution_receipt := some receipt
                    executed_at := some now } else x) } id
      = some { d with status := DealStatus.executed, execution_receipt := some receipt
                      executed_at := some now } := by
    rw [findDeal_map db _ (by intro a; split <;> rfl) id, h]
    simp
  have hres : dealsExecuteLogged db id adapter now
      = (({ db with deals := db.deals.map (fun x => if x.id = d.id
            then { x with status := DealStatus.executed, execution_receipt := some receipt
                          executed_at := some now } else x) },
          { status := 200
            body := Body.deal (findDeal { db with deals := db.deals.map (fun x => if x.id = d.id
              then { x with status := DealStatus.executed, execution_receipt := some receipt
                            executed_at := some now } else x) } d.id) }), [d]) := by
    unfold dealsExecuteLogged
    simp only [h, hs, hr, ne_eq, not_true_eq_false, if_false]
  rw [hres]
  refine ⟨rfl, rfl, hfind, ?_⟩
  rw [← hid] at hfind
  simp only []
  rw [hfind]

/-- C16, on `ledgerApproved` with `okAdapter`: the adapter receives the stored
row once, the answer is 200 and the deal is executed with the receipt. -/
theorem execute_success_witness :
    findDeal ledgerApproved "deal_d1"
        = some { sampleDeal with status := DealStatus.approved
                                 approved_at := some "2026-01-01T00:00:00.000Z" }
    ∧ (dealsExecuteLogged ledgerApproved "deal_d1" okAdapter "2026-01-01T00:00:01.000Z").2
        = [{ sampleDeal with status := DealStatus.approved
                             approved_at := some "2026-01-01T00:00:00.000Z" }]
    ∧ (dealsExecuteLogged ledgerApproved "deal_d1" okAdapter
        "2026-01-01T00:00:01.000Z").1.2.status = 200
    ∧ findDeal (dealsExecuteLogged ledgerApproved "deal_d1" okAdapter
        "2026-01-01T00:00:01.000Z").1.1 "deal_d1"
        = some { sampleDeal with status := DealStatus.executed
                                 execution_receipt := some "mcp_receipt_0123456789abcdef"
                                 executed_at := some "2026-01-01T00:00:01.000Z"
                                 approved_at := some "2026-01-01T00:00:00.000Z" } :=
  have h := execute_success ledgerApproved "deal_d1" okAdapter "2026-01-01T00:00:01.000Z"
    { sampleDeal with status := DealStatus.approved
                      approved_at := some "2026-01-01T00:00:00.000Z" }
    "mcp_receipt_0123456789abcdef" (by decide) (by decide) rfl
  ⟨by decide, h.1, h.2.1, h.2.2.1⟩

/-- C17: Execute on an approved deal whose adapter call throws hands the
stored row to the adapter once, answers 500 with the error's message, and the
deal becomes the old row with status `failed` (receipt and `executed_at`
untouched); any later Execute of it answers 409, changes nothing and does not
reach the adapter. -/
theorem execute_failure (db : Db) (id : String) (adapter : Adapter) (now : String)
    (d : Deal) (e : String)
    (h : findDeal db id = some d) (hs : d.status = DealStatus.approved)
    (he : adapter d = Except.error e) :
    (dealsExecuteLogged db id adapter now).2 = [d]
    ∧ (dealsExecuteLogged db id adapter now).1.2 = fail 500 (ErrorMsg.executionFailed e)
    ∧ findDeal (dealsExecuteLogged db id adapter now).1.1 id
        = some { d with status := DealStatus.failed }
    ∧ (∀ (adapter2 : Adapter) (now2 : String),
        (dealsExecuteLogged (dealsExecuteLogged db id adapter now).1.1 id adapter2 now2).1.2
            = fail 409 (ErrorMsg.cannotExecute DealStatus.failed)
        ∧ (dealsExecuteLogged (dealsExecuteLogged db id adapter now).1.1 id adapter2 now2).1.1
            = (dealsExecuteLogged db id adapter now).1.1
        ∧ (dealsExecuteLogged (dealsExecuteLogged db id adapter now).1.1 id adapter2 now2).2
            = []) := by
  have hfind : findDeal { db with deals := db.deals.map (fun x => if x.id = d.id
      then { x with status := DealStatus.failed } else x) } id
      = some { d with status := DealStatus.failed } := by
    rw [findDeal_map db _ (by intro a; split <;> rfl) id, h]
    simp
  have hres : dealsExecuteLogged db id adapter now
      = (({ db with deals := db.deals.map (fun x => if x.id = d.id
            then { x with status := DealStatus.failed } else x) },
          fail 500 (ErrorMsg.executionFailed e)), [d]) := by
    unfold dealsExecuteLogged
    simp only [h, hs, he, ne_eq, not_true_eq_false, if_false]
  rw [hres]
  refine ⟨rfl, rfl, hfind, ?_⟩
  intro adapter2 now2
  simp [dealsExecuteLogged, hfind, fail]

/-- C17, on `ledgerApproved` with `failingAdapter`: the answer is 500 with the
adapter's message, the deal is failed without receipt, and a second Execute,
now with `okAdapter`, answers 409 without reaching the adapter. -/
theorem execute_failure_witness :
    findDeal ledgerApproved "deal_d1"
        = some { sampleDeal with status := DealStatus.approved
                                 approved_at := some "2026-01-01T00:00:00.000Z" }
    ∧ (dealsExecuteLogged ledgerApproved "deal_d1" failingAdapter
        "2026-01-01T00:00:01.000Z").1.2
        = fail 500 (ErrorMsg.executionFailed "settlement backend unavailable")
    ∧ findDeal (dealsExecuteLogged ledgerApproved "deal_d1" failingAdapter
        "2026-01-01T00:00:01.000Z").1.1 "deal_d1"
        = some { sampleDeal with status := DealStatus.failed
                                 approved_at := some "2026-01-01T00:00:00.000Z" }
    ∧ (dealsExecuteLogged (dealsExecuteLogged ledgerApproved "deal_d1" failingAdapter
        "2026-01-01T00:00:01.000Z").1.1 "deal_d1" okAdapter "2026-01-01T00:00:02.000Z").1.2
        = fail 409 (ErrorMsg.cannotExecute DealStatus.failed)
    ∧ (dealsExecuteLogged (dealsExecuteLogged ledgerApproved "deal_d1" failingAdapter
        "2026-01-01T00:00:01.000Z").1.1 "deal_d1" okAdapter "2026-01-01T00:00:02.000Z").2
        = [] :=
  have h := execute_failure ledgerApproved "deal_d1" failingAdapter "2026-01-01T00:00:01.000Z"
    { sampleDeal with status := DealStatus.approved
                      approved_at := some "2026-01-01T00:00:00.000Z" }
    "settlement backend unavailable" (by decide) (by decide) rfl
  ⟨by decide, h.2.1, h.2.2.1,
    (h.2.2.2 okAdapter "2026-01-01T00:00:02.000Z").1,
    (h.2.2.2 okAdapter "2026-01-01T00:00:02.000Z").2.2⟩

/-- C18: Cancel on an existing deal answers 200 and sets the status to
`cancelled` when the deal is `awaiting_approval`; otherwise it answers 409 and
leaves the ledger unchanged. -/
theorem cancel_only_awaiting (db : Db) (id : String) (d : Deal)
    (h : findDeal db id = some d) :
    (d.status = DealStatus.awaiting_approval →
      (cancelDeal db id).2.status = 200
      ∧ findDeal (cancelDeal db id).1 id = some { d with status := DealStatus.cancelled })
    ∧ (d.status ≠ DealStatus.awaiting_approval →
      (cancelDeal db id).2 = fail 409 (ErrorMsg.cannotCancel d.status)
      ∧ (cancelDeal db id).2.status = 409
      ∧ (cancelDeal db id).1 = db) := by
  constructor
  · intro hs
    have hres : cancelDeal db id
        = ({ db with deals := db.deals.map (fun x => if x.id = d.id
              then { x with status := DealStatus.cancelled } else x) },
           { status := 200
             body := Body.deal (findDeal { db with deals := db.deals.map (fun x => if x.id = d.id
              then { x with status := DealStatus.cancelled } else x) } d.id) }) := by
      simp [cancelDeal, dealsPut, h, hs]
    rw [hres]
    refine ⟨rfl, ?_⟩
    simp only []
    rw [findDeal_map db _ (by intro a; split <;> rfl) id, h]
    simp
  · intro hs
    simp [cancelDeal, dealsPut, h, hs, fail]

/-- C18, on `ledgerDeal` and `ledgerApproved`: cancelling the awaiting deal
answers 200 and stores `cancelled`; cancelling the approved deal answers 409 and
changes nothing. -/
theorem cancel_only_awaiting_witness :
    findDeal ledgerDeal "deal_d1" = some sampleDeal
    ∧ (cancelDeal ledgerDeal "deal_d1").2.status = 200
    ∧ findDeal (cancelDeal ledgerDeal "deal_d1").1 "deal_d1"
        = some { sampleDeal with status := DealStatus.cancelled }
    ∧ (cancelDeal ledgerApproved "deal_d1").2.status = 409
    ∧ (cancelDeal ledgerApproved "deal_d1").1 = ledgerApproved :=
  have h := (cancel_only_awaiting ledgerDeal "deal_d1" sampleDeal (by decide)).1 (by decide)
  have h2 := (cancel_only_awaiting ledgerApproved "deal_d1"
    { sampleDeal with status := DealStatus.approved
                      approved_at := some "2026-01-01T00:00:00.000Z" } (by decide)).2 (by decide)
  ⟨by decide, h.1, h.2, h2.2.1, h2.2.2⟩

/-! ## Idempotent replay -/

/-- C19: a create-request call with a valid body and a client key not yet in
the idempotency store (sent as header or as body field) answers 201 and stores
exactly one request; the same key sent again gets the first response back,
status and body, whatever route it is sent to, and neither the ledger nor the
store changes: the route is not run. -/
theorem create_request_replayed (s : Server) (header bodyField : Option String)
    (uuid : String) (body : RequestPostBody) (p : Int)
    (hkey : truthy (idempotencyKey header bodyField) = true)
    (hnew : cacheGet s.idempotencyStore (keyOf (idempotencyKey header bodyField)) = none)
    (hrequester : truthy body.requester_agent_id = true)
    (hquery : truthy body.service_query = true)
    (hmax : body.max_price_nano = JsAmount.int p) (hpos : 0 < p)
    (hagent : agentExists s.db (keyOf body.requester_agent_id) = true)
    (hfresh : findRequest s.db ("req_" ++ uuid) = none) :
    (serve s "POST" header bodyField (fun db => requestsPost db uuid body)).2.status = 201
    ∧ (serve s "POST" header bodyField (fun db => requestsPost db uuid body)).1.db.requests
        = s.db.requests ++
          [{ id := "req_" ++ uuid
             requester_agent_id := keyOf body.requester_agent_id
             service_query := keyOf body.service_query
             max_price_nano := p
             status := RequestStatus.open_ }]
    ∧ (∀ next : Db → Db × Response,
        serve (serve s "POST" header bodyField (fun db => requestsPost db uuid body)).1
            "POST" header bodyField next
          = ((serve s "POST" header bodyField (fun db => requestsPost db uuid body)).1,
             (serve s "POST" header bodyField (fun db => requestsPost db uuid body)).2)) := by
  have hpost : requestsPost s.db uuid body
      = ({ s.db with requests := s.db.requests ++
            [{ id := "req_" ++ uuid
               requester_agent_id := keyOf body.requester_agent_id
               service_query := keyOf body.service_query
               max_price_nano := p
               status := RequestStatus.open_ }] },
         { status := 201
           body := Body.request (requestJoined { s.db with requests := s.db.requests ++
            [{ id := "req_" ++ uuid
               requester_agent_id := keyOf body.requester_agent_id
               service_query := keyOf body.service_query
               max_price_nano := p
               status := RequestStatus.open_ }] } ("req_" ++ uuid)) }) := by
    unfold requestsPost
    simp [hrequester, hquery, hmax, isPositiveInteger, hpos, hagent, hfresh]
  have hserve : serve s "POST" header bodyField (fun db => requestsPost db uuid body)
      = ({ db := (requestsPost s.db uuid body).1
           idempotencyStore := cacheSet s.idempotencyStore
             (keyOf (idempotencyKey header bodyField))
             { status := 201, data := (requestsPost s.db uuid body).2.body } },
         (requestsPost s.db uuid body).2) := by
    unfold serve
    simp only [hkey, hnew, if_true]
    simp [isMutating, record, hpost]
  rw [hserve]
  refine ⟨by rw [hpost], by rw [hpost], ?_⟩
  intro next
  unfold serve
  simp only [hkey, if_true, cacheGet_cacheSet]
  simp [isMutating, hpost]

/-- C19, on `freshServer`: the create-request of examples/quickstart.js with
body field `idempotency_key = key-1` answers 201; sent again (the route would
now draw another uuid) it gets the same response and the server is unchanged,
so one request is stored. -/
theorem create_request_replayed_witness :
    cacheGet freshServer.idempotencyStore "key-1" = none
    ∧ keyedCreate.2.status = 201
    ∧ serve keyedCreate.1 "POST" none (some "key-1")
        (fun db => requestsPost db "r2" sampleRequestBody) = (keyedCreate.1, keyedCreate.2)
    ∧ (serve keyedCreate.1 "POST" none (some "key-1")
        (fun db => requestsPost db "r2" sampleRequestBody)).1.db.requests.length = 1 :=
  have h := create_request_replayed freshServer none (some "key-1") "r1" sampleRequestBody
    2000000000 (by decide) (by decide) (by decide) (by decide) rfl (by decide) (by decide)
    (by decide)
  ⟨by decide, h.1, h.2.2 (fun db => requestsPost db "r2" sampleRequestBody), by decide⟩

/-- C20, refuted as stated: a `POST /api/offers` with key `key-1` sent before
the request exists is answered 404 and not recorded; after the request has
been created, the same call with the same key is run again and answered 201. -/
theorem failed_call_not_replayed :
    firstAttempt.2.status = 404
    ∧ secondAttempt.2.status = 201
    ∧ secondAttempt.2 ≠ firstAttempt.2 := by
  decide

/-- C20, amended: for a mutating call with a client key whose response has a
2xx status, every later mutating call with the same key, served in any state
in which the store still holds the entry of that key, gets that response back
and changes nothing; a call whose response is not 2xx leaves the store as it
was. -/
theorem recorded_response_replayed (s : Server) (method : String)
    (header bodyField : Option String) (next : Db → Db × Response)
    (hmethod : isMutating method = true)
    (hkey : truthy (idempotencyKey header bodyField) = true) :
    ((200 ≤ (serve s method header bodyField next).2.status
        ∧ (serve s method header bodyField next).2.status < 300) →
      ∀ (s2 : Server) (method2 : String) (header2 bodyField2 : Option String)
        (next2 : Db → Db × Response),
        isMutating method2 = true →
        idempotencyKey header2 bodyField2 = idempotencyKey header bodyField →
        cacheGet s2.idempotencyStore (keyOf (idempotencyKey header bodyField))
          = cacheGet (serve s method header bodyField next).1.idempotencyStore
              (keyOf (idempotencyKey header bodyField)) →
        serve s2 method2 header2 bodyField2 next2
          = (s2, (serve s method header bodyField next).2))
    ∧ (¬ (200 ≤ (serve s method header bodyField next).2.status
          ∧ (serve s method header bodyField next).2.status < 300) →
        (serve s method header bodyField next).1.idempotencyStore = s.idempotencyStore) := by
  have hcached : (200 ≤ (serve s method header bodyField next).2.status
        ∧ (serve s method header bodyField next).2.status < 300) →
      cacheGet (serve s method header bodyField next).1.idempotencyStore
          (keyOf (idempotencyKey header bodyField))
        = some { status := (serve s method header bodyField next).2.status
                 data := (serve s method header bodyField next).2.body } := by
    intro h2xx
    unfold serve at h2xx ⊢
    simp only [hmethod, hkey, if_true] at h2xx ⊢
    cases hget : cacheGet s.idempotencyStore (keyOf (idempotencyKey header bodyField)) with
    | some cached => simp [hget]
    | none =>
      simp only [hget] at h2xx ⊢
      simp [record, h2xx, cacheGet_cacheSet]
  constructor
  · intro h2xx s2 method2 header2 bodyField2 next2 hm2 hk2 hret
    rw [hcached h2xx] at hret
    generalize (serve s method header bodyField next).2 = r at hret ⊢
    unfold serve
    simp only [hm2, hk2, hkey, if_true, hret]
  · intro hn
    unfold serve at hn ⊢
    simp only [hmethod, hkey, if_true] at hn ⊢
    cases hget : cacheGet s.idempotencyStore (keyOf (idempotencyKey header bodyField)) with
    | some cached => simp
    | none =>
      simp only [hget] at hn ⊢
      simp [record, hn]

/-- C20 amended, on `freshServer`: the create-request with key `key-1` is
answered 201; after the request has been deleted again, a DELETE carrying
`key-1` in the header gets the recorded 201 response and changes nothing. -/
theorem recorded_response_replayed_witness :
    keyedCreate.2.status = 201
    ∧ afterDelete.db.requests = []
    ∧ serve afterDelete "DELETE" (some "key-1") none (fun db => requestsDelete db "req_r1")
        = (afterDelete, keyedCreate.2) :=
  ⟨by decide, by decide,
    (recorded_response_replayed freshServer "POST" none (some "key-1")
      (fun db => requestsPost db "r1" sampleRequestBody) (by decide) (by decide)).1
      (by decide) afterDelete "DELETE" (some "key-1") none
      (fun db => requestsDelete db "req_r1") (by decide) (by decide) (by decide)⟩

/-! ## Lemmas on requests, amounts and the stages of the flow -/

theorem findRequest_map (db : Db) (f : Request → Request) (hf : ∀ r, (f r).id = r.id)
    (id : String) :
    findRequest { db with requests := db.requests.map f } id = (findRequest db id).map f := by
  simp only [findRequest]
  exact find?_map_key _ _ _ (fun a => by simp [hf])

theorem offersPost_requests (db : Db) (uuid : String) (body : OfferPostBody) :
    (offersPost db uuid body).1.requests = db.requests := by
  unfold offersPost
  repeat' split
  all_goals rfl

theorem offersDelete_requests (db : Db) (id : String) :
    (offersDelete db id).1.requests = db.requests := by
  unfold offersDelete
  repeat' split
  all_goals rfl

/-- How one call can change the status of the request found under an id. -/
theorem findRequest_step (db : Db) (c : Call) (id : String) (q q' : Request)
    (h : findRequest db id = some q) (h' : findRequest (step db c) id = some q') :
    q'.status = q.status
    ∨ (q'.status = RequestStatus.closed
        ∧ ∃ oid body, c = Call.offersPut oid body ∧ body.status = some "accepted")
    ∨ (∃ body st, c = Call.requestsPut id body
        ∧ (orNull body.status).bind parseRequestStatus = some st ∧ q'.status = st) := by
  have hqid : q.id = id := (mem_of_findRequest h).2
  have same : ∀ db1 : Db, db1.requests = db.requests → findRequest db1 id = some q' →
      q'.status = q.status := by
    intro db1 hd h1
    simp only [findRequest, hd] at h1
    simp only [findRequest] at h
    rw [h] at h1
    rw [← Option.some.inj h1]
  cases c with
  | setAgents agents => exact Or.inl (same _ rfl h')
  | offersPost uuid body => exact Or.inl (same _ (offersPost_requests db uuid body) h')
  | offersDelete id0 => exact Or.inl (same _ (offersDelete_requests db id0) h')
  | dealsPost uuid body => exact Or.inl (same _ (dealsPost_tables db uuid body).2 h')
  | dealsApprove id0 now => exact Or.inl (same _ (dealsApprove_tables db id0 now).2 h')
  | dealsExecute id0 adapter now =>
    exact Or.inl (same _ (dealsExecute_tables db id0 adapter now).2 h')
  | dealsPut id0 body => exact Or.inl (same _ (dealsPut_tables db id0 body).2 h')
  | dealsDelete id0 => exact Or.inl (same _ (dealsDelete_tables db id0).2 h')
  | requestsPost uuid body =>
    left
    simp only [step] at h'
    unfold requestsPost at h'
    repeat' split at h'
    all_goals try exact same _ rfl h'
    simp only [findRequest] at h h'
    rw [List.find?_append, h] at h'
    rw [← Option.some.inj h']
  | requestsDelete id0 =>
    left
    simp only [step] at h'
    unfold requestsDelete at h'
    repeat' split at h'
    all_goals try exact same _ rfl h'
    simp only [findRequest] at h h'
    have hmem := List.mem_of_find?_eq_some h'
    have hd := List.find?_some h'
    simp only [List.mem_filter, ne_eq, decide_not, Bool.not_eq_true', decide_eq_false_iff_not,
      decide_eq_true_eq] at hmem hd
    rw [find?_filter_of_imp] at h'
    · rw [h] at h'
      rw [← Option.some.inj h']
    · intro a ha
      simp only [decide_eq_true_eq] at ha
      simp only [ne_eq, decide_not, Bool.not_eq_true', decide_eq_false_iff_not]
      rw [ha, ← hd]
      exact hmem.2
  | requestsPut id0 body =>
    cases hfind : findRequest db id0 with
    | none => exact Or.inl (same _ (by simp [step, requestsPut, hfind]) h')
    | some q0 =>
      by_cases hbad : (truthy body.status && (parseRequestStatus (keyOf body.status)).isNone)
          = true
      · exact Or.inl (same _ (by simp [step, requestsPut, hfind, hbad]) h')
      · have hstep : step db (Call.requestsPut id0 body)
            = { db with
                requests := db.requests.map
                  (updateRequestRow id0 (orNull body.service_query) body.max_price_nano
                    ((orNull body.status).bind parseRequestStatus)) } := by
          simp only [step, requestsPut, hfind, hbad]
          rfl
        rw [hstep, findRequest_map db _ (by intro r; unfold updateRequestRow; split <;> rfl) id,
          h] at h'
        simp only [Option.map_some', Option.some.injEq] at h'
        by_cases hid : q.id = id0
        · cases hst : (orNull body.status).bind parseRequestStatus with
          | none =>
            left
            rw [← h']
            simp [updateRequestRow, hid, hst]
          | some st =>
            right; right
            refine ⟨body, st, ?_, hst, ?_⟩
            · rw [← hid, hqid]
            · rw [← h']
              simp [updateRequestRow, hid, hst]
        · left
          rw [← h']
          simp [updateRequestRow, hid]
  | offersPut id0 body =>
    cases hfind : findOffer db id0 with
    | none => exact Or.inl (same _ (by simp [step, offersPut, hfind]) h')
    | some offer =>
      by_cases hacc : body.status = some "accepted"
      · by_cases hpend : offer.status = OfferStatus.pending
        · have hstep : step db (Call.offersPut id0 body) = acceptTxn db offer := by
            simp [step, offersPut, hfind, hacc, hpend]
          rw [hstep] at h'
          have h2 : findRequest { db with
                requests := db.requests.map
                  (fun r => if r.id = offer.request_id
                    then { r with status := RequestStatus.closed } else r) } id = some q' := h'
          rw [findRequest_map db _ (by intro r; split <;> rfl) id, h] at h2
          simp only [Option.map_some', Option.some.injEq] at h2
          by_cases hq : q.id = offer.request_id
          · right; left
            refine ⟨?_, id0, body, rfl, hacc⟩
            rw [← h2]
            simp [hq]
          · left
            rw [← h2]
            simp [hq]
        · exact Or.inl (same _ (by simp [step, offersPut, hfind, hacc, hpend]) h')
      · left
        simp only [step] at h'
        unfold offersPut at h'
        simp only [hfind, hacc, if_false] at h'
        repeat' split at h'
        all_goals exact same _ rfl h'

theorem acceptRow_price (offer o : Offer) : (acceptRow offer o).price_nano = o.price_nano := by
  unfold acceptRow
  by_cases h : o.id = offer.id
  · simp [h]
  · simp only [h, if_false]
    split <;> rfl

/-- A row-wise UPDATE of offers that keeps prices positive keeps `AmountsPositive`. -/
theorem amounts_map_offers (db : Db) (f : Offer → Offer)
    (hf : ∀ o, 0 < o.price_nano → 0 < (f o).price_nano) (h : AmountsPositive db) :
    AmountsPositive { db with offers := db.offers.map f } := by
  refine ⟨?_, h.2⟩
  intro o' ho'
  obtain ⟨o, ho, rfl⟩ := List.mem_map.mp ho'
  exact hf o (h.1 o ho)

/-- A row-wise UPDATE of deals that keeps `amount_nano` keeps `AmountsPositive`. -/
theorem amounts_map_deals (db : Db) (f : Deal → Deal)
    (hf : ∀ d, (f d).amount_nano = d.amount_nano) (h : AmountsPositive db) :
    AmountsPositive { db with deals := db.deals.map f } := by
  refine ⟨h.1, ?_⟩
  intro d' hd'
  obtain ⟨d, hd, rfl⟩ := List.mem_map.mp hd'
  rw [hf]
  exact h.2 d hd

theorem amounts_step (db : Db) (c : Call) (h : AmountsPositive db) :
    AmountsPositive (step db c) := by
  cases c with
  | setAgents agents => exact h
  | requestsPost uuid body =>
    simp only [step]
    unfold requestsPost
    repeat' split
    all_goals exact h
  | requestsPut id0 body =>
    simp only [step]
    unfold requestsPut
    repeat' split
    all_goals exact h
  | requestsDelete id0 =>
    simp only [step]
    unfold requestsDelete
    repeat' split
    all_goals exact h
  | offersPost uuid body =>
    simp only [step]
    unfold offersPost
    repeat' split
    all_goals try exact h
    rename_i n hposi _ _ _ _ _ _ _ _
    refine ⟨?_, h.2⟩
    intro o ho
    rcases List.mem_append.mp ho with ho | ho
    · exact h.1 o ho
    · rw [List.mem_singleton] at ho
      rw [ho]
      simp_all [isPositiveInteger]
  | offersPut id0 body =>
    cases hfind : findOffer db id0 with
    | none =>
      have : step db (Call.offersPut id0 body) = db := by simp [step, offersPut, hfind]
      rw [this]; exact h
    | some offer =>
      by_cases hacc : body.status = some "accepted"
      · by_cases hpend : offer.status = OfferStatus.pending
        · have hstep : step db (Call.offersPut id0 body) = acceptTxn db offer := by
            simp [step, offersPut, hfind, hacc, hpend]
          rw [hstep]
          refine ⟨?_, h.2⟩
          intro o' ho'
          rw [acceptTxn_offers] at ho'
          obtain ⟨o, ho, rfl⟩ := List.mem_map.mp ho'
          rw [acceptRow_price]
          exact h.1 o ho
        · have : step db (Call.offersPut id0 body) = db := by
            simp [step, offersPut, hfind, hacc, hpend]
          rw [this]; exact h
      · by_cases hrej : body.status = some "rejected"
        · have hstep : step db (Call.offersPut id0 body)
              = { db with
                  offers := db.offers.map (fun o => if o.id = offer.id
                    then { o with status := OfferStatus.rejected } else o) } := by
            simp [step, offersPut, hfind, hacc, hrej]
          rw [hstep]
          exact amounts_map_offers db _ (by intro o ho; split <;> exact ho) h
        · by_cases hpend : offer.status = OfferStatus.pending
          · by_cases hbad : (decide (body.price_nano ≠ JsAmount.undefined)
                && !isPositiveInteger body.price_nano) = true
            · have : step db (Call.offersPut id0 body) = db := by
                simp only [step, offersPut, hfind, hacc, hrej, hpend, hbad]
                simp
              rw [this]; exact h
            · have hstep : step db (Call.offersPut id0 body)
                  = { db with
                      offers := db.offers.map
                        (updateOfferRow id0 (orNull body.terms)
                          (amountOrNull body.price_nano)) } := by
                simp only [step, offersPut, hfind, hacc, hrej, hpend, hbad]
                simp
              rw [hstep]
              apply amounts_map_offers db _ _ h
              intro o ho
              unfold updateOfferRow
              split
              · cases hp : body.price_nano with
                | undefined => simpa [amountOrNull] using ho
                | nonInteger => simpa [amountOrNull] using ho
                | int n =>
                  simp only [amountOrNull, Option.getD_some]
                  simpa [hp, isPositiveInteger] using hbad
              · exact ho
          · have : step db (Call.offersPut id0 body) = db := by
              simp [step, offersPut, hfind, hacc, hrej, hpend]
            rw [this]; exact h
  | offersDelete id0 =>
    simp only [step]
    unfold offersDelete
    repeat' split
    all_goals try exact h
    exact ⟨fun o ho => h.1 o (List.mem_filter.mp ho).1, h.2⟩
  | dealsPost uuid body =>
    cases hfind : findOffer db (keyOf body.offer_id) with
    | none =>
      have : step db (Call.dealsPost uuid body) = db := by
        simp only [step, dealsPost, hfind]
        split <;> rfl
      rw [this]; exact h
    | some offer =>
      have hpos := h.1 offer (mem_of_findOffer hfind).1
      simp only [step]
      unfold dealsPost
      simp only [hfind]
      repeat' split
      all_goals try exact h
      refine ⟨h.1, ?_⟩
      intro d hd
      rcases List.mem_append.mp hd with hd | hd
      · exact h.2 d hd
      · rw [List.mem_singleton] at hd
        rw [hd]
        exact hpos
  | dealsApprove id0 now =>
    simp only [step]
    unfold dealsApprove
    repeat' split
    all_goals try exact h
    exact amounts_map_deals db _ (by intro d; split <;> rfl) h
  | dealsExecute id0 adapter now =>
    simp only [step]
    unfold dealsExecute
    repeat' split
    all_goals try exact h
    all_goals exact amounts_map_deals db _ (by intro d; split <;> rfl) h
  | dealsPut id0 body =>
    simp only [step]
    unfold dealsPut
    repeat' split
    all_goals try exact h
    exact amounts_map_deals db _ (by intro d; split <;> rfl) h
  | dealsDelete id0 =>
    simp only [step]
    unfold dealsDelete
    repeat' split
    all_goals try exact h
    exact ⟨h.1, fun d hd => h.2 d (List.mem_filter.mp hd).1⟩

theorem amounts_run (cs : List Call) (db : Db) (h : AmountsPositive db) :
    AmountsPositive (run db cs) := by
  induction cs generalizing db with
  | nil => exact h
  | cons c cs ih => exact ih (step db c) (amounts_step db c h)


theorem req_id_ne_empty (u : String) : "req_" ++ u ≠ "" := by
  intro h
  have := congrArg String.length h
  simp at this
  exact absurd this.1 (by decide)

theorem off_id_ne_empty (u : String) : "off_" ++ u ≠ "" := by
  intro h
  have := congrArg String.length h
  simp at this
  exact absurd this.1 (by decide)

theorem createRequest_ok (db : Db) (uuid requester query : String) (M : Int)
    (hr : requester ≠ "") (hq : query ≠ "") (hM : 0 < M) (hag : requester ∈ db.agents)
    (hfresh : findRequest db ("req_" ++ uuid) = none) :
    (createRequest db uuid requester query (JsAmount.int M)).1
      = { db with requests := db.requests ++
            [{ id := "req_" ++ uuid, requester_agent_id := requester
               service_query := query, max_price_nano := M
               status := RequestStatus.open_ }] }
    ∧ (createRequest db uuid requester query (JsAmount.int M)).2.status = 201 := by
  unfold createRequest requestsPost
  simp [truthy, keyOf, hr, hq, isPositiveInteger, hM, agentExists, hag, hfresh]

theorem submitOffer_ok (db : Db) (uuid rid provider : String) (p : Int) (terms : Option String)
    (R : Request) (hrid : rid ≠ "") (hprov : provider ≠ "") (hp : 0 < p)
    (hR : findRequest db rid = some R) (hopen : R.status = RequestStatus.open_)
    (hle : p ≤ R.max_price_nano) (hag : provider ∈ db.agents)
    (hfresh : findOffer db ("off_" ++ uuid) = none) :
    (submitOffer db uuid rid provider (JsAmount.int p) terms).1
      = { db with offers := db.offers ++
            [{ id := "off_" ++ uuid, request_id := rid, provider_agent_id := provider
               price_nano := p, terms := orNull terms, status := OfferStatus.pending }] }
    ∧ (submitOffer db uuid rid provider (JsAmount.int p) terms).2.status = 201 := by
  unfold submitOffer offersPost
  simp [truthy, keyOf, hrid, hprov, isPositiveInteger, hp, hR, hopen, not_lt.mpr hle,
    agentExists, hag, hfresh]

theorem acceptOffer_ok (db : Db) (id : String) (o : Offer)
    (hfind : findOffer db id = some o) (hpending : o.status = OfferStatus.pending) :
    (acceptOffer db id).1 = acceptTxn db o ∧ (acceptOffer db id).2.status = 200 := by
  simp [acceptOffer, offersPut, hfind, hpending]

theorem acceptTxn_findOffer (db : Db) (id : String) (o : Offer)
    (hfind : findOffer db id = some o) :
    findOffer (acceptTxn db o) id = some { o with status := OfferStatus.accepted } := by
  have hid : o.id = id := (mem_of_findOffer hfind).2
  simp only [findOffer, acceptTxn]
  rw [find?_map_key _ _ _ (by intro a; split <;> rfl),
    find?_map_key _ _ _ (by intro a; split <;> rfl)]
  have : db.offers.find? (fun o => decide (o.id = id)) = some o := hfind
  simp [this, hid]

theorem acceptTxn_findRequest (db : Db) (o : Offer) (q : Request)
    (hq : findRequest db o.request_id = some q) :
    findRequest (acceptTxn db o) o.request_id
      = some { q with status := RequestStatus.closed } := by
  have hqid : q.id = o.request_id := (mem_of_findRequest hq).2
  simp only [findRequest, acceptTxn]
  rw [find?_map_key _ _ _ (by intro a; split <;> rfl)]
  have : db.requests.find? (fun r => decide (r.id = o.request_id)) = some q := hq
  simp [this, hqid]

theorem createDeal_ok (db : Db) (uuid rid oid : String) (o : Offer) (R : Request)
    (ho : findOffer db oid = some o) (hacc : o.status = OfferStatus.accepted)
    (hR : findRequest db rid = some R) (hbelongs : o.request_id = rid)
    (hnone : findDealByOffer db oid = none)
    (hrid : rid ≠ "") (hoid : oid ≠ "")
    (hfresh : findDeal db ("deal_" ++ uuid) = none)
    (hpayer : R.requester_agent_id ∈ db.agents) (hpayee : o.provider_agent_id ∈ db.agents) :
    (createDeal db uuid rid oid).1
      = { db with deals := db.deals ++
            [{ id := "deal_" ++ uuid, request_id := rid, offer_id := oid
               payer_agent_id := R.requester_agent_id
               payee_agent_id := o.provider_agent_id
               amount_nano := o.price_nano
               status := DealStatus.awaiting_approval
               execution_receipt := none, executed_at := none, approved_at := none }] }
    ∧ (createDeal db uuid rid oid).2.status = 201 := by
  unfold createDeal dealsPost
  simp [keyOf, truthy, hrid, hoid, ho, hacc, hbelongs, hR, hnone, hfresh, agentExists,
    hpayer, hpayee]

theorem findDeal_append_new (db : Db) (row : Deal)
    (hfresh : findDeal db row.id = none) :
    findDeal { db with deals := db.deals ++ [row] } row.id = some row := by
  simp only [findDeal] at hfresh ⊢
  rw [List.find?_append, hfresh]
  simp

theorem dealsApprove_ok (db : Db) (id now : String) (d : Deal)
    (h : findDeal db id = some d) (hs : d.status = DealStatus.awaiting_approval) :
    (dealsApprove db id now).2.status = 200
    ∧ findDeal (dealsApprove db id now).1 id
        = some { d with status := DealStatus.approved, approved_at := some now } := by
  have hres : (dealsApprove db id now).1
      = { db with
          deals := db.deals.map (fun x => if x.id = d.id
            then { x with status := DealStatus.approved, approved_at := some now } else x) }
      ∧ (dealsApprove db id now).2.status = 200 := by
    simp [dealsApprove, h, hs]
  refine ⟨hres.2, ?_⟩
  rw [hres.1, findDeal_map db _ (by intro a; split <;> rfl) id, h]
  simp [(mem_of_findDeal h).2]

theorem dealsExecute_ok (db : Db) (id : String) (adapter : Adapter) (now : String) (d : Deal)
    (receipt : String)
    (h : findDeal db id = some d) (hs : d.status = DealStatus.approved)
    (hr : adapter d = Except.ok receipt) :
    (dealsExecute db id adapter now).2.status = 200
    ∧ findDeal (dealsExecute db id adapter now).1 id
        = some { d with status := DealStatus.executed, execution_receipt := some receipt
                        executed_at := some now } := by
  have hres : (dealsExecute db id adapter now).1
      = { db with
          deals := db.deals.map (fun x => if x.id = d.id
            then { x with status := DealStatus.executed, execution_receipt := some receipt
                          executed_at := some now } else x) }
      ∧ (dealsExecute db id adapter now).2.status = 200 := by
    unfold dealsExecute
    simp [h, hs, hr]
  refine ⟨hres.2, ?_⟩
  rw [hres.1, findDeal_map db _ (by intro a; split <;> rfl) id, h]
  simp [(mem_of_findDeal h).2]


/-- The atomic Execute of `dealsExecute` is the first half followed at once by
the second half on the same ledger. -/
theorem dealsExecute_eq_begin_finish (db : Db) (id : String) (adapter : Adapter)
    (now : String) :
    dealsExecute db id adapter now
      = match executeBegin db id with
        | Except.error res => (db, res)
        | Except.ok deal => executeFinish db deal (adapter deal) now := by
  unfold dealsExecute executeBegin executeFinish
  repeat' split
  all_goals first | rfl | simp_all

/-! ## Rejecting an offer and the rejected count -/

/-- C21, the code at the failing input: in `ledgerNegotiated` the offer `off_o1`
is accepted; `PUT /api/offers/off_o1 { status: "rejected" }` answers 200 and
the offer is stored as rejected. -/
theorem reject_accepted_succeeds :
    findOffer ledgerNegotiated "off_o1"
        = some { pendingOffer with status := OfferStatus.accepted }
    ∧ (rejectOffer ledgerNegotiated "off_o1").2.status = 200
    ∧ findOffer (rejectOffer ledgerNegotiated "off_o1").1 "off_o1"
        = some { pendingOffer with status := OfferStatus.rejected } := by
  decide

/-- C22, the code at the failing input: after `manualRejectCalls` the request
has the pending `off_o1` and the already rejected `off_o2`, so no competitor is
pending; accepting `off_o1` still reports `other_offers_auto_rejected = 1`. -/
theorem accept_counts_earlier_rejections :
    findOffer (run (emptyLedger sampleAgents) manualRejectCalls) "off_o1" = some pendingOffer
    ∧ pendingCompetitors (run (emptyLedger sampleAgents) manualRejectCalls) pendingOffer = 0
    ∧ (acceptOffer (run (emptyLedger sampleAgents) manualRejectCalls) "off_o1").2
        = { status := 200
            body := Body.offerAccepted
              (some { pendingOffer with status := OfferStatus.accepted }) 1 } := by
  decide

/-! ## Creating and updating a request -/

/-- C23, refuted as stated: with a positive integer ceiling and a requester id
that names no agent, create-request answers 404 (requester agent not found),
not 400. -/
theorem unknown_requester_not_found :
    agentExists (emptyLedger sampleAgents) "ag_unknown" = false
    ∧ (createRequest (emptyLedger sampleAgents) "r1" "ag_unknown" "market_data"
        (JsAmount.int 2000000000)).2 = fail 404 ErrorMsg.requesterAgentNotFound
    ∧ (createRequest (emptyLedger sampleAgents) "r1" "ag_unknown" "market_data"
        (JsAmount.int 2000000000)).2.status ≠ 400 := by
  decide

/-- C23, amended: with requester and query given, create-request stores one
open request with the given requester, query and ceiling and answers 201 with
it when the ceiling is a positive integer, the requester is a registered agent
and the generated id is free; it answers 400 and stores nothing when the
ceiling is not a positive integer; it answers 404 and stores nothing when the
ceiling is a positive integer and the requester is not a registered agent. -/
theorem createRequest_outcomes (db : Db) (uuid requester_agent_id service_query : String)
    (max_price_nano : JsAmount)
    (hrequester : requester_agent_id ≠ "") (hquery : service_query ≠ "") :
    (∀ p, max_price_nano = JsAmount.int p → 0 < p → requester_agent_id ∈ db.agents →
        findRequest db ("req_" ++ uuid) = none →
        (createRequest db uuid requester_agent_id service_query max_price_nano).1
          = { db with requests := db.requests ++
                [{ id := "req_" ++ uuid, requester_agent_id := requester_agent_id
                   service_query := service_query, max_price_nano := p
                   status := RequestStatus.open_ }] }
        ∧ (createRequest db uuid requester_agent_id service_query max_price_nano).2
          = { status := 201
              body := Body.request
                (some { id := "req_" ++ uuid, requester_agent_id := requester_agent_id
                        service_query := service_query, max_price_nano := p
                        status := RequestStatus.open_ }) })
    ∧ (isPositiveInteger max_price_nano = false →
        (createRequest db uuid requester_agent_id service_query max_price_nano).2.status = 400
        ∧ (createRequest db uuid requester_agent_id service_query max_price_nano).1 = db)
    ∧ (isPositiveInteger max_price_nano = true → requester_agent_id ∉ db.agents →
        (createRequest db uuid requester_agent_id service_query max_price_nano).2
          = fail 404 ErrorMsg.requesterAgentNotFound
        ∧ (createRequest db uuid requester_agent_id service_query max_price_nano).1 = db) := by
  refine ⟨?_, ?_, ?_⟩
  · intro p hp hpos hag hfresh
    subst hp
    have hfind : requestJoined { db with requests := db.requests ++
          [{ id := "req_" ++ uuid, requester_agent_id := requester_agent_id
             service_query := service_query, max_price_nano := p
             status := RequestStatus.open_ }] } ("req_" ++ uuid)
        = some { id := "req_" ++ uuid, requester_agent_id := requester_agent_id
                 service_query := service_query, max_price_nano := p
                 status := RequestStatus.open_ } := by
      simp only [requestJoined, findRequest] at hfresh ⊢
      rw [List.find?_append, hfresh]
      simp [agentExists, hag]
    unfold createRequest requestsPost
    simp [truthy, keyOf, hrequester, hquery, isPositiveInteger, hpos, agentExists, hag, hfresh,
      hfind]
  · intro hnp
    unfold createRequest requestsPost
    simp only [truthy, keyOf, hnp]
    repeat' split
    all_goals simp_all [fail]
  · intro hp hag
    cases max_price_nano with
    | int p =>
      unfold createRequest requestsPost
      simp [truthy, keyOf, hrequester, hquery, hp, agentExists, hag, fail]
    | undefined => simp [isPositiveInteger] at hp
    | nonInteger => simp [isPositiveInteger] at hp

/-- C23 amended, on the empty ledger with the seeded agents: the buyer's
request is stored with status open; a ceiling of 0 is refused with 400; an
unknown requester is refused with 404. -/
theorem createRequest_outcomes_witness :
    (createRequest (emptyLedger sampleAgents) "r1" "ag_buyer_seed_001" "market_data"
        (JsAmount.int 2000000000)).1.requests
      = [{ closedRequest with status := RequestStatus.open_ }]
    ∧ (createRequest (emptyLedger sampleAgents) "r1" "ag_buyer_seed_001" "market_data"
        (JsAmount.int 0)).2.status = 400
    ∧ (createRequest (emptyLedger sampleAgents) "r1" "ag_unknown" "market_data"
        (JsAmount.int 2000000000)).2 = fail 404 ErrorMsg.requesterAgentNotFound :=
  ⟨by
      rw [((createRequest_outcomes (emptyLedger sampleAgents) "r1" "ag_buyer_seed_001"
        "market_data" (JsAmount.int 2000000000) (by decide) (by decide)).1 2000000000 rfl
        (by decide) (by decide) (by decide)).1]
      decide,
    ((createRequest_outcomes (emptyLedger sampleAgents) "r1" "ag_buyer_seed_001"
      "market_data" (JsAmount.int 0) (by decide) (by decide)).2.1 (by decide)).1,
    ((createRequest_outcomes (emptyLedger sampleAgents) "r1" "ag_unknown"
      "market_data" (JsAmount.int 2000000000) (by decide) (by decide)).2.2 (by decide)
      (by decide)).1⟩

/-- C24, refuted as stated: in `ledgerNegotiated` the request `req_r1` is
closed; `PUT /api/requests/req_r1 { status: "open" }` makes it open again, and
`{ status: "cancelled" }` makes the closed request cancelled. -/
theorem closed_request_reopened :
    (findRequest ledgerNegotiated "req_r1").map (fun r => r.status)
        = some RequestStatus.closed
    ∧ (findRequest (step ledgerNegotiated (Call.requestsPut "req_r1"
          { service_query := none, max_price_nano := none, status := some "open" }))
        "req_r1").map (fun r => r.status) = some RequestStatus.open_
    ∧ (findRequest (step ledgerNegotiated (Call.requestsPut "req_r1"
          { service_query := none, max_price_nano := none, status := some "cancelled" }))
        "req_r1").map (fun r => r.status) = some RequestStatus.cancelled := by
  decide

/-- C24, amended: whatever call is served, the status of a request found under
the same id before and after it is unchanged, or the call is an offer
acceptance and the new status is closed, or the call is
`PUT /api/requests/:id` on that request and the new status is the valid status
named in its body. -/
theorem request_status_changes (db : Db) (c : Call) (id : String) (q q' : Request)
    (h : findRequest db id = some q) (h' : findRequest (step db c) id = some q') :
    q'.status = q.status
    ∨ (q'.status = RequestStatus.closed
        ∧ ∃ oid body, c = Call.offersPut oid body ∧ body.status = some "accepted")
    ∨ (∃ body st, c = Call.requestsPut id body
        ∧ (orNull body.status).bind parseRequestStatus = some st ∧ q'.status = st) :=
  findRequest_step db c id q q' h h'

/-- C24 amended, on `ledgerNegotiated`: the closed `req_r1` becomes open
through `reopenRequest`, the third case of the theorem. -/
theorem request_status_changes_witness :
    findRequest ledgerNegotiated "req_r1" = some closedRequest
    ∧ findRequest (step ledgerNegotiated reopenRequest) "req_r1"
        = some { closedRequest with status := RequestStatus.open_ }
    ∧ (RequestStatus.open_ = RequestStatus.closed
        ∨ (RequestStatus.open_ = RequestStatus.closed
            ∧ ∃ oid body, reopenRequest = Call.offersPut oid body
                ∧ body.status = some "accepted")
        ∨ (∃ body st, reopenRequest = Call.requestsPut "req_r1" body
            ∧ (orNull body.status).bind parseRequestStatus = some st
            ∧ RequestStatus.open_ = st)) :=
  ⟨by decide, by decide,
    request_status_changes ledgerNegotiated reopenRequest "req_r1" closedRequest
      { closedRequest with status := RequestStatus.open_ } (by decide) (by decide)⟩

/-! ## Stored amounts -/

/-- C25, the code at the failing input, with the part of the claim that holds:
after `PUT /api/requests/req_r1 { max_price_nano: -5 }` the stored ceiling is
-5; in every ledger reached from the empty one every offer price and every
deal amount is positive. -/
theorem ceiling_update_unvalidated :
    ((findRequest (run (emptyLedger sampleAgents) negativeCeilingCalls) "req_r1").map
        (fun r => r.max_price_nano) = some (-5))
    ∧ (∀ (agents : List String) (cs : List Call),
        (∀ o ∈ (run (emptyLedger agents) cs).offers, 0 < o.price_nano)
        ∧ (∀ d ∈ (run (emptyLedger agents) cs).deals, 0 < d.amount_nano)) :=
  ⟨by decide, fun agents cs =>
    amounts_run cs (emptyLedger agents) ⟨by simp [emptyLedger], by simp [emptyLedger]⟩⟩

/-! ## The full flow -/

/-- C26: from any ledger in which requester and provider are registered and
the three generated ids are free, for a price `0 < p ≤ M` and an adapter that
returns a non-empty receipt, the six calls of the flow each succeed (201, 201,
200, 201, 200, 200); the deal is created with amount `p` at
`awaiting_approval`, is `approved` with `approved_at` set after Approve, and
`executed` with a non-empty receipt and `executed_at` set after Execute. -/
theorem full_flow_succeeds (db : Db) (x : FlowInput)
    (hp : 0 < x.p) (hle : x.p ≤ x.M)
    (hrequester : x.requester ∈ db.agents) (hprovider : x.provider ∈ db.agents)
    (hrne : x.requester ≠ "") (hpne : x.provider ≠ "") (hquery : x.query ≠ "")
    (hfreshR : findRequest db ("req_" ++ x.requestUuid) = none)
    (hfreshO : findOffer db ("off_" ++ x.offerUuid) = none)
    (hfreshD : findDeal db ("deal_" ++ x.dealUuid) = none)
    (hnoDeal : findDealByOffer db ("off_" ++ x.offerUuid) = none)
    (hadapter : ∀ d, ∃ r, x.adapter d = Except.ok r ∧ r ≠ "") :
    (flowRequest db x).2.status = 201
    ∧ (flowOffer db x).2.status = 201
    ∧ (flowAccept db x).2.status = 200
    ∧ (flowDeal db x).2.status = 201
    ∧ findDeal (flowDeal db x).1 ("deal_" ++ x.dealUuid) = some (flowDealRow x)
    ∧ (flowApprove db x).2.status = 200
    ∧ findDeal (flowApprove db x).1 ("deal_" ++ x.dealUuid)
        = some { flowDealRow x with status := DealStatus.approved
                                    approved_at := some x.approvedAt }
    ∧ (flowExecute db x).2.status = 200
    ∧ ∃ r, r ≠ ""
        ∧ findDeal (flowExecute db x).1 ("deal_" ++ x.dealUuid)
          = some { flowDealRow x with status := DealStatus.executed
                                      execution_receipt := some r
                                      executed_at := some x.executedAt
                                      approved_at := some x.approvedAt } := by
  have hM : 0 < x.M := lt_of_lt_of_le hp hle
  -- stage 1
  have h1 := createRequest_ok db x.requestUuid x.requester x.query x.M hrne hquery hM
    hrequester hfreshR
  have hdb1 : (flowRequest db x).1
      = { db with requests := db.requests ++ [flowRequestRow x] } := h1.1
  have hR1 : findRequest (flowRequest db x).1 ("req_" ++ x.requestUuid)
      = some (flowRequestRow x) := by
    rw [hdb1]
    simp only [findRequest] at hfreshR ⊢
    rw [List.find?_append, hfreshR]
    simp [flowRequestRow]
  -- stage 2
  have h2 := submitOffer_ok (flowRequest db x).1 x.offerUuid ("req_" ++ x.requestUuid)
    x.provider x.p none (flowRequestRow x) (req_id_ne_empty _) hpne hp hR1 rfl hle
    (by rw [hdb1]; exact hprovider) (by rw [hdb1]; exact hfreshO)
  have hdb2 : (flowOffer db x).1
      = { (flowRequest db x).1 with offers := (flowRequest db x).1.offers ++ [flowOfferRow x] } :=
    h2.1
  have hO2 : findOffer (flowOffer db x).1 ("off_" ++ x.offerUuid) = some (flowOfferRow x) := by
    rw [hdb2, hdb1]
    simp only [findOffer] at hfreshO ⊢
    rw [List.find?_append, hfreshO]
    simp [flowOfferRow]
  have hR2 : findRequest (flowOffer db x).1 ("req_" ++ x.requestUuid)
      = some (flowRequestRow x) := by
    rw [hdb2]; exact hR1
  -- stage 3
  have h3 := acceptOffer_ok (flowOffer db x).1 ("off_" ++ x.offerUuid) (flowOfferRow x) hO2 rfl
  have hdb3 : (flowAccept db x).1 = acceptTxn (flowOffer db x).1 (flowOfferRow x) := h3.1
  have hO3 : findOffer (flowAccept db x).1 ("off_" ++ x.offerUuid)
      = some { flowOfferRow x with status := OfferStatus.accepted } := by
    rw [hdb3]; exact acceptTxn_findOffer _ _ _ hO2
  have hR3 : findRequest (flowAccept db x).1 ("req_" ++ x.requestUuid)
      = some { flowRequestRow x with status := RequestStatus.closed } := by
    rw [hdb3]; exact acceptTxn_findRequest _ (flowOfferRow x) _ hR2
  have hdeals3 : (flowAccept db x).1.deals = db.deals := by
    rw [hdb3]
    show (flowOffer db x).1.deals = db.deals
    rw [hdb2, hdb1]
  have hagents3 : (flowAccept db x).1.agents = db.agents := by
    rw [hdb3]
    show (flowOffer db x).1.agents = db.agents
    rw [hdb2, hdb1]
  -- stage 4
  have h4 := createDeal_ok (flowAccept db x).1 x.dealUuid ("req_" ++ x.requestUuid)
    ("off_" ++ x.offerUuid) _ _ hO3 rfl hR3 rfl
    (by simp only [findDealByOffer, hdeals3]; exact hnoDeal)
    (req_id_ne_empty _) (off_id_ne_empty _)
    (by simp only [findDeal, hdeals3]; exact hfreshD)
    (by rw [hagents3]; exact hrequester) (by rw [hagents3]; exact hprovider)
  have hdb4 : (flowDeal db x).1
      = { (flowAccept db x).1 with deals := (flowAccept db x).1.deals ++ [flowDealRow x] } :=
    h4.1
  have hD4 : findDeal (flowDeal db x).1 ("deal_" ++ x.dealUuid) = some (flowDealRow x) := by
    rw [hdb4]
    exact findDeal_append_new (flowAccept db x).1 (flowDealRow x)
      (by simp only [findDeal, hdeals3]; exact hfreshD)
  -- stage 5
  have h5 := dealsApprove_ok (flowDeal db x).1 ("deal_" ++ x.dealUuid) x.approvedAt
    (flowDealRow x) hD4 rfl
  -- stage 6
  obtain ⟨r, hr, hrne2⟩ := hadapter
    { flowDealRow x with status := DealStatus.approved, approved_at := some x.approvedAt }
  have h6 := dealsExecute_ok (flowApprove db x).1 ("deal_" ++ x.dealUuid) x.adapter
    x.executedAt _ r h5.2 rfl hr
  exact ⟨h1.2, h2.2, h3.2, h4.2, hD4, h5.1, h5.2, h6.1, r, hrne2, h6.2⟩

/-- C26, on the empty ledger with the run of examples/demo_flow_runner.js
(ceiling 2,000,000,000, price 1,500,000,000): the deal ends executed with the
adapter's receipt, and its amount is 1,500,000,000. -/
theorem full_flow_succeeds_witness :
    (flowDeal (emptyLedger sampleAgents) demoFlow).2.status = 201
    ∧ findDeal (flowDeal (emptyLedger sampleAgents) demoFlow).1 "deal_d1"
        = some (flowDealRow demoFlow)
    ∧ (flowDealRow demoFlow).amount_nano = 1500000000
    ∧ (flowApprove (emptyLedger sampleAgents) demoFlow).2.status = 200
    ∧ (flowExecute (emptyLedger sampleAgents) demoFlow).2.status = 200
    ∧ findDeal (flowExecute (emptyLedger sampleAgents) demoFlow).1 "deal_d1"
        = some executedDeal :=
  have h := full_flow_succeeds (emptyLedger sampleAgents) demoFlow (by decide) (by decide)
    (by decide) (by decide) (by decide) (by decide) (by decide) (by decide) (by decide)
    (by decide) (by decide) (fun _ => ⟨"mcp_receipt_0123456789abcdef", rfl, by decide⟩)
  ⟨h.2.2.2.1, h.2.2.2.2.1, by decide, h.2.2.2.2.2.1, h.2.2.2.2.2.2.2.1, by decide⟩

/-! ## Overlapping Execute calls -/

/-- C27, the code at the failing input: on `ledgerApproved` the first half of
Execute hands the approved deal to the adapter and writes nothing, so a second
Execute arriving before the first adapter call settles passes the same guard;
when the two adapter calls settle, both second halves answer 200 and the
second receipt overwrites the first.  Only an Execute that arrives after the
first has finished is answered 409. -/
theorem overlapping_executes_both_run :
    executeBegin ledgerApproved "deal_d1" = Except.ok approvedDeal
    ∧ (executeFinish ledgerApproved approvedDeal (Except.ok "receipt_1")
        "2026-01-01T00:00:01.000Z").2.status = 200
    ∧ (executeFinish
        (executeFinish ledgerApproved approvedDeal (Except.ok "receipt_1")
          "2026-01-01T00:00:01.000Z").1
        approvedDeal (Except.ok "receipt_2") "2026-01-01T00:00:02.000Z").2.status = 200
    ∧ (findDeal (executeFinish
        (executeFinish ledgerApproved approvedDeal (Except.ok "receipt_1")
          "2026-01-01T00:00:01.000Z").1
        approvedDeal (Except.ok "receipt_2") "2026-01-01T00:00:02.000Z").1 "deal_d1").map
          (fun d => (d.status, d.execution_receipt))
        = some (DealStatus.executed, some "receipt_2")
    ∧ executeBegin (executeFinish ledgerApproved approvedDeal (Except.ok "receipt_1")
        "2026-01-01T00:00:01.000Z").1 "deal_d1"
        = Except.error (fail 409 (ErrorMsg.cannotExecute DealStatus.executed)) :=
  ⟨rfl, by decide, by decide, by decide, rfl⟩

/-! ## Replay by key, acceptance on a closed request, deal re-creation -/

/-- C28: for a mutating request with a client key, the answer is decided by
the key alone.  If the store holds an entry for the key, the cached status and
data are sent and the server state is unchanged, whatever the method, the path
and the body (the route `next` is arbitrary and is not run); if it holds none,
a 2xx response of the route is recorded under the key, and a response that is
not 2xx leaves the store as it was. -/
theorem replay_depends_only_on_key (s : Server) (method : String)
    (header bodyField : Option String) (next : Db → Db × Response)
    (hmethod : isMutating method = true)
    (hkey : truthy (idempotencyKey header bodyField) = true) :
    (∀ cached, cacheGet s.idempotencyStore (keyOf (idempotencyKey header bodyField))
        = some cached →
      serve s method header bodyField next
        = (s, { status := cached.status, body := cached.data }))
    ∧ (cacheGet s.idempotencyStore (keyOf (idempotencyKey header bodyField)) = none →
        (200 ≤ (next s.db).2.status ∧ (next s.db).2.status < 300) →
        (serve s method header bodyField next).2 = (next s.db).2
        ∧ cacheGet (serve s method header bodyField next).1.idempotencyStore
            (keyOf (idempotencyKey header bodyField))
          = some { status := (next s.db).2.status, data := (next s.db).2.body })
    ∧ (cacheGet s.idempotencyStore (keyOf (idempotencyKey header bodyField)) = none →
        ¬ (200 ≤ (next s.db).2.status ∧ (next s.db).2.status < 300) →
        (serve s method header bodyField next).2 = (next s.db).2
        ∧ (serve s method header bodyField next).1.idempotencyStore = s.idempotencyStore) := by
  refine ⟨?_, ?_, ?_⟩
  · intro cached hget
    unfold serve
    simp only [hmethod, hkey, if_true, hget]
  · intro hget h2xx
    unfold serve
    simp only [hmethod, hkey, if_true, hget]
    simp [record, h2xx, cacheGet_cacheSet]
  · intro hget hn
    unfold serve
    simp only [hmethod, hkey, if_true, hget]
    simp [record, hn]

/-- C28, after `keyedCreate` has recorded `key-1` for a `POST /api/requests`:
a `PUT /api/offers/off_o1` accept carrying `key-1` gets the recorded 201 response
of the create-request and leaves the server unchanged. -/
theorem replay_depends_only_on_key_witness :
    cacheGet keyedCreate.1.idempotencyStore "key-1"
        = some { status := 201, data := keyedCreate.2.body }
    ∧ serve keyedCreate.1 "PUT" (some "key-1") none (fun db => acceptOffer db "off_o1")
        = (keyedCreate.1, { status := 201, body := keyedCreate.2.body }) :=
  ⟨by decide,
    (replay_depends_only_on_key keyedCreate.1 "PUT" (some "key-1") none
      (fun db => acceptOffer db "off_o1") (by decide) (by decide)).1
      { status := 201, data := keyedCreate.2.body } (by decide)⟩

/-- C29: accepting a pending offer whose request is cancelled or closed, hence
not open, answers 200, makes the offer accepted and leaves the request closed:
the accept branch never reads the request's status. -/
theorem acceptOffer_ignores_request_status (db : Db) (id : String) (o : Offer) (q : Request)
    (hfind : findOffer db id = some o) (hpending : o.status = OfferStatus.pending)
    (hq : findRequest db o.request_id = some q)
    (hstatus : q.status = RequestStatus.cancelled ∨ q.status = RequestStatus.closed) :
    q.status ≠ RequestStatus.open_
    ∧ (acceptOffer db id).2.status = 200
    ∧ findOffer (acceptOffer db id).1 id = some { o with status := OfferStatus.accepted }
    ∧ findRequest (acceptOffer db id).1 o.request_id
        = some { q with status := RequestStatus.closed } := by
  have h := acceptOffer_ok db id o hfind hpending
  refine ⟨by rcases hstatus with hs | hs <;> rw [hs] <;> decide, h.2, ?_, ?_⟩
  · rw [h.1]; exact acceptTxn_findOffer db id o hfind
  · rw [h.1]; exact acceptTxn_findRequest db o q hq

/-- C29, on `ledgerCancelled`: the request `req_r1` is cancelled, the pending
`off_o1` is accepted all the same and the request becomes closed. -/
theorem acceptOffer_ignores_request_status_witness :
    findOffer ledgerCancelled "off_o1" = some pendingOffer
    ∧ findRequest ledgerCancelled "req_r1"
        = some { closedRequest with status := RequestStatus.cancelled }
    ∧ (acceptOffer ledgerCancelled "off_o1").2.status = 200
    ∧ findOffer (acceptOffer ledgerCancelled "off_o1").1 "off_o1"
        = some { pendingOffer with status := OfferStatus.accepted }
    ∧ findRequest (acceptOffer ledgerCancelled "off_o1").1 "req_r1" = some closedRequest :=
  have h := acceptOffer_ignores_request_status ledgerCancelled "off_o1" pendingOffer
    { closedRequest with status := RequestStatus.cancelled } (by decide) (by decide)
    (by decide) (Or.inl rfl)
  ⟨by decide, by decide, h.2.1, h.2.2.1, h.2.2.2⟩

/-- C30: let `d` be a stored deal, in any status, that is the only deal of the
accepted offer `o` of request `R`.  After `DELETE /api/deals/:id` of `d` no deal
is left for the offer, and a new create-deal for `o` answers 201 and stores a
fresh deal at `awaiting_approval` whose amount is the offer's price; Approve and
then Execute of that deal answer 200 and leave it executed. -/
theorem deal_recreated_after_delete (db : Db) (did uuid : String) (d : Deal) (o : Offer)
    (R : Request) (adapter : Adapter) (approvedAt executedAt : String)
    (hd : findDeal db did = some d)
    (ho : findOffer db d.offer_id = some o) (hacc : o.status = OfferStatus.accepted)
    (hR : findRequest db o.request_id = some R)
    (honly : ∀ d' ∈ db.deals, d'.offer_id = d.offer_id → d'.id = did)
    (hoid : d.offer_id ≠ "") (hrid : o.request_id ≠ "")
    (hfresh : ∀ d' ∈ db.deals, d'.id ≠ did → d'.id ≠ "deal_" ++ uuid)
    (hpayer : R.requester_agent_id ∈ db.agents) (hpayee : o.provider_agent_id ∈ db.agents)
    (hadapter : ∀ x, ∃ r, adapter x = Except.ok r) :
    (dealsDelete db did).2.status = 200
    ∧ findDealByOffer (dealsDelete db did).1 d.offer_id = none
    ∧ (createDeal (dealsDelete db did).1 uuid o.request_id d.offer_id).2.status = 201
    ∧ findDeal (createDeal (dealsDelete db did).1 uuid o.request_id d.offer_id).1
        ("deal_" ++ uuid) = some (dealRowFor uuid R o)
    ∧ (dealsApprove (createDeal (dealsDelete db did).1 uuid o.request_id d.offer_id).1
        ("deal_" ++ uuid) approvedAt).2.status = 200
    ∧ (dealsExecute
        (dealsApprove (createDeal (dealsDelete db did).1 uuid o.request_id d.offer_id).1
          ("deal_" ++ uuid) approvedAt).1 ("deal_" ++ uuid) adapter executedAt).2.status = 200
    ∧ ∃ r, findDeal (dealsExecute
        (dealsApprove (createDeal (dealsDelete db did).1 uuid o.request_id d.offer_id).1
          ("deal_" ++ uuid) approvedAt).1 ("deal_" ++ uuid) adapter executedAt).1
        ("deal_" ++ uuid)
        = some { dealRowFor uuid R o with status := DealStatus.executed
                                          execution_receipt := some r
                                          executed_at := some executedAt
                                          approved_at := some approvedAt } := by
  have hoidd : o.id = d.offer_id := (mem_of_findOffer ho).2
  have hdel : dealsDelete db did
      = ({ db with deals := db.deals.filter (fun x => x.id ≠ did) },
         { status := 200, body := Body.deleted did }) := by
    simp [dealsDelete, hd]
  have hnone : findDealByOffer (dealsDelete db did).1 d.offer_id = none := by
    rw [hdel]
    simp only [findDealByOffer]
    rw [List.find?_eq_none]
    intro x hx
    have hx2 := List.mem_filter.mp hx
    simp only [ne_eq, decide_not, Bool.not_eq_true', decide_eq_false_iff_not] at hx2
    simp only [decide_eq_true_eq]
    intro hoff
    exact hx2.2 (honly x hx2.1 hoff)
  have hfreshD : findDeal (dealsDelete db did).1 ("deal_" ++ uuid) = none := by
    rw [hdel]
    simp only [findDeal]
    rw [List.find?_eq_none]
    intro x hx
    have hx2 := List.mem_filter.mp hx
    simp only [ne_eq, decide_not, Bool.not_eq_true', decide_eq_false_iff_not] at hx2
    simp only [decide_eq_true_eq]
    exact hfresh x hx2.1 hx2.2
  have h4 := createDeal_ok (dealsDelete db did).1 uuid o.request_id d.offer_id o R
    (by rw [hdel]; exact ho) hacc (by rw [hdel]; exact hR) rfl hnone hrid hoid hfreshD
    (by rw [hdel]; exact hpayer) (by rw [hdel]; exact hpayee)
  have hrow : ({ id := "deal_" ++ uuid, request_id := o.request_id, offer_id := d.offer_id
                 payer_agent_id := R.requester_agent_id
                 payee_agent_id := o.provider_agent_id
                 amount_nano := o.price_nano
                 status := DealStatus.awaiting_approval
                 execution_receipt := none, executed_at := none, approved_at := none } : Deal)
      = dealRowFor uuid R o := by
    simp [dealRowFor, hoidd]
  rw [hrow] at h4
  have hD : findDeal (createDeal (dealsDelete db did).1 uuid o.request_id d.offer_id).1
      ("deal_" ++ uuid) = some (dealRowFor uuid R o) := by
    rw [h4.1]
    exact findDeal_append_new (dealsDelete db did).1 (dealRowFor uuid R o) hfreshD
  have h5 := dealsApprove_ok _ ("deal_" ++ uuid) approvedAt (dealRowFor uuid R o) hD rfl
  obtain ⟨r, hr⟩ := hadapter
    { dealRowFor uuid R o with status := DealStatus.approved, approved_at := some approvedAt }
  have h6 := dealsExecute_ok _ ("deal_" ++ uuid) adapter executedAt _ r h5.2 rfl hr
  exact ⟨by rw [hdel], hnone, h4.2, hD, h5.1, h6.1, r, h6.2⟩

/-- C30, on `ledgerExecuted`: the executed `deal_d1` is deleted, a second deal
`deal_d2` is created from the same offer at `awaiting_approval` with amount
1,500,000,000, and it is approved and executed again. -/
theorem deal_recreated_after_delete_witness :
    findDeal ledgerExecuted "deal_d1" = some executedDeal
    ∧ (dealsDelete ledgerExecuted "deal_d1").2.status = 200
    ∧ (createDeal (dealsDelete ledgerExecuted "deal_d1").1 "d2" "req_r1" "off_o1").2.status
        = 201
    ∧ findDeal (createDeal (dealsDelete ledgerExecuted "deal_d1").1 "d2" "req_r1" "off_o1").1
        "deal_d2"
        = some (dealRowFor "d2" closedRequest { pendingOffer with status := OfferStatus.accepted })
    ∧ (dealRowFor "d2" closedRequest
        { pendingOffer with status := OfferStatus.accepted }).amount_nano = 1500000000
    ∧ (dealsExecute
        (dealsApprove (createDeal (dealsDelete ledgerExecuted "deal_d1").1 "d2" "req_r1"
          "off_o1").1 "deal_d2" "2026-01-02T00:00:00.000Z").1 "deal_d2" okAdapter
        "2026-01-02T00:00:01.000Z").2.status = 200 :=
  have h := deal_recreated_after_delete ledgerExecuted "deal_d1" "d2" executedDeal
    { pendingOffer with status := OfferStatus.accepted } closedRequest okAdapter
    "2026-01-02T00:00:00.000Z" "2026-01-02T00:00:01.000Z"
    (by decide) (by decide) (by decide) (by decide) (by decide) (by decide) (by decide)
    (by decide) (by decide) (by decide) (fun _ => ⟨"mcp_receipt_0123456789abcdef", rfl⟩)
  ⟨by decide, h.1, h.2.2.1, h.2.2.2.1, by decide, h.2.2.2.2.2.1⟩

end TAK
